import Mathlib

/-!
# High-performance particle system: embedding and verification

Shallow embedding of `src/src/Systems/HighPerformanceParticleSystem.cpp`
(with `include/Components.h` and `include/Systems/Random.h`).

Conventions of the embedding:

* `float` values are exact rationals (`ℚ`); the literals `0.9f`, `0.3f`, `0.05f`
  are `9/10`, `3/10`, `1/20`.
* `int` values are unbounded integers (`Int`); loop indices are naturals.
* `std::vector` is `List`; an unchecked `operator[]` outside the vector makes the
  embedded function return `none`.
* The global `std::mt19937` generator is a draw counter threaded through the
  functions; the `n`-th call of `Random::Range(min, max)` returns
  `R.Range n min max` for an arbitrary oracle `R`.
* `cos`, `sin` and `glm::two_pi` come from outside the repository and are
  parameters (`Trig`).
* The draws for one particle are numbered in the textual order of the calls in
  `EmitParticles`; C++ leaves the order of constructor arguments open, and no
  statement below depends on it.
* Division is the division of `ℚ`, with `x / 0 = 0`.  For `spawnRate = 0` the source
  compares the timer with an infinite interval and emits nothing; the embedding
  requests `static_cast<int>(0) = 0` particles and emits nothing either.
* The contents of the four OpenGL buffer objects are kept in the component,
  under the names of their handles.
* Rounding is modelled in one place, the spawn timer of `Update` (lines 68-73):
  `spawnPhase32`, `Update32` and `runTicks32` repeat `spawnPhase`, `Update` and
  `runTicks` with the result of every `float` operation on the timer rounded to
  binary32 by `fl32`.  They show where the pacing of the program leaves the pacing
  of exact arithmetic; the simulation loop stays exact in both.
-/

/-- Three component vector, `glm::vec3`. -/
structure Vec3 where
  x : ℚ
  y : ℚ
  z : ℚ
deriving DecidableEq

/-- Four component vector, `glm::vec4`; for colours `x y z w` are `r g b a`. -/
structure Vec4 where
  x : ℚ
  y : ℚ
  z : ℚ
  w : ℚ
deriving DecidableEq

namespace Vec3

/-- Componentwise sum, `glm::vec3 + glm::vec3`. -/
def add (a b : Vec3) : Vec3 := ⟨a.x + b.x, a.y + b.y, a.z + b.z⟩

/-- Scaling, `glm::vec3 * float`. -/
def scale (a : Vec3) (k : ℚ) : Vec3 := ⟨a.x * k, a.y * k, a.z * k⟩

end Vec3

namespace Vec4

/-- Constructor `glm::vec4(float)`: all four components equal. -/
def splat (k : ℚ) : Vec4 := ⟨k, k, k, k⟩

/-- Constructor `glm::vec4(glm::vec3, float)`. -/
def ofVec3 (v : Vec3) (w : ℚ) : Vec4 := ⟨v.x, v.y, v.z, w⟩

/-- The leading three components (the `reinterpret_cast<glm::vec3*>` view). -/
def xyz (v : Vec4) : Vec3 := ⟨v.x, v.y, v.z⟩

end Vec4

/-- Transform component (`Components.h`). -/
structure TransformComponent where
  position : Vec3
  rotation : Vec3
  scale : Vec3

/-- The component `HPParticleComponent` of `Components.h`.  The four buffer
fields hold the contents of the OpenGL buffer objects. -/
structure HPParticleComponent where
  positionBuffer : List Vec4
  velocityBuffer : List Vec4
  lifetimeBuffer : List ℚ
  colorBuffer : List Vec4
  positions : List Vec4
  velocities : List Vec4
  colors : List Vec4
  lifetimes : List ℚ
  baseColor : Vec3
  colorVariation : ℚ
  maxParticles : Int
  spawnRate : ℚ
  timeSinceLastSpawn : ℚ
  emitterPosition : Vec3
  gravity : Vec3
  initialVelocityMin : Vec3
  initialVelocityMax : Vec3
  initialLifespanMin : ℚ
  initialLifespanMax : ℚ
  initialSizeMin : ℚ
  initialSizeMax : ℚ
  emissionRadius : ℚ
  activeParticles : Int

/-- The random source, class `Random` of `Random.h`: `Range n min max` is the
value returned by the `n`-th call of `Random::Range(min, max)`. -/
structure RandomSource where
  Range : Nat → ℚ → ℚ → ℚ

/-- Trigonometric functions and the constant `glm::two_pi<float>()`, which are
library code outside the repository. -/
structure Trig where
  cos : ℚ → ℚ
  sin : ℚ → ℚ
  two_pi : ℚ

/-- Conversion `static_cast<int>(float)`: truncation toward zero. -/
def truncToInt (q : ℚ) : Int := Int.tdiv q.num q.den

/-- Rounding to the nearest integer, a tie going to the even neighbour. -/
def roundHalfEven (q : ℚ) : Int :=
  if q - ⌊q⌋ < 1 / 2 then ⌊q⌋
  else if 1 / 2 < q - ⌊q⌋ then ⌊q⌋ + 1
  else if ⌊q⌋ % 2 = 0 then ⌊q⌋ else ⌊q⌋ + 1

/-- Exponent of the unit in the last place of the binary32 numbers around `q`: a normal
number `2^e <= |q| < 2^(e+1)` with `e >= -126` has 24 significant bits, so the spacing
is `2^(e-23)`; below `2^-126` the spacing is `2^-149`. -/
def ulpExponent (q : ℚ) : Int := max (Int.log 2 |q|) (-126) - 23

/-- The `float` (IEEE 754 binary32) that an operation with the exact result `q`
returns: `q` rounded to the nearest multiple of the unit in the last place, ties to
even.  Results beyond the largest finite `float`, which the hardware turns into an
infinity, are outside the model. -/
def fl32 (q : ℚ) : ℚ := roundHalfEven (q / 2 ^ ulpExponent q) * 2 ^ ulpExponent q

/-- Method `std::vector::resize(n, value)`: keep the first `n` elements and pad
with copies of `value`. -/
def resize {α : Type} (xs : List α) (n : Nat) (value : α) : List α :=
  xs.take n ++ List.replicate (n - xs.length) value

/-- Call `glBufferSubData(target, 0, size, data)` on a buffer object: the leading
`size` bytes are overwritten; a range beyond the buffer store is a GL error and
leaves the buffer as it was. -/
def glBufferSubData {α : Type} (buffer data : List α) : List α :=
  if data.length ≤ buffer.length then data ++ buffer.drop data.length else buffer

namespace HighPerformanceParticleSystem

/-- The number of `Random::Range` calls made for one emitted particle. -/
def drawsPerParticle : Nat := 10

/-- One row across the parallel arrays: `positions[i]`, `velocities[i]`,
`colors[i]`, `lifetimes[i * 2]` and `lifetimes[i * 2 + 1]`. -/
structure ParticleSlot where
  position : Vec4
  velocity : Vec4
  color : Vec4
  lifetimeCurrent : ℚ
  lifetimeMax : ℚ
deriving DecidableEq

/-- Lines 139-170 of `EmitParticles`: the values computed for a new particle from
ten consecutive draws starting at draw number `g`. -/
def newParticle (R : RandomSource) (T : Trig) (system : HPParticleComponent) (g : Nat) :
    ParticleSlot :=
  let angle := R.Range g 0 T.two_pi
  let distance := R.Range (g + 1) 0 system.emissionRadius
  let offset : Vec3 := ⟨T.cos angle * distance, 0, T.sin angle * distance⟩
  let position := Vec4.ofVec3 (system.emitterPosition.add offset)
    (R.Range (g + 2) system.initialSizeMin system.initialSizeMax)
  let velocity : Vec4 :=
    ⟨R.Range (g + 3) system.initialVelocityMin.x system.initialVelocityMax.x,
     R.Range (g + 4) system.initialVelocityMin.y system.initialVelocityMax.y,
     R.Range (g + 5) system.initialVelocityMin.z system.initialVelocityMax.z,
     1 / 20⟩
  let r := system.baseColor.x + R.Range (g + 6) (-system.colorVariation) system.colorVariation
  let gr := system.baseColor.y + R.Range (g + 7) (-system.colorVariation) system.colorVariation
  let b := system.baseColor.z + R.Range (g + 8) (-system.colorVariation) system.colorVariation
  let r := max 0 (min 1 r)
  let gr := max 0 (min 1 gr)
  let b := max 0 (min 1 b)
  let lifetime := R.Range (g + 9) system.initialLifespanMin system.initialLifespanMax
  ⟨position, velocity, ⟨r, gr, b, 0⟩, lifetime, lifetime⟩

/-- Lines 139-172 of `EmitParticles`: the body of the `if`, which computes a new
particle and stores it in slot `i`. -/
def emitParticle (R : RandomSource) (T : Trig) (system : HPParticleComponent) (i g : Nat) :
    Option HPParticleComponent :=
  let p := newParticle R T system g
  if i < system.positions.length ∧ i < system.velocities.length ∧ i < system.colors.length
      ∧ i * 2 + 1 < system.lifetimes.length then
    some { system with
      positions := system.positions.set i p.position
      velocities := system.velocities.set i p.velocity
      colors := system.colors.set i p.color
      lifetimes := (system.lifetimes.set (i * 2) p.lifetimeCurrent).set (i * 2 + 1) p.lifetimeMax }
  else none

/-- The `for` loop of `EmitParticles` (lines 135-176) from index `i`, with
`remaining = maxParticles - i` iterations left.  Returns the component, the draw
counter and the final value of the local `emitted`. -/
def emitLoop (R : RandomSource) (T : Trig) (count : Int) :
    Nat → Nat → Int → HPParticleComponent → Nat →
      Option (HPParticleComponent × Nat × Int)
  | 0, _, emitted, system, g => some (system, g, emitted)
  | remaining + 1, i, emitted, system, g =>
    if emitted < count then
      match system.lifetimes[i * 2]? with
      | none => none
      | some currentLife =>
        if currentLife < 0 then
          match emitParticle R T system i g with
          | none => none
          | some system1 =>
            emitLoop R T count remaining (i + 1) (emitted + 1) system1 (g + drawsPerParticle)
        else emitLoop R T count remaining (i + 1) emitted system g
    else some (system, g, emitted)

/-- Function `EmitParticles(system, count)`.  The third component of the result is
the final value of the local variable `emitted`. -/
def EmitParticles (R : RandomSource) (T : Trig) (system : HPParticleComponent) (count : Int)
    (g : Nat) : Option (HPParticleComponent × Nat × Int) :=
  let count := min count system.maxParticles
  emitLoop R T count system.maxParticles.toNat 0 0 system g

/-- The alpha chosen from the life ratio (lines 114-124 of `Update`). -/
def fadeAlpha (lifeRatio : ℚ) : ℚ :=
  if lifeRatio > 9 / 10 then (1 - lifeRatio) * 10
  else if lifeRatio < 3 / 10 then lifeRatio / (3 / 10)
  else 1

/-- One iteration of the simulation loop of `Update` (lines 82-124) for slot `i`. -/
def updateParticle (deltaTime : ℚ) (system : HPParticleComponent) (i : Nat) :
    Option HPParticleComponent :=
  match system.lifetimes[i * 2]?, system.lifetimes[i * 2 + 1]? with
  | some currentLife, some maxLife =>
    if currentLife < 0 then some system
    else
      let currentLife := currentLife - deltaTime
      let lifetimes := system.lifetimes.set (i * 2) currentLife
      if currentLife ≤ 0 then
        some { system with lifetimes := lifetimes.set (i * 2) (-1) }
      else
        match system.positions[i]?, system.velocities[i]?, system.colors[i]? with
        | some pos, some vel, some col =>
          let damping := vel.w
          let vel3 := (vel.xyz.add (system.gravity.scale deltaTime)).scale (1 - damping * deltaTime)
          let pos3 := pos.xyz.add (vel3.scale deltaTime)
          let lifeRatio := currentLife / maxLife
          some { system with
            lifetimes := lifetimes
            activeParticles := system.activeParticles + 1
            velocities := system.velocities.set i (Vec4.ofVec3 vel3 vel.w)
            positions := system.positions.set i (Vec4.ofVec3 pos3 pos.w)
            colors := system.colors.set i ⟨col.x, col.y, col.z, fadeAlpha lifeRatio⟩ }
        | _, _, _ => none
  | _, _ => none

/-- The simulation loop of `Update` (lines 81-125) from index `i`, with
`remaining = maxParticles - i` iterations left. -/
def updateLoop (deltaTime : ℚ) :
    Nat → Nat → HPParticleComponent → Option HPParticleComponent
  | 0, _, system => some system
  | remaining + 1, i, system =>
    match updateParticle deltaTime system i with
    | none => none
    | some system1 => updateLoop deltaTime remaining (i + 1) system1

/-- Function `UpdateGPUBuffers(system)`: three `glBufferSubData` calls. -/
def UpdateGPUBuffers (system : HPParticleComponent) : HPParticleComponent :=
  { system with
    positionBuffer := glBufferSubData system.positionBuffer system.positions
    colorBuffer := glBufferSubData system.colorBuffer system.colors
    lifetimeBuffer := glBufferSubData system.lifetimeBuffer system.lifetimes }

/-- Lines 65-76 of `Update`: the emitter position is refreshed, the spawn timer is
advanced and particles are emitted.  Returns the component, the draw counter, the
number of particles requested from `EmitParticles` (0 when it is not called) and
the number emitted. -/
def spawnPhase (R : RandomSource) (T : Trig) (system : HPParticleComponent)
    (transform : TransformComponent) (deltaTime : ℚ) (g : Nat) :
    Option (HPParticleComponent × Nat × Int × Int) :=
  let system := { system with emitterPosition := transform.position }
  let system := { system with timeSinceLastSpawn := system.timeSinceLastSpawn + deltaTime }
  let spawnInterval := 1 / system.spawnRate
  if system.timeSinceLastSpawn ≥ spawnInterval then
    let particlesToSpawn := truncToInt (system.timeSinceLastSpawn / spawnInterval)
    let system := { system with
      timeSinceLastSpawn := system.timeSinceLastSpawn - particlesToSpawn * spawnInterval }
    match EmitParticles R T system particlesToSpawn g with
    | none => none
    | some (system1, g1, emitted) => some (system1, g1, particlesToSpawn, emitted)
  else some (system, g, 0, 0)

/-- Lines 78-125 of `Update`: the statistic is cleared and every slot is stepped. -/
def simulate (system : HPParticleComponent) (deltaTime : ℚ) : Option HPParticleComponent :=
  updateLoop deltaTime system.maxParticles.toNat 0 { system with activeParticles := 0 }

/-- Function `Update(ecs, deltaTime)` for one entity holding the component and a
transform.  The third component of the result is the number of particles emitted
by this tick. -/
def Update (R : RandomSource) (T : Trig) (system : HPParticleComponent)
    (transform : TransformComponent) (deltaTime : ℚ) (g : Nat) :
    Option (HPParticleComponent × Nat × Int) :=
  match spawnPhase R T system transform deltaTime g with
  | none => none
  | some (system1, g1, _, emitted) =>
    match simulate system1 deltaTime with
    | none => none
    | some system2 => some (UpdateGPUBuffers system2, g1, emitted)

/-- The loop of lines 13-15 of `Initialize`: `lifetimes[i * 2] = -1` for every slot. -/
def deactivateAll : Nat → Nat → List ℚ → Option (List ℚ)
  | 0, _, lifetimes => some lifetimes
  | remaining + 1, i, lifetimes =>
    if i * 2 < lifetimes.length then deactivateAll remaining (i + 1) (lifetimes.set (i * 2) (-1))
    else none

/-- Function `Initialize(ecs, particleSysEntity)`.  A negative `maxParticles` makes
`resize` throw, which is the result `none`; `glBufferData` copies each array into
its buffer object. -/
def Initialize (R : RandomSource) (T : Trig) (system : HPParticleComponent) (g : Nat) :
    Option (HPParticleComponent × Nat) :=
  if system.maxParticles < 0 then none
  else
    let n := system.maxParticles.toNat
    let positions := resize system.positions n (Vec4.splat 0)
    let velocities := resize system.velocities n (Vec4.splat 0)
    let colors := resize system.colors n (Vec4.splat 1)
    let lifetimes := resize system.lifetimes (n * 2) 0
    match deactivateAll n 0 lifetimes with
    | none => none
    | some lifetimes1 =>
      let system1 := { system with
        positions := positions
        velocities := velocities
        colors := colors
        lifetimes := lifetimes1
        positionBuffer := positions
        velocityBuffer := velocities
        colorBuffer := colors
        lifetimeBuffer := lifetimes1 }
      match EmitParticles R T system1 (Int.tdiv system1.maxParticles 10) g with
      | none => none
      | some (system2, g2, _) => some (system2, g2)

/-- The row of slot `i`, when all five array reads are in range. -/
def slot (system : HPParticleComponent) (i : Nat) : Option ParticleSlot :=
  match system.positions[i]?, system.velocities[i]?, system.colors[i]?,
      system.lifetimes[i * 2]?, system.lifetimes[i * 2 + 1]? with
  | some p, some v, some c, some cur, some mx => some ⟨p, v, c, cur, mx⟩
  | _, _, _, _, _ => none

/-- The store has its allocated shape: three arrays of `maxParticles` elements and
`2 * maxParticles` lifetimes. -/
def StoreShape (system : HPParticleComponent) : Prop :=
  (system.positions.length : Int) = system.maxParticles ∧
  (system.velocities.length : Int) = system.maxParticles ∧
  (system.colors.length : Int) = system.maxParticles ∧
  (system.lifetimes.length : Int) = 2 * system.maxParticles

/-- The four arrays hold `n` slots. -/
def HasLengths (system : HPParticleComponent) (n : Nat) : Prop :=
  system.positions.length = n ∧ system.velocities.length = n ∧
  system.colors.length = n ∧ system.lifetimes.length = n * 2

/-- Everything in the component but the four arrays and the statistic. -/
def settings (system : HPParticleComponent) : HPParticleComponent :=
  { system with positions := [], velocities := [], colors := [], lifetimes := [],
                activeParticles := 0 }

/-- The capacity as a natural number. -/
def capacity (system : HPParticleComponent) : Nat := system.maxParticles.toNat

/-- Slot `i` is inactive: `lifetimes[i * 2] < 0`. -/
def Inactive (system : HPParticleComponent) (i : Nat) : Prop :=
  (system.lifetimes[i * 2]?).getD 0 < 0

instance (system : HPParticleComponent) : DecidablePred (Inactive system) :=
  fun i => inferInstanceAs (Decidable ((system.lifetimes[i * 2]?).getD 0 < 0))

/-- The effect of one iteration of the simulation loop on the row of its slot. -/
def stepSlot (gravity : Vec3) (deltaTime : ℚ) (q : ParticleSlot) : ParticleSlot :=
  if q.lifetimeCurrent < 0 then q
  else if q.lifetimeCurrent - deltaTime ≤ 0 then { q with lifetimeCurrent := -1 }
  else
    let vel3 := (q.velocity.xyz.add (gravity.scale deltaTime)).scale
      (1 - q.velocity.w * deltaTime)
    { position := Vec4.ofVec3 (q.position.xyz.add (vel3.scale deltaTime)) q.position.w
      velocity := Vec4.ofVec3 vel3 q.velocity.w
      color := ⟨q.color.x, q.color.y, q.color.z,
        fadeAlpha ((q.lifetimeCurrent - deltaTime) / q.lifetimeMax)⟩
      lifetimeCurrent := q.lifetimeCurrent - deltaTime
      lifetimeMax := q.lifetimeMax }

/-- The store is saturated: every slot below `maxParticles` has `lifetimes[i * 2] >= 0`. -/
def AllActive (system : HPParticleComponent) : Prop :=
  ∀ i, i < capacity system → ∃ c, system.lifetimes[i * 2]? = some c ∧ 0 ≤ c

/-- The inactive slots of the store, in ascending index order. -/
def inactiveSlots (system : HPParticleComponent) : List Nat :=
  (List.range (capacity system)).filter (fun i => decide (Inactive system i))

/-- The number `k = min(max(count, 0), maxParticles, number of inactive slots)`. -/
def emitCount (system : HPParticleComponent) (count : Int) : Nat :=
  (min (max count 0) (min system.maxParticles (inactiveSlots system).length)).toNat

/-- The number of particles the spawn phase of `Update` requests (lines 68-75):
`static_cast<int>(timeSinceLastSpawn / spawnInterval)` when the timer has reached the
interval, none otherwise. -/
def spawnRequest (system : HPParticleComponent) (deltaTime : ℚ) : Int :=
  if system.timeSinceLastSpawn + deltaTime ≥ 1 / system.spawnRate then
    truncToInt ((system.timeSinceLastSpawn + deltaTime) / (1 / system.spawnRate))
  else 0

/-- The component as `EmitParticles` receives it from the spawn phase: emitter moved to
the transform and the requested intervals taken off the advanced timer. -/
def afterTimer (system : HPParticleComponent) (transform : TransformComponent)
    (deltaTime : ℚ) : HPParticleComponent :=
  { system with
    emitterPosition := transform.position
    timeSinceLastSpawn := system.timeSinceLastSpawn + deltaTime
      - spawnRequest system deltaTime * (1 / system.spawnRate) }

/-- Consecutive `Update` calls with the same transform and `deltaTime`; the list holds
the number of particles emitted by each tick, first tick first. -/
def runTicks (R : RandomSource) (T : Trig) (transform : TransformComponent) (deltaTime : ℚ) :
    Nat → HPParticleComponent → Nat → Option (HPParticleComponent × Nat × List Int)
  | 0, system, g => some (system, g, [])
  | n + 1, system, g =>
    match Update R T system transform deltaTime g with
    | none => none
    | some (system1, g1, emitted) =>
      match runTicks R T transform deltaTime n system1 g1 with
      | none => none
      | some (system2, g2, rest) => some (system2, g2, emitted :: rest)

/-- At the start of each of the next `n` ticks the store has a free slot for every
particle the spawn phase requests. -/
def FreeSlotEachTick (R : RandomSource) (T : Trig) (transform : TransformComponent)
    (deltaTime : ℚ) : Nat → HPParticleComponent → Nat → Prop
  | 0, _, _ => True
  | n + 1, system, g =>
    spawnRequest system deltaTime ≤ (inactiveSlots system).length ∧
    ∀ system1 g1 emitted,
      Update R T system transform deltaTime g = some (system1, g1, emitted) →
      FreeSlotEachTick R T transform deltaTime n system1 g1

/-- The states reached by `Initialize` followed by `Update` ticks whose `deltaTime`
satisfies `P`; the transform may differ from tick to tick. -/
inductive Reachable (R : RandomSource) (T : Trig) (P : ℚ → Prop) :
    HPParticleComponent → Nat → Prop
  | init (s0 : HPParticleComponent) (g0 : Nat) (s : HPParticleComponent) (g : Nat) :
      Initialize R T s0 g0 = some (s, g) → Reachable R T P s g
  | tick (s : HPParticleComponent) (g : Nat) (tr : TransformComponent) (dt : ℚ)
      (s1 : HPParticleComponent) (g1 : Nat) (emitted : Int) :
      Reachable R T P s g → P dt → Update R T s tr dt g = some (s1, g1, emitted) →
      Reachable R T P s1 g1

/-- The number of active slots held by the store: the pairs of `lifetimes` whose
first element is not negative. -/
def activeSlotCount (system : HPParticleComponent) : Nat :=
  ((List.range (system.lifetimes.length / 2)).filter
    (fun i => decide (0 ≤ (system.lifetimes[i * 2]?).getD 0))).length

/-- A component as it is constructed, before `Initialize`: the four arrays are the
empty vectors of the member initialisers of `HPParticleComponent`. -/
def Fresh (system : HPParticleComponent) : Prop :=
  system.positions = [] ∧ system.velocities = [] ∧ system.colors = [] ∧ system.lifetimes = []

/-- The states reached by `Initialize`, called on a component that satisfies `I`,
followed by `Update` ticks whose `deltaTime` satisfies `P`. -/
inductive ReachableFrom (R : RandomSource) (T : Trig) (P : ℚ → Prop)
    (I : HPParticleComponent → Prop) : HPParticleComponent → Nat → Prop
  | init (s0 : HPParticleComponent) (g0 : Nat) (s : HPParticleComponent) (g : Nat) :
      I s0 → Initialize R T s0 g0 = some (s, g) → ReachableFrom R T P I s g
  | tick (s : HPParticleComponent) (g : Nat) (tr : TransformComponent) (dt : ℚ)
      (s1 : HPParticleComponent) (g1 : Nat) (emitted : Int) :
      ReachableFrom R T P I s g → P dt → Update R T s tr dt g = some (s1, g1, emitted) →
      ReachableFrom R T P I s1 g1

/-- Each buffer object has the size of the array it mirrors (what `glBufferData`
establishes in `Initialize`). -/
def BuffersAllocated (system : HPParticleComponent) : Prop :=
  system.positionBuffer.length = system.positions.length ∧
  system.velocityBuffer.length = system.velocities.length ∧
  system.colorBuffer.length = system.colors.length ∧
  system.lifetimeBuffer.length = system.lifetimes.length

/-- The component `Initialize` hands to `EmitParticles` (after line 54): arrays resized,
every slot deactivated (`lifetimes1`), each buffer object a copy of its array. -/
def allocated (system : HPParticleComponent) (lifetimes1 : List ℚ) : HPParticleComponent :=
  { system with
    positions := resize system.positions system.maxParticles.toNat (Vec4.splat 0)
    velocities := resize system.velocities system.maxParticles.toNat (Vec4.splat 0)
    colors := resize system.colors system.maxParticles.toNat (Vec4.splat 1)
    lifetimes := lifetimes1
    positionBuffer := resize system.positions system.maxParticles.toNat (Vec4.splat 0)
    velocityBuffer := resize system.velocities system.maxParticles.toNat (Vec4.splat 0)
    colorBuffer := resize system.colors system.maxParticles.toNat (Vec4.splat 1)
    lifetimeBuffer := lifetimes1 }

/-- The two components have arrays of the same four lengths. -/
def SameLengths (system system1 : HPParticleComponent) : Prop :=
  system1.positions.length = system.positions.length ∧
  system1.velocities.length = system.velocities.length ∧
  system1.colors.length = system.colors.length ∧
  system1.lifetimes.length = system.lifetimes.length

/-- The row of a slot that `Initialize` allocates in a fresh component and no emission
has touched: zero position and velocity, colour `glm::vec4(1.0f)`, lifetime pair
`(-1, 0)`. -/
def untouchedSlot : ParticleSlot :=
  ⟨Vec4.splat 0, Vec4.splat 0, Vec4.splat 1, -1, 0⟩

/-- The number of particles `Initialize` requests: `maxParticles / 10`. -/
def initialCount (system : HPParticleComponent) : Nat :=
  (system.maxParticles / 10).toNat

/-- The effect of the damping factor `1 - k` (with `k = damping * dt`) on a velocity
component `u = velocity + gravity * dt`, giving `v`: for `0 <= k < 1` the sign is kept
and the magnitude does not grow, for `k > 1` the sign of a non-zero component flips. -/
def DampingEffect (u v k : ℚ) : Prop :=
  (0 ≤ k → k < 1 → SignType.sign v = SignType.sign u ∧ |v| ≤ |u|) ∧
  (1 < k → u ≠ 0 → SignType.sign v = -SignType.sign u)

/-- Slot `i` is active: `lifetimes[i * 2] >= 0`. -/
def Active (system : HPParticleComponent) (i : Nat) : Prop :=
  0 ≤ (system.lifetimes[i * 2]?).getD 0

instance (system : HPParticleComponent) : DecidablePred (Active system) :=
  fun i => inferInstanceAs (Decidable (0 ≤ (system.lifetimes[i * 2]?).getD 0))

/-- Lines 65-76 of `Update` with the timer in `float` arithmetic: the sum of line 68,
the quotient `1.0f / spawnRate` of line 69, the quotient of line 72, the conversion of
`particlesToSpawn` to `float`, the product and the difference of line 73 are each
rounded to binary32.  The comparison of line 71 and `static_cast<int>` are exact.
Returns what `spawnPhase` returns. -/
def spawnPhase32 (R : RandomSource) (T : Trig) (system : HPParticleComponent)
    (transform : TransformComponent) (deltaTime : ℚ) (g : Nat) :
    Option (HPParticleComponent × Nat × Int × Int) :=
  let system := { system with emitterPosition := transform.position }
  let system := { system with
    timeSinceLastSpawn := fl32 (system.timeSinceLastSpawn + deltaTime) }
  let spawnInterval := fl32 (1 / system.spawnRate)
  if system.timeSinceLastSpawn ≥ spawnInterval then
    let particlesToSpawn := truncToInt (fl32 (system.timeSinceLastSpawn / spawnInterval))
    let system := { system with
      timeSinceLastSpawn :=
        fl32 (system.timeSinceLastSpawn - fl32 (fl32 particlesToSpawn * spawnInterval)) }
    match EmitParticles R T system particlesToSpawn g with
    | none => none
    | some (system1, g1, emitted) => some (system1, g1, particlesToSpawn, emitted)
  else some (system, g, 0, 0)

/-- Function `Update(ecs, deltaTime)` with the spawn timer in `float` arithmetic. -/
def Update32 (R : RandomSource) (T : Trig) (system : HPParticleComponent)
    (transform : TransformComponent) (deltaTime : ℚ) (g : Nat) :
    Option (HPParticleComponent × Nat × Int) :=
  match spawnPhase32 R T system transform deltaTime g with
  | none => none
  | some (system1, g1, _, emitted) =>
    match simulate system1 deltaTime with
    | none => none
    | some system2 => some (UpdateGPUBuffers system2, g1, emitted)

/-- The timer arithmetic of lines 68-73 in `float`, on its own: from `spawnRate`, the
timer and `deltaTime` to the new timer and the number of particles requested (0 when
the branch of line 71 is not taken). -/
def spawnTimer32 (spawnRate timeSinceLastSpawn deltaTime : ℚ) : ℚ × Int :=
  let timeSinceLastSpawn := fl32 (timeSinceLastSpawn + deltaTime)
  let spawnInterval := fl32 (1 / spawnRate)
  if timeSinceLastSpawn ≥ spawnInterval then
    let particlesToSpawn := truncToInt (fl32 (timeSinceLastSpawn / spawnInterval))
    (fl32 (timeSinceLastSpawn - fl32 (fl32 particlesToSpawn * spawnInterval)),
      particlesToSpawn)
  else (timeSinceLastSpawn, 0)

/-- The number of particles the spawn phase requests when the timer is a `float`. -/
def spawnRequest32 (system : HPParticleComponent) (deltaTime : ℚ) : Int :=
  (spawnTimer32 system.spawnRate system.timeSinceLastSpawn deltaTime).2

/-- The component as `EmitParticles` receives it from the spawn phase when the timer is
a `float`. -/
def afterTimer32 (system : HPParticleComponent) (transform : TransformComponent)
    (deltaTime : ℚ) : HPParticleComponent :=
  { system with
    emitterPosition := transform.position
    timeSinceLastSpawn :=
      (spawnTimer32 system.spawnRate system.timeSinceLastSpawn deltaTime).1 }

/-- Consecutive `Update32` calls with the same transform and `deltaTime`; the list holds
the number of particles emitted by each tick, first tick first. -/
def runTicks32 (R : RandomSource) (T : Trig) (transform : TransformComponent)
    (deltaTime : ℚ) :
    Nat → HPParticleComponent → Nat → Option (HPParticleComponent × Nat × List Int)
  | 0, system, g => some (system, g, [])
  | n + 1, system, g =>
    match Update32 R T system transform deltaTime g with
    | none => none
    | some (system1, g1, emitted) =>
      match runTicks32 R T transform deltaTime n system1 g1 with
      | none => none
      | some (system2, g2, rest) => some (system2, g2, emitted :: rest)

/-- At the start of each of the next `n` ticks of `Update32` the store has a free slot
for every particle the spawn phase requests. -/
def FreeSlotEachTick32 (R : RandomSource) (T : Trig) (transform : TransformComponent)
    (deltaTime : ℚ) : Nat → HPParticleComponent → Nat → Prop
  | 0, _, _ => True
  | n + 1, system, g =>
    spawnRequest32 system deltaTime ≤ (inactiveSlots system).length ∧
    ∀ system1 g1 emitted,
      Update32 R T system transform deltaTime g = some (system1, g1, emitted) →
      FreeSlotEachTick32 R T transform deltaTime n system1 g1

end HighPerformanceParticleSystem

/-! ## Concrete data used to instantiate the theorems -/

/-- A random source that always returns the lower end of the requested range. -/
def lowRandom : RandomSource := ⟨fun _ lo _ => lo⟩

/-- A rational parametrisation of the unit circle standing for `cos` and `sin`. -/
def circleTrig : Trig :=
  ⟨fun a => (1 - a * a) / (1 + a * a), fun a => 2 * a / (1 + a * a), 44 / 7⟩

/-- A store of three slots: slots 0 and 2 inactive, slot 1 active with lifetime 2 of 4. -/
def sampleStore : HPParticleComponent where
  positionBuffer := []
  velocityBuffer := []
  lifetimeBuffer := []
  colorBuffer := []
  positions := [⟨0, 0, 0, 0⟩, ⟨1, 2, 3, 1⟩, ⟨0, 0, 0, 0⟩]
  velocities := [⟨0, 0, 0, 0⟩, ⟨1, 0, -1, 1 / 20⟩, ⟨0, 0, 0, 0⟩]
  colors := [⟨1, 1, 1, 1⟩, ⟨1, 1 / 2, 1, 0⟩, ⟨1, 1, 1, 1⟩]
  lifetimes := [-1, 0, 2, 4, -1, 0]
  baseColor := ⟨1, 7 / 10, 1⟩
  colorVariation := 1 / 10
  maxParticles := 3
  spawnRate := 5
  timeSinceLastSpawn := 0
  emitterPosition := ⟨0, 0, 0⟩
  gravity := ⟨0, -1 / 100, 0⟩
  initialVelocityMin := ⟨-1 / 2, 1 / 10, -1 / 2⟩
  initialVelocityMax := ⟨1 / 2, 2, 1 / 2⟩
  initialLifespanMin := 3
  initialLifespanMax := 6
  initialSizeMin := 1 / 20
  initialSizeMax := 1 / 5
  emissionRadius := 1 / 2
  activeParticles := 0

/-- The sample store with all three slots active. -/
def fullStore : HPParticleComponent := { sampleStore with lifetimes := [1, 2, 2, 4, 3, 3] }

/-- A component with empty arrays and a capacity of two, as before `Initialize`. -/
def blankStore : HPParticleComponent :=
  { sampleStore with positions := [], velocities := [], colors := [], lifetimes := [],
                     maxParticles := 2 }

/-- The component `Initialize` makes of `blankStore`: two inactive slots, no particle
emitted since `2 / 10 = 0`. -/
def initStore : HPParticleComponent :=
  { blankStore with
    positions := [⟨0, 0, 0, 0⟩, ⟨0, 0, 0, 0⟩]
    velocities := [⟨0, 0, 0, 0⟩, ⟨0, 0, 0, 0⟩]
    colors := [⟨1, 1, 1, 1⟩, ⟨1, 1, 1, 1⟩]
    lifetimes := [-1, 0, -1, 0]
    positionBuffer := [⟨0, 0, 0, 0⟩, ⟨0, 0, 0, 0⟩]
    velocityBuffer := [⟨0, 0, 0, 0⟩, ⟨0, 0, 0, 0⟩]
    colorBuffer := [⟨1, 1, 1, 1⟩, ⟨1, 1, 1, 1⟩]
    lifetimeBuffer := [-1, 0, -1, 0] }

/-- A transform placed at the origin. -/
def originTransform : TransformComponent := ⟨⟨0, 0, 0⟩, ⟨0, 0, 0⟩, ⟨1, 1, 1⟩⟩

/-- The component after `Initialize` and one `Update` tick of `dt = 1/5` on
`blankStore`, with the random source `lowRandom`: slot 0 holds a particle with
lifetime 14/5 of 3. -/
def tickStore : HPParticleComponent :=
  { initStore with
    positions := [⟨-99 / 1000, 4851 / 250000, -99 / 1000, 1 / 20⟩, ⟨0, 0, 0, 0⟩]
    velocities := [⟨-99 / 200, 4851 / 50000, -99 / 200, 1 / 20⟩, ⟨0, 0, 0, 0⟩]
    colors := [⟨9 / 10, 3 / 5, 9 / 10, 2 / 3⟩, ⟨1, 1, 1, 1⟩]
    lifetimes := [14 / 5, 3, -1, 0]
    positionBuffer := [⟨-99 / 1000, 4851 / 250000, -99 / 1000, 1 / 20⟩, ⟨0, 0, 0, 0⟩]
    colorBuffer := [⟨9 / 10, 3 / 5, 9 / 10, 2 / 3⟩, ⟨1, 1, 1, 1⟩]
    lifetimeBuffer := [14 / 5, 3, -1, 0]
    activeParticles := 1 }

/-- A random source that always returns the middle of the requested range. -/
def midRandom : RandomSource := ⟨fun _ lo hi => (lo + hi) / 2⟩

/-- The sample store with slot 1 about to expire: lifetime 0.05 of 4. -/
def expiringStore : HPParticleComponent :=
  { sampleStore with lifetimes := [-1, 0, 1 / 20, 4, -1, 0] }

/-- A freshly constructed component with a capacity of twenty. -/
def freshStore : HPParticleComponent := { blankStore with maxParticles := 20 }

/-- The `float` literal `0.1f`: the binary32 number nearest to one tenth,
`13421773 * 2^-27 = 0.100000001490116`. -/
def tenth32 : ℚ := 13421773 / 134217728

/-- A store of four slots, all inactive, with `spawnRate = 3` and the timer at 0. -/
def paceStore : HPParticleComponent :=
  { sampleStore with
    positions := [⟨0, 0, 0, 0⟩, ⟨0, 0, 0, 0⟩, ⟨0, 0, 0, 0⟩, ⟨0, 0, 0, 0⟩]
    velocities := [⟨0, 0, 0, 0⟩, ⟨0, 0, 0, 0⟩, ⟨0, 0, 0, 0⟩, ⟨0, 0, 0, 0⟩]
    colors := [⟨1, 1, 1, 1⟩, ⟨1, 1, 1, 1⟩, ⟨1, 1, 1, 1⟩, ⟨1, 1, 1, 1⟩]
    lifetimes := [-1, 0, -1, 0, -1, 0, -1, 0]
    maxParticles := 4
    spawnRate := 3 }

/-! ## Lemmas on the store -/

namespace HighPerformanceParticleSystem

theorem storeShape_iff (s : HPParticleComponent) :
    StoreShape s ↔ 0 ≤ s.maxParticles ∧ HasLengths s (capacity s) := by
  unfold StoreShape HasLengths capacity
  constructor
  · rintro ⟨h1, h2, h3, h4⟩
    refine ⟨by omega, ?_, ?_, ?_, ?_⟩ <;> omega
  · rintro ⟨h0, h1, h2, h3, h4⟩
    refine ⟨?_, ?_, ?_, ?_⟩ <;> omega

theorem slot_isSome {s : HPParticleComponent} {n j : Nat} (h : HasLengths s n) (hj : j < n) :
    ∃ p v c cur mx, s.positions[j]? = some p ∧ s.velocities[j]? = some v ∧
      s.colors[j]? = some c ∧ s.lifetimes[j * 2]? = some cur ∧
      s.lifetimes[j * 2 + 1]? = some mx ∧ slot s j = some ⟨p, v, c, cur, mx⟩ := by
  obtain ⟨h1, h2, h3, h4⟩ := h
  have e1 : s.positions[j]? = some (s.positions[j]) := List.getElem?_eq_getElem (by omega)
  have e2 : s.velocities[j]? = some (s.velocities[j]) := List.getElem?_eq_getElem (by omega)
  have e3 : s.colors[j]? = some (s.colors[j]) := List.getElem?_eq_getElem (by omega)
  have e4 : s.lifetimes[j * 2]? = some (s.lifetimes[j * 2]) := List.getElem?_eq_getElem (by omega)
  have e5 : s.lifetimes[j * 2 + 1]? = some (s.lifetimes[j * 2 + 1]) :=
    List.getElem?_eq_getElem (by omega)
  exact ⟨_, _, _, _, _, e1, e2, e3, e4, e5, by simp only [slot, e1, e2, e3, e4, e5]⟩

theorem slot_eq_some_iff {s : HPParticleComponent} {j : Nat} {q : ParticleSlot} :
    slot s j = some q ↔ s.positions[j]? = some q.position ∧
      s.velocities[j]? = some q.velocity ∧ s.colors[j]? = some q.color ∧ s.lifetimes[j * 2]? = some q.lifetimeCurrent ∧
      s.lifetimes[j * 2 + 1]? = some q.lifetimeMax := by
  unfold slot
  constructor
  · intro h
    split at h
    · rename_i p v c cur mx e1 e2 e3 e4 e5
      cases h
      exact ⟨e1, e2, e3, e4, e5⟩
    · cases h
  · rintro ⟨e1, e2, e3, e4, e5⟩
    simp only [e1, e2, e3, e4, e5]

/-- Writing a whole row: the row itself reads back, every other row is untouched. -/
theorem slot_write {s : HPParticleComponent} {n i : Nat} (h : HasLengths s n) (hi : i < n)
    (q : ParticleSlot) (a : Int) :
    let s1 : HPParticleComponent := { s with
      positions := s.positions.set i q.position
      velocities := s.velocities.set i q.velocity
      colors := s.colors.set i q.color
      lifetimes := (s.lifetimes.set (i * 2) q.lifetimeCurrent).set (i * 2 + 1) q.lifetimeMax
      activeParticles := a }
    HasLengths s1 n ∧ slot s1 i = some q ∧ ∀ j, j ≠ i → slot s1 j = slot s j := by
  obtain ⟨h1, h2, h3, h4⟩ := h
  intro s1
  refine ⟨⟨by simp [s1, h1], by simp [s1, h2], by simp [s1, h3], by simp [s1, h4]⟩, ?_, ?_⟩
  · rw [slot_eq_some_iff]
    simp only [s1, List.getElem?_set, List.length_set]
    refine ⟨?_, ?_, ?_, ?_, ?_⟩
    · simp; omega
    · simp; omega
    · simp; omega
    · simp; omega
    · simp; omega
  · intro j hj
    have a1 : ¬ i = j := fun e => hj e.symm
    have a2 : ¬ i * 2 = j * 2 := by omega
    have a3 : ¬ i * 2 + 1 = j * 2 := by omega
    have a4 : ¬ i * 2 = j * 2 + 1 := by omega
    have a5 : ¬ i * 2 + 1 = j * 2 + 1 := by omega
    simp only [slot, s1, List.getElem?_set, a1, a2, a3, a4, a5, if_false]

theorem inactive_iff_of_slot {s : HPParticleComponent} {j : Nat} {q : ParticleSlot}
    (h : slot s j = some q) : Inactive s j ↔ q.lifetimeCurrent < 0 := by
  rw [slot_eq_some_iff] at h
  simp [Inactive, h.2.2.2.1]

theorem inactive_congr {s s1 : HPParticleComponent} {n j : Nat} (h : HasLengths s n) (hj : j < n)
    (e : slot s1 j = slot s j) : Inactive s1 j ↔ Inactive s j := by
  obtain ⟨p, v, c, cur, mx, -, -, -, -, -, es⟩ := slot_isSome h hj
  rw [inactive_iff_of_slot es, inactive_iff_of_slot (e.trans es)]

theorem newParticle_settings (R : RandomSource) (T : Trig) {s s1 : HPParticleComponent}
    (h : settings s = settings s1) (g : Nat) : newParticle R T s g = newParticle R T s1 g := by
  show newParticle R T (settings s) g = newParticle R T (settings s1) g
  rw [h]

theorem emitParticle_eq (R : RandomSource) (T : Trig) {s : HPParticleComponent} {n i : Nat}
    (g : Nat) (h : HasLengths s n) (hi : i < n) :
    ∃ s1, emitParticle R T s i g = some s1 ∧ HasLengths s1 n ∧ settings s1 = settings s ∧
      s1.activeParticles = s.activeParticles ∧ slot s1 i = some (newParticle R T s g) ∧
      ∀ j, j ≠ i → slot s1 j = slot s j := by
  obtain ⟨w1, w2, w3⟩ := slot_write h hi (newParticle R T s g) s.activeParticles
  obtain ⟨h1, h2, h3, h4⟩ := h
  refine ⟨_, ?_, w1, rfl, rfl, w2, w3⟩
  unfold emitParticle
  rw [if_pos ⟨by omega, by omega, by omega, by omega⟩]

/-- The emission loop, described slot by slot.  `p` is inactivity on entry of the
function and `Nat.count p i` the number of inactive slots below `i`. -/
theorem emitLoop_spec (R : RandomSource) (T : Trig) (count : Int) (p : Nat → Prop)
    [DecidablePred p] (g0 n : Nat) (s0 : HPParticleComponent) :
    ∀ (remaining i : Nat) (s : HPParticleComponent), i + remaining = n → HasLengths s n →
      settings s = settings s0 → (∀ m, i ≤ m → m < n → (Inactive s m ↔ p m)) →
      ∃ s1, emitLoop R T count remaining i (Nat.count p i) s (g0 + 10 * Nat.count p i)
          = some (s1, g0 + 10 * (max (Nat.count p i : Int) (min count (Nat.count p n))).toNat,
              max (Nat.count p i : Int) (min count (Nat.count p n))) ∧
        HasLengths s1 n ∧ settings s1 = settings s0 ∧ s1.activeParticles = s.activeParticles ∧
        ∀ j, j < n → slot s1 j =
          if i ≤ j ∧ p j ∧ (Nat.count p j : Int) < count
          then some (newParticle R T s0 (g0 + 10 * Nat.count p j)) else slot s j := by
  intro remaining
  induction remaining with
  | zero =>
    intro i s hn hl hs hp
    have hin : i = n := by omega
    subst hin
    have hK : max (Nat.count p i : Int) (min count (Nat.count p i)) = Nat.count p i := by omega
    refine ⟨s, ?_, hl, hs, rfl, ?_⟩
    · rw [hK]; simp [emitLoop]
    · intro j hj
      rw [if_neg (by omega)]
  | succ r ih =>
    intro i s hn hl hs hp
    have hi : i < n := by omega
    obtain ⟨pp, v, c, cur, mx, -, -, -, e4, -, es⟩ := slot_isSome hl hi
    have hm1 : Nat.count p (i + 1) ≤ Nat.count p n := Nat.count_monotone p (by omega)
    have hsucc := Nat.count_succ p i
    have hin : Inactive s i ↔ cur < 0 := inactive_iff_of_slot es
    have hmono : ∀ j, i ≤ j → Nat.count p i ≤ Nat.count p j :=
      fun j hj => Nat.count_monotone p hj
    rw [emitLoop]
    by_cases hc : (Nat.count p i : Int) < count
    · rw [if_pos hc]
      simp only [e4]
      by_cases hcur : cur < 0
      · have hpi : p i := (hp i le_rfl hi).1 (hin.2 hcur)
        rw [if_pos hcur]
        obtain ⟨s1, he, hl1, hs1, ha1, hslot1, hother⟩ :=
          emitParticle_eq R T (g0 + 10 * Nat.count p i) hl hi
        simp only [he]
        have hc1 : Nat.count p (i + 1) = Nat.count p i + 1 := by rw [hsucc, if_pos hpi]
        obtain ⟨s2, hres, hl2, hs2, ha2, hslots⟩ := ih (i + 1) s1 (by omega) hl1 (hs1.trans hs)
          (fun m hm hmn => (inactive_congr hl hmn (hother m (by omega))).trans
            (hp m (by omega) hmn))
        have hK : max (Nat.count p (i + 1) : Int) (min count (Nat.count p n))
            = max (Nat.count p i : Int) (min count (Nat.count p n)) := by omega
        refine ⟨s2, ?_, hl2, hs2, ha2.trans ha1, ?_⟩
        · rw [← hK, ← hres, hc1]
          simp only [drawsPerParticle, Nat.cast_add, Nat.cast_one, Nat.mul_add, Nat.mul_one,
            Nat.add_assoc]
        · intro j hj
          rw [hslots j hj]
          by_cases hji : j = i
          · subst hji
            rw [if_neg (by omega), if_pos ⟨le_rfl, hpi, hc⟩, hslot1,
              newParticle_settings R T hs]
          · rw [hother j hji]
            by_cases hcond : i ≤ j ∧ p j ∧ (Nat.count p j : Int) < count
            · rw [if_pos hcond, if_pos ⟨by omega, hcond.2⟩]
            · rw [if_neg hcond, if_neg (fun hh => hcond ⟨by omega, hh.2⟩)]
      · have hpi : ¬ p i := fun hh => hcur (hin.1 ((hp i le_rfl hi).2 hh))
        rw [if_neg hcur]
        have hc1 : Nat.count p (i + 1) = Nat.count p i := by rw [hsucc, if_neg hpi]; rfl
        obtain ⟨s2, hres, hl2, hs2, ha2, hslots⟩ := ih (i + 1) s (by omega) hl hs
          (fun m hm hmn => hp m (by omega) hmn)
        rw [hc1] at hres
        refine ⟨s2, hres, hl2, hs2, ha2, ?_⟩
        intro j hj
        rw [hslots j hj]
        by_cases hji : j = i
        · subst hji
          rw [if_neg (by omega), if_neg (fun hh => hpi hh.2.1)]
        · by_cases hcond : i ≤ j ∧ p j ∧ (Nat.count p j : Int) < count
          · rw [if_pos hcond, if_pos ⟨by omega, hcond.2⟩]
          · rw [if_neg hcond, if_neg (fun hh => hcond ⟨by omega, hh.2⟩)]
    · rw [if_neg hc]
      have hK : max (Nat.count p i : Int) (min count (Nat.count p n)) = Nat.count p i := by omega
      refine ⟨s, by rw [hK]; simp, hl, hs, rfl, ?_⟩
      intro j hj
      rw [if_neg]
      rintro ⟨h1, -, h3⟩
      have := hmono j h1
      omega

/-! ## The simulation loop -/

theorem updateParticle_spec (dt : ℚ) {s : HPParticleComponent} {n i : Nat} {q : ParticleSlot}
    (h : HasLengths s n) (hi : i < n) (hq : slot s i = some q) :
    ∃ s1, updateParticle dt s i = some s1 ∧ HasLengths s1 n ∧ settings s1 = settings s ∧
      slot s1 i = some (stepSlot s.gravity dt q) ∧ ∀ j, j ≠ i → slot s1 j = slot s j := by
  obtain ⟨h1, h2, h3, h4⟩ := h
  have hq1 := hq
  rw [slot_eq_some_iff] at hq1
  obtain ⟨e1, e2, e3, e4, e5⟩ := hq1
  have key : ∀ j, j ≠ i → (¬ i = j) ∧ (¬ i * 2 = j * 2) ∧ (¬ i * 2 = j * 2 + 1) := by
    intro j hj
    refine ⟨fun e => hj e.symm, ?_, ?_⟩ <;> omega
  unfold updateParticle stepSlot
  simp only [e4, e5]
  by_cases hc : q.lifetimeCurrent < 0
  · rw [if_pos hc, if_pos hc]
    exact ⟨s, rfl, ⟨h1, h2, h3, h4⟩, rfl, hq, fun _ _ => rfl⟩
  · rw [if_neg hc, if_neg hc]
    by_cases hx : q.lifetimeCurrent - dt ≤ 0
    · simp only [hx, if_true]
      refine ⟨_, rfl, ⟨h1, h2, h3, by simp [h4]⟩, rfl, ?_, ?_⟩
      · rw [slot_eq_some_iff]
        refine ⟨e1, e2, e3, ?_, ?_⟩
        · simp [List.getElem?_set]; omega
        · simp [List.getElem?_set, e5]
      · intro j hj
        obtain ⟨a1, a2, a3⟩ := key j hj
        simp only [slot, List.getElem?_set, a1, a2, a3, if_false]
    · simp only [hx, if_false, e1, e2, e3]
      refine ⟨_, rfl, ⟨by simp [h1], by simp [h2], by simp [h3], by simp [h4]⟩, rfl, ?_, ?_⟩
      · rw [slot_eq_some_iff]
        refine ⟨?_, ?_, ?_, ?_, ?_⟩
        · simp [List.getElem?_set]; omega
        · simp [List.getElem?_set]; omega
        · simp [List.getElem?_set]; omega
        · simp [List.getElem?_set]; omega
        · simp [List.getElem?_set, e5]
      · intro j hj
        obtain ⟨a1, a2, a3⟩ := key j hj
        simp only [slot, List.getElem?_set, a1, a2, a3, if_false]

theorem updateLoop_spec (dt : ℚ) (n : Nat) (s0 : HPParticleComponent) :
    ∀ (remaining i : Nat) (s : HPParticleComponent), i + remaining = n → HasLengths s n →
      settings s = settings s0 →
      ∃ s1, updateLoop dt remaining i s = some s1 ∧ HasLengths s1 n ∧
        settings s1 = settings s0 ∧
        ∀ j q, slot s j = some q →
          slot s1 j = some (if i ≤ j then stepSlot s0.gravity dt q else q) := by
  intro remaining
  induction remaining with
  | zero =>
    intro i s hn hl hs
    refine ⟨s, rfl, hl, hs, ?_⟩
    intro j q hq
    have hj : j < n := by
      rw [slot_eq_some_iff] at hq
      have := hq.1
      by_contra hc
      rw [List.getElem?_eq_none (by have := hl.1; omega)] at this
      cases this
    rw [if_neg (by omega), hq]
  | succ r ih =>
    intro i s hn hl hs
    have hi : i < n := by omega
    obtain ⟨p, v, c, cur, mx, -, -, -, -, -, es⟩ := slot_isSome hl hi
    obtain ⟨s1, he, hl1, hs1, hslot1, hother⟩ := updateParticle_spec dt hl hi es
    obtain ⟨s2, hres, hl2, hs2, hslots⟩ := ih (i + 1) s1 (by omega) hl1 (hs1.trans hs)
    have hg : s.gravity = s0.gravity := by
      show (settings s).gravity = (settings s0).gravity
      rw [hs]
    rw [updateLoop]
    simp only [he]
    refine ⟨s2, hres, hl2, hs2, ?_⟩
    intro j q hq
    by_cases hji : j = i
    · subst hji
      rw [hq] at es
      cases es
      rw [hslots j _ hslot1, if_neg (by omega), if_pos le_rfl, hg]
    · rw [hslots j q ((hother j hji).trans hq)]
      by_cases hij : i ≤ j
      · rw [if_pos hij, if_pos (by omega)]
      · rw [if_neg hij, if_neg (by omega)]

/-- The simulation loop of `Update` on a store of the allocated shape, slot by slot. -/
theorem simulate_slots (s : HPParticleComponent) (dt : ℚ) (h : StoreShape s) :
    ∃ s1, simulate s dt = some s1 ∧ StoreShape s1 ∧ settings s1 = settings s ∧
      ∀ j q, slot s j = some q → slot s1 j = some (stepSlot s.gravity dt q) := by
  obtain ⟨h0, hl⟩ := (storeShape_iff s).1 h
  obtain ⟨s1, hres, hl1, hs1, hslots⟩ :=
    updateLoop_spec dt (capacity s) s (capacity s) 0 { s with activeParticles := 0 }
      (by omega) hl rfl
  refine ⟨s1, hres, ?_, hs1, ?_⟩
  · exact (storeShape_iff s1).2 (by
      have hm : s1.maxParticles = s.maxParticles := by
        show (settings s1).maxParticles = (settings s).maxParticles
        rw [hs1]
      have hc : capacity s1 = capacity s := by unfold capacity; rw [hm]
      exact ⟨by rw [hm]; exact h0, by rw [hc]; exact hl1⟩)
  · intro j q hq
    have := hslots j q hq
    rwa [if_pos (Nat.zero_le j)] at this

/-! ## Ascending lists of the indices that satisfy a predicate -/

theorem filter_range_length (p : Nat → Prop) [DecidablePred p] (n : Nat) :
    ((List.range n).filter (fun m => decide (p m))).length = Nat.count p n := by
  induction n with
  | zero => simp
  | succ n ih =>
    rw [List.range_succ, List.filter_append, List.length_append, ih, Nat.count_succ]
    by_cases hp : p n <;> simp [hp]

theorem filter_range_getElem? (p : Nat → Prop) [DecidablePred p] (n j i : Nat) :
    ((List.range n).filter (fun m => decide (p m)))[j]? = some i ↔
      i < n ∧ p i ∧ Nat.count p i = j := by
  induction n with
  | zero => simp
  | succ n ih =>
    rw [List.range_succ, List.filter_append, List.getElem?_append, filter_range_length]
    have hsucc := Nat.count_succ p n
    by_cases hj : j < Nat.count p n
    · rw [if_pos hj, ih]
      constructor
      · rintro ⟨h1, h2, h3⟩
        exact ⟨by omega, h2, h3⟩
      · rintro ⟨h1, h2, h3⟩
        refine ⟨?_, h2, h3⟩
        by_contra hc
        have : i = n := by omega
        subst this
        omega
    · rw [if_neg hj]
      constructor
      · intro h
        by_cases hp : p n
        · simp only [hp, decide_True, List.filter_cons_of_pos, List.filter_nil] at h
          have h0 : j - Nat.count p n = 0 := by
            by_contra hne
            rw [List.getElem?_eq_none (by simp; omega)] at h
            cases h
          rw [h0] at h
          simp at h
          subst h
          exact ⟨by omega, hp, by omega⟩
        · simp [hp] at h
      · rintro ⟨h1, h2, h3⟩
        have hin : i = n := by
          by_contra hne
          have hlt : i < n := by omega
          have hs := Nat.count_succ p i
          rw [if_pos h2] at hs
          have := Nat.count_monotone p (show i + 1 ≤ n by omega)
          omega
        subst hin
        have h0 : j - Nat.count p i = 0 := by omega
        simp [h2, h0]

theorem mem_take_filter_range (p : Nat → Prop) [DecidablePred p] (n k i : Nat) :
    i ∈ ((List.range n).filter (fun m => decide (p m))).take k ↔
      i < n ∧ p i ∧ Nat.count p i < k := by
  rw [List.mem_iff_getElem?]
  constructor
  · rintro ⟨j, hj⟩
    rw [List.getElem?_take] at hj
    by_cases hjk : j < k
    · rw [if_pos hjk, filter_range_getElem?] at hj
      exact ⟨hj.1, hj.2.1, by omega⟩
    · rw [if_neg hjk] at hj
      cases hj
  · rintro ⟨h1, h2, h3⟩
    refine ⟨Nat.count p i, ?_⟩
    rw [List.getElem?_take, if_pos h3, filter_range_getElem?]
    exact ⟨h1, h2, rfl⟩

/-- The function `EmitParticles` on a store of the allocated shape, slot by slot. -/
theorem EmitParticles_slots (R : RandomSource) (T : Trig) (s : HPParticleComponent)
    (count : Int) (g : Nat) (h : StoreShape s) :
    ∃ s1, EmitParticles R T s count g
        = some (s1, g + 10 * emitCount s count, (emitCount s count : Int)) ∧
      HasLengths s1 (capacity s) ∧ settings s1 = settings s ∧
      s1.activeParticles = s.activeParticles ∧
      ∀ j, j < capacity s → slot s1 j =
        if Inactive s j ∧ Nat.count (Inactive s) j < emitCount s count
        then some (newParticle R T s (g + 10 * Nat.count (Inactive s) j)) else slot s j := by
  obtain ⟨h0, hl⟩ := (storeShape_iff s).1 h
  obtain ⟨s1, hres, hl1, hs1, ha1, hslots⟩ :=
    emitLoop_spec R T (min count s.maxParticles) (Inactive s) g (capacity s) s 
      (capacity s) 0 s (by omega) hl rfl (fun m _ _ => Iff.rfl)
  have hlen : (inactiveSlots s).length = Nat.count (Inactive s) (capacity s) :=
    filter_range_length _ _
  have hle : Nat.count (Inactive s) (capacity s) ≤ capacity s := Nat.count_le _
  have hcap : (capacity s : Int) = s.maxParticles := by unfold capacity; omega
  have hK : max ((Nat.count (Inactive s) 0 : Nat) : Int)
      (min (min count s.maxParticles) (Nat.count (Inactive s) (capacity s)))
      = (emitCount s count : Int) := by
    unfold emitCount
    rw [hlen, Nat.count_zero]
    omega
  rw [hK, Nat.count_zero] at hres
  refine ⟨s1, ?_, hl1, hs1, ha1, ?_⟩
  · unfold EmitParticles
    simpa using hres
  · intro j hj
    rw [hslots j hj]
    have hcj : Inactive s j → Nat.count (Inactive s) j < Nat.count (Inactive s) (capacity s) := by
      intro hp
      have hs := Nat.count_succ (Inactive s) j
      rw [if_pos hp] at hs
      have := Nat.count_monotone (Inactive s) (show j + 1 ≤ capacity s by omega)
      omega
    have hcj2 : Nat.count (Inactive s) j ≤ j := Nat.count_le _
    have hiff : (0 ≤ j ∧ Inactive s j ∧
        ((Nat.count (Inactive s) j : Nat) : Int) < min count s.maxParticles) ↔
        (Inactive s j ∧ Nat.count (Inactive s) j < emitCount s count) := by
      unfold emitCount
      rw [hlen]
      constructor
      · rintro ⟨-, h2, h3⟩
        have := hcj h2
        exact ⟨h2, by omega⟩
      · rintro ⟨h2, h3⟩
        have := hcj h2
        exact ⟨by omega, h2, by omega⟩
    by_cases hcond : Inactive s j ∧ Nat.count (Inactive s) j < emitCount s count
    · rw [if_pos hcond, if_pos (hiff.2 hcond)]
    · rw [if_neg hcond, if_neg (fun hh => hcond (hiff.1 hh))]

theorem storeShape_of_lengths {s s1 : HPParticleComponent} (h : StoreShape s)
    (hl : HasLengths s1 (capacity s)) (hs : settings s1 = settings s) : StoreShape s1 := by
  have hm : s1.maxParticles = s.maxParticles := by
    show (settings s1).maxParticles = (settings s).maxParticles
    rw [hs]
  have hc : capacity s1 = capacity s := by unfold capacity; rw [hm]
  exact (storeShape_iff s1).2
    ⟨by rw [hm]; exact ((storeShape_iff s).1 h).1, by rw [hc]; exact hl⟩

theorem inactiveSlots_getElem? (s : HPParticleComponent) (j i : Nat) :
    (inactiveSlots s)[j]? = some i ↔
      i < capacity s ∧ Inactive s i ∧ Nat.count (Inactive s) i = j :=
  filter_range_getElem? (Inactive s) (capacity s) j i

theorem mem_take_inactiveSlots (s : HPParticleComponent) (k i : Nat) :
    i ∈ (inactiveSlots s).take k ↔
      i < capacity s ∧ Inactive s i ∧ Nat.count (Inactive s) i < k :=
  mem_take_filter_range (Inactive s) (capacity s) k i

theorem emitCount_le_length (s : HPParticleComponent) (count : Int) :
    emitCount s count ≤ (inactiveSlots s).length := by
  unfold emitCount
  omega

/-! ## The spawn phase and whole ticks -/

theorem truncToInt_of_nonneg {q : ℚ} (h : 0 ≤ q) : truncToInt q = ⌊q⌋ := by
  unfold truncToInt
  rw [Rat.floor_def, Int.tdiv_eq_ediv (Rat.num_nonneg.2 h) (by positivity)]

theorem spawnRequest_eq_floor {s : HPParticleComponent} {dt : ℚ} (hr : 0 < s.spawnRate)
    (ht : 0 ≤ s.timeSinceLastSpawn + dt) :
    spawnRequest s dt = ⌊(s.timeSinceLastSpawn + dt) * s.spawnRate⌋ := by
  unfold spawnRequest
  have hdiv : (s.timeSinceLastSpawn + dt) / (1 / s.spawnRate)
      = (s.timeSinceLastSpawn + dt) * s.spawnRate := by
    rw [one_div, div_inv_eq_mul]
  by_cases hb : s.timeSinceLastSpawn + dt ≥ 1 / s.spawnRate
  · rw [if_pos hb, hdiv, truncToInt_of_nonneg (mul_nonneg ht hr.le)]
  · rw [if_neg hb]
    symm
    rw [Int.floor_eq_zero_iff]
    refine ⟨mul_nonneg ht hr.le, ?_⟩
    have hlt : s.timeSinceLastSpawn + dt < 1 / s.spawnRate := not_le.1 hb
    have := (lt_div_iff₀ hr).1 hlt
    exact this

theorem emitCount_zero (s : HPParticleComponent) : emitCount s 0 = 0 := by
  unfold emitCount
  omega

/-- The spawn phase on a store of the allocated shape. -/
theorem spawnPhase_spec (R : RandomSource) (T : Trig) (s : HPParticleComponent)
    (tr : TransformComponent) (dt : ℚ) (g : Nat) (h : StoreShape s) :
    ∃ s1, spawnPhase R T s tr dt g
        = some (s1, g + 10 * emitCount s (spawnRequest s dt), spawnRequest s dt,
            (emitCount s (spawnRequest s dt) : Int)) ∧
      HasLengths s1 (capacity s) ∧ settings s1 = settings (afterTimer s tr dt) ∧
      s1.activeParticles = s.activeParticles ∧
      ∀ j, j < capacity s → slot s1 j =
        if Inactive s j ∧ Nat.count (Inactive s) j < emitCount s (spawnRequest s dt)
        then some (newParticle R T (afterTimer s tr dt) (g + 10 * Nat.count (Inactive s) j))
        else slot s j := by
  by_cases hb : s.timeSinceLastSpawn + dt ≥ 1 / s.spawnRate
  · have hshape : StoreShape (afterTimer s tr dt) := h
    obtain ⟨s1, hres, hl1, hs1, ha1, hslots⟩ :=
      EmitParticles_slots R T (afterTimer s tr dt) (spawnRequest s dt) g hshape
    refine ⟨s1, ?_, hl1, hs1, ha1, hslots⟩
    have hreq : spawnRequest s dt
        = truncToInt ((s.timeSinceLastSpawn + dt) / (1 / s.spawnRate)) := by
      unfold spawnRequest
      rw [if_pos hb]
    have hE : EmitParticles R T
        { s with
          emitterPosition := tr.position
          timeSinceLastSpawn := s.timeSinceLastSpawn + dt
            - truncToInt ((s.timeSinceLastSpawn + dt) / (1 / s.spawnRate))
              * (1 / s.spawnRate) }
        (truncToInt ((s.timeSinceLastSpawn + dt) / (1 / s.spawnRate))) g
        = some (s1, g + 10 * emitCount s (spawnRequest s dt),
            (emitCount s (spawnRequest s dt) : Int)) := by
      rw [← hreq]
      exact hres
    unfold spawnPhase
    simp only [hb, if_true, hE, hreq]
  · have hreq : spawnRequest s dt = 0 := by
      unfold spawnRequest
      rw [if_neg hb]
    rw [hreq, emitCount_zero]
    refine ⟨{ s with emitterPosition := tr.position,
                     timeSinceLastSpawn := s.timeSinceLastSpawn + dt }, ?_,
      ((storeShape_iff s).1 h).2, ?_, rfl, ?_⟩
    · unfold spawnPhase
      simp only [hb, if_false]
      rfl
    · unfold afterTimer settings
      simp [hreq]
    · intro j _
      rw [if_neg (by omega)]
      rfl

theorem slot_UpdateGPUBuffers (s : HPParticleComponent) (j : Nat) :
    slot (UpdateGPUBuffers s) j = slot s j := rfl

theorem storeShape_UpdateGPUBuffers (s : HPParticleComponent) :
    StoreShape (UpdateGPUBuffers s) ↔ StoreShape s := Iff.rfl

/-- One tick on a store of the allocated shape: the spawn phase re-initialises the
lowest inactive slots, then every slot is stepped, then the buffers are uploaded. -/
theorem Update_spec (R : RandomSource) (T : Trig) (s : HPParticleComponent)
    (tr : TransformComponent) (dt : ℚ) (g : Nat) (h : StoreShape s) :
    ∃ s2, Update R T s tr dt g
        = some (UpdateGPUBuffers s2, g + 10 * emitCount s (spawnRequest s dt),
            (emitCount s (spawnRequest s dt) : Int)) ∧
      StoreShape s2 ∧ settings s2 = settings (afterTimer s tr dt) ∧
      ∀ j, j < capacity s → ∃ q, slot s j = some q ∧ slot s2 j = some (stepSlot s.gravity dt
        (if Inactive s j ∧ Nat.count (Inactive s) j < emitCount s (spawnRequest s dt)
         then newParticle R T (afterTimer s tr dt) (g + 10 * Nat.count (Inactive s) j)
         else q)) := by
  obtain ⟨s1, hres1, hl1, hs1, -, hslots1⟩ := spawnPhase_spec R T s tr dt g h
  have hshape1 : StoreShape s1 := storeShape_of_lengths (s := afterTimer s tr dt) h hl1 hs1
  obtain ⟨s2, hres2, hshape2, hs2, hslots2⟩ := simulate_slots s1 dt hshape1
  have hg : s1.gravity = s.gravity := by
    show (settings s1).gravity = (settings (afterTimer s tr dt)).gravity
    rw [hs1]
  refine ⟨s2, ?_, hshape2, hs2.trans hs1, ?_⟩
  · unfold Update
    simp only [hres1, hres2]
  · intro j hj
    obtain ⟨p, v, c, cur, mx, -, -, -, -, -, es⟩ := slot_isSome ((storeShape_iff s).1 h).2 hj
    refine ⟨_, es, ?_⟩
    have h1 := hslots1 j hj
    by_cases hcond : Inactive s j ∧ Nat.count (Inactive s) j < emitCount s (spawnRequest s dt)
    · rw [if_pos hcond] at h1
      rw [if_pos hcond, hslots2 j _ h1, hg]
    · rw [if_neg hcond] at h1
      rw [if_neg hcond, hslots2 j _ (h1.trans es), hg]

/-! ## Counting inactive slots -/

theorem count_le_count_of_lt (p q : Nat → Prop) [DecidablePred p] [DecidablePred q] (n : Nat)
    (h : ∀ j, j < n → p j → q j) : Nat.count p n ≤ Nat.count q n := by
  induction n with
  | zero => simp
  | succ n ih =>
    have h1 := ih (fun j hj => h j (by omega))
    rw [Nat.count_succ, Nat.count_succ]
    by_cases hp : p n
    · rw [if_pos hp, if_pos (h n (by omega) hp)]
      omega
    · rw [if_neg hp]
      split <;> omega

theorem count_rank_ge (p : Nat → Prop) [DecidablePred p] (k n : Nat) :
    Nat.count (fun j => p j ∧ k ≤ Nat.count p j) n = Nat.count p n - k := by
  induction n with
  | zero => simp
  | succ n ih =>
    rw [Nat.count_succ, Nat.count_succ, ih]
    by_cases hp : p n
    · by_cases hk : k ≤ Nat.count p n
      · rw [if_pos ⟨hp, hk⟩, if_pos hp]
        omega
      · rw [if_neg (fun hh => hk hh.2), if_pos hp]
        omega
    · rw [if_neg (fun hh => hp hh.1), if_neg hp]
      rfl

theorem inactiveSlots_length (s : HPParticleComponent) :
    (inactiveSlots s).length = Nat.count (Inactive s) (capacity s) :=
  filter_range_length _ _

theorem inactiveSlots_length_le (s : HPParticleComponent) :
    (inactiveSlots s).length ≤ capacity s := by
  rw [inactiveSlots_length]
  exact Nat.count_le _

theorem stepSlot_of_inactive (gravity : Vec3) (dt : ℚ) {q : ParticleSlot}
    (h : q.lifetimeCurrent < 0) : stepSlot gravity dt q = q := by
  unfold stepSlot
  rw [if_pos h]

/-- One tick when the store has a free slot for every requested particle: all of them
are emitted, the timer keeps the remainder, and the number of inactive slots drops by
at most the number emitted. -/
theorem Update_free (R : RandomSource) (T : Trig) (s : HPParticleComponent)
    (tr : TransformComponent) (dt : ℚ) (g : Nat) (h : StoreShape s)
    (hfree : spawnRequest s dt ≤ (inactiveSlots s).length) (hreq : 0 ≤ spawnRequest s dt) :
    ∃ s1, Update R T s tr dt g
        = some (s1, g + 10 * (spawnRequest s dt).toNat, spawnRequest s dt) ∧
      StoreShape s1 ∧ s1.spawnRate = s.spawnRate ∧ s1.maxParticles = s.maxParticles ∧
      s1.timeSinceLastSpawn = s.timeSinceLastSpawn + dt
        - spawnRequest s dt * (1 / s.spawnRate) ∧
      ((inactiveSlots s).length : Int) - spawnRequest s dt ≤ (inactiveSlots s1).length := by
  obtain ⟨s2, hres, hshape2, hs2, hslots⟩ := Update_spec R T s tr dt g h
  obtain ⟨h0, hl⟩ := (storeShape_iff s).1 h
  have hlen := inactiveSlots_length_le s
  have hcap : (capacity s : Int) = s.maxParticles := by unfold capacity; omega
  have hk : emitCount s (spawnRequest s dt) = (spawnRequest s dt).toNat := by
    unfold emitCount
    omega
  have hkI : ((emitCount s (spawnRequest s dt) : Nat) : Int) = spawnRequest s dt := by
    rw [hk]
    omega
  have hm : s2.maxParticles = s.maxParticles := by
    show (settings s2).maxParticles = (settings (afterTimer s tr dt)).maxParticles
    rw [hs2]
  have hc2 : capacity (UpdateGPUBuffers s2) = capacity s := by
    show s2.maxParticles.toNat = s.maxParticles.toNat
    rw [hm]
  refine ⟨UpdateGPUBuffers s2, ?_, hshape2, ?_, hm, ?_, ?_⟩
  · rw [hres, hkI, hk]
  · show (settings s2).spawnRate = (settings (afterTimer s tr dt)).spawnRate
    rw [hs2]
  · show (settings s2).timeSinceLastSpawn = (settings (afterTimer s tr dt)).timeSinceLastSpawn
    rw [hs2]
  · rw [inactiveSlots_length, inactiveSlots_length, hc2]
    have hcount := count_rank_ge (Inactive s) (spawnRequest s dt).toNat (capacity s)
    have hmono := count_le_count_of_lt
      (fun j => Inactive s j ∧ (spawnRequest s dt).toNat ≤ Nat.count (Inactive s) j)
      (Inactive (UpdateGPUBuffers s2)) (capacity s) (by
        intro j hj hin
        obtain ⟨q, hq, hq2⟩ := hslots j hj
        rw [hk, if_neg (fun hh => by omega)] at hq2
        have hneg := (inactive_iff_of_slot hq).1 hin.1
        rw [stepSlot_of_inactive _ _ hneg] at hq2
        exact (inactive_iff_of_slot (s := UpdateGPUBuffers s2) hq2).2 hneg)
    omega

/-! ## Spawn pacing over several ticks -/

theorem remainder_bounds {r t : ℚ} (hr : 0 < r) :
    0 ≤ t - ⌊t * r⌋ * (1 / r) ∧ t - ⌊t * r⌋ * (1 / r) < 1 / r := by
  have h1 : ((⌊t * r⌋ : Int) : ℚ) ≤ t * r := Int.floor_le _
  have h2 : t * r < ((⌊t * r⌋ : Int) : ℚ) + 1 := Int.lt_floor_add_one _
  have e1 : ((⌊t * r⌋ : Int) : ℚ) * (1 / r) ≤ t := by
    rw [mul_one_div, div_le_iff₀ hr]
    exact h1
  have e2 : t < (((⌊t * r⌋ : Int) : ℚ) + 1) * (1 / r) := by
    rw [mul_one_div, lt_div_iff₀ hr]
    exact h2
  constructor
  · linarith
  · have : (((⌊t * r⌋ : Int) : ℚ) + 1) * (1 / r)
        = ((⌊t * r⌋ : Int) : ℚ) * (1 / r) + 1 / r := by
      ring
    linarith

theorem timer_shift (a dt r F : ℚ) (n : Nat) (hne : r ≠ 0) :
    (a + dt - F * (1 / r) + (n : ℚ) * dt) * r = (a + ((n + 1 : Nat) : ℚ) * dt) * r - F := by
  push_cast
  field_simp
  ring

theorem runTicks_free (R : RandomSource) (T : Trig) (tr : TransformComponent) (dt : ℚ)
    (hdt : 0 ≤ dt) : ∀ (n : Nat) (s : HPParticleComponent) (g : Nat), StoreShape s →
      0 < s.spawnRate → 0 ≤ s.timeSinceLastSpawn → s.timeSinceLastSpawn < 1 / s.spawnRate →
      FreeSlotEachTick R T tr dt n s g →
      ∃ s1 g1 l, runTicks R T tr dt n s g = some (s1, g1, l) ∧ l.length = n ∧
        l.sum = ⌊(s.timeSinceLastSpawn + n * dt) * s.spawnRate⌋ ∧
        s1.timeSinceLastSpawn = s.timeSinceLastSpawn + n * dt - l.sum * (1 / s.spawnRate) ∧
        s1.spawnRate = s.spawnRate ∧ StoreShape s1 := by
  intro n
  induction n with
  | zero =>
    intro s g h hr ha0 ha1 _
    refine ⟨s, g, [], rfl, rfl, ?_, ?_, rfl, h⟩
    · symm
      simp only [List.sum_nil, Nat.cast_zero, zero_mul, add_zero]
      rw [Int.floor_eq_zero_iff]
      exact ⟨mul_nonneg ha0 hr.le, (lt_div_iff₀ hr).1 ha1⟩
    · simp
  | succ n ih =>
    intro s g h hr ha0 ha1 hfree
    have ht : 0 ≤ s.timeSinceLastSpawn + dt := add_nonneg ha0 hdt
    have hreq := spawnRequest_eq_floor hr ht
    have hreq0 : 0 ≤ spawnRequest s dt := by
      rw [hreq, Int.floor_nonneg]
      exact mul_nonneg ht hr.le
    obtain ⟨s1, hres, hshape1, hr1, -, ht1, -⟩ := Update_free R T s tr dt g h hfree.1 hreq0
    have hb := remainder_bounds (t := s.timeSinceLastSpawn + dt) hr
    rw [hreq] at ht1
    have hne : s.spawnRate ≠ 0 := ne_of_gt hr
    obtain ⟨s2, g2, l, hrun, hlen, hsum, htimer, hrate, hshape2⟩ :=
      ih s1 _ hshape1 (by rw [hr1]; exact hr) (by rw [ht1]; exact hb.1)
        (by rw [ht1, hr1]; exact hb.2) (hfree.2 _ _ _ hres)
    refine ⟨s2, g2, spawnRequest s dt :: l, ?_, by simp [hlen], ?_, ?_, hrate.trans hr1,
      hshape2⟩
    · simp only [runTicks, hres, hrun]
    · rw [List.sum_cons, hsum, hreq, ht1, hr1]
      rw [timer_shift _ _ _ _ _ hne, Int.floor_sub_int]
      ring
    · rw [htimer, ht1, hr1, List.sum_cons, hreq]
      push_cast
      ring

/-- A store with as many inactive slots as the next `n` ticks request in total has a
free slot for every requested particle at each of those ticks. -/
theorem freeSlotEachTick_of_count (R : RandomSource) (T : Trig) (tr : TransformComponent)
    (dt : ℚ) (hdt : 0 ≤ dt) :
    ∀ (n : Nat) (s : HPParticleComponent) (g : Nat), StoreShape s →
      0 < s.spawnRate → 0 ≤ s.timeSinceLastSpawn →
      ⌊(s.timeSinceLastSpawn + n * dt) * s.spawnRate⌋ ≤ (inactiveSlots s).length →
      FreeSlotEachTick R T tr dt n s g := by
  intro n
  induction n with
  | zero => intro s g _ _ _ _; trivial
  | succ n ih =>
    intro s g h hr ha0 hcount
    have ht : 0 ≤ s.timeSinceLastSpawn + dt := add_nonneg ha0 hdt
    have hreq := spawnRequest_eq_floor hr ht
    have hreq0 : 0 ≤ spawnRequest s dt := by
      rw [hreq, Int.floor_nonneg]
      exact mul_nonneg ht hr.le
    have hle : spawnRequest s dt ≤ ⌊(s.timeSinceLastSpawn + ((n + 1 : Nat) : ℚ) * dt)
        * s.spawnRate⌋ := by
      rw [hreq]
      apply Int.floor_mono
      apply mul_le_mul_of_nonneg_right _ hr.le
      push_cast
      nlinarith [mul_nonneg (Nat.cast_nonneg (α := ℚ) n) hdt]
    have hfree : spawnRequest s dt ≤ (inactiveSlots s).length := le_trans hle hcount
    refine ⟨hfree, ?_⟩
    intro s1 g1 emitted hup
    obtain ⟨s1', hres, hshape1, hr1, -, ht1, hinact⟩ := Update_free R T s tr dt g h hfree hreq0
    rw [hres] at hup
    cases hup
    have hb := remainder_bounds (t := s.timeSinceLastSpawn + dt) hr
    have hne : s.spawnRate ≠ 0 := ne_of_gt hr
    apply ih _ _ hshape1 (by rw [hr1]; exact hr)
    · rw [ht1, hreq]; exact hb.1
    · rw [ht1, hr1]
      rw [timer_shift _ _ _ _ _ hne, Int.floor_sub_int]
      omega

/-! ## Initialisation -/

theorem length_resize {α : Type} (xs : List α) (n : Nat) (v : α) :
    (resize xs n v).length = n := by
  unfold resize
  rw [List.length_append, List.length_take, List.length_replicate]
  omega

theorem deactivateAll_spec : ∀ (remaining i : Nat) (l : List ℚ),
    (i + remaining) * 2 ≤ l.length →
    ∃ l1, deactivateAll remaining i l = some l1 ∧ l1.length = l.length ∧
      ∀ j, i ≤ j → j < i + remaining → l1[j * 2]? = some (-1) := by
  intro remaining
  induction remaining with
  | zero =>
    intro i l _
    exact ⟨l, rfl, rfl, fun j h1 h2 => by omega⟩
  | succ r ih =>
    intro i l hl
    obtain ⟨l1, h1, h2, h3⟩ := ih (i + 1) (l.set (i * 2) (-1)) (by rw [List.length_set]; omega)
    have hkeep : ∀ (rem k : Nat) (l0 l2 : List ℚ) (m : Nat), m < k * 2 →
        deactivateAll rem k l0 = some l2 → l2[m]? = l0[m]? := by
      intro rem
      induction rem with
      | zero =>
        intro k l0 l2 m _ h
        simp only [deactivateAll] at h
        cases h
        rfl
      | succ r2 ih2 =>
        intro k l0 l2 m hm h
        rw [deactivateAll] at h
        by_cases hb : k * 2 < l0.length
        · rw [if_pos hb] at h
          rw [ih2 (k + 1) _ l2 m (by omega) h, List.getElem?_set_ne (by omega)]
        · rw [if_neg hb] at h
          cases h
    refine ⟨l1, ?_, by rw [h2, List.length_set], ?_⟩
    · rw [deactivateAll, if_pos (by omega)]
      exact h1
    · intro j hj1 hj2
      by_cases hji : j = i
      · subst hji
        rw [hkeep r (j + 1) _ l1 (j * 2) (by omega) h1, List.getElem?_set_self (by omega)]
      · exact h3 j (by omega) (by omega)

/-- The arrays after lines 6-15 of `Initialize`: the allocated shape with every slot
inactive. -/
theorem Initialize_arrays (s : HPParticleComponent) :
    ∃ l1, deactivateAll s.maxParticles.toNat 0
        (resize s.lifetimes (s.maxParticles.toNat * 2) 0) = some l1 ∧
      l1.length = s.maxParticles.toNat * 2 ∧
      ∀ j, j < s.maxParticles.toNat → l1[j * 2]? = some (-1) := by
  obtain ⟨l1, h1, h2, h3⟩ := deactivateAll_spec s.maxParticles.toNat 0
    (resize s.lifetimes (s.maxParticles.toNat * 2) 0) (by rw [length_resize]; omega)
  refine ⟨l1, h1, by rw [h2, length_resize], fun j hj => h3 j (Nat.zero_le _) (by omega)⟩

/-- The component handed to `EmitParticles` by `Initialize`. -/
theorem Initialize_spec (R : RandomSource) (T : Trig) (s : HPParticleComponent) (g : Nat)
    (h0 : 0 ≤ s.maxParticles) :
    ∃ sI s1 g1 e, Initialize R T s g = some (s1, g1) ∧
      EmitParticles R T sI (Int.tdiv s.maxParticles 10) g = some (s1, g1, e) ∧
      StoreShape sI ∧ sI.maxParticles = s.maxParticles ∧ sI.spawnRate = s.spawnRate ∧
      sI.timeSinceLastSpawn = s.timeSinceLastSpawn ∧
      (∀ j, j < capacity sI → Inactive sI j) := by
  obtain ⟨l1, hd, hlen, hneg⟩ := Initialize_arrays s
  let sI : HPParticleComponent := { s with
    positions := resize s.positions s.maxParticles.toNat (Vec4.splat 0)
    velocities := resize s.velocities s.maxParticles.toNat (Vec4.splat 0)
    colors := resize s.colors s.maxParticles.toNat (Vec4.splat 1)
    lifetimes := l1
    positionBuffer := resize s.positions s.maxParticles.toNat (Vec4.splat 0)
    velocityBuffer := resize s.velocities s.maxParticles.toNat (Vec4.splat 0)
    colorBuffer := resize s.colors s.maxParticles.toNat (Vec4.splat 1)
    lifetimeBuffer := l1 }
  have hshape : StoreShape sI := by
    refine (storeShape_iff sI).2 ⟨h0, ?_, ?_, ?_, ?_⟩
    · exact length_resize _ _ _
    · exact length_resize _ _ _
    · exact length_resize _ _ _
    · exact hlen
  obtain ⟨s1, hres, -⟩ := EmitParticles_slots R T sI (Int.tdiv s.maxParticles 10) g hshape
  refine ⟨sI, s1, _, _, ?_, hres, hshape, rfl, rfl, rfl, ?_⟩
  · unfold Initialize
    rw [if_neg (not_lt.2 h0)]
    simp only [hd]
    have hres2 : EmitParticles R T sI (Int.tdiv sI.maxParticles 10) g = _ := hres
    simp only [sI] at hres2
    simp only [hres2]
  · intro j hj
    have : sI.lifetimes[j * 2]? = some (-1) := hneg j hj
    simp [Inactive, this]

/-! ## What one call can do to a slot -/

theorem capacity_of_settings {s s1 : HPParticleComponent} (h : settings s1 = settings s) :
    capacity s1 = capacity s := by
  have hm : s1.maxParticles = s.maxParticles := by
    show (settings s1).maxParticles = (settings s).maxParticles
    rw [h]
  unfold capacity
  rw [hm]

/-- After `EmitParticles` every slot holds either its old row or, if it was inactive,
a newly computed particle. -/
theorem EmitParticles_cases (R : RandomSource) (T : Trig) (s : HPParticleComponent)
    (count : Int) (g : Nat) (h : StoreShape s) {s1 : HPParticleComponent} {g1 : Nat} {e : Int}
    (hres : EmitParticles R T s count g = some (s1, g1, e)) :
    StoreShape s1 ∧ settings s1 = settings s ∧
      ∀ j, j < capacity s → ∃ q, slot s j = some q ∧
        (slot s1 j = some q ∨
          (q.lifetimeCurrent < 0 ∧ ∃ g2, slot s1 j = some (newParticle R T s g2))) := by
  obtain ⟨s2, hres2, hl2, hs2, -, hslots⟩ := EmitParticles_slots R T s count g h
  rw [hres] at hres2
  cases hres2
  refine ⟨storeShape_of_lengths h hl2 hs2, hs2, ?_⟩
  intro j hj
  obtain ⟨p, v, c, cur, mx, -, -, -, -, -, es⟩ := slot_isSome ((storeShape_iff s).1 h).2 hj
  refine ⟨_, es, ?_⟩
  have hj2 := hslots j hj
  by_cases hcond : Inactive s j ∧ Nat.count (Inactive s) j < emitCount s count
  · rw [if_pos hcond] at hj2
    exact Or.inr ⟨(inactive_iff_of_slot es).1 hcond.1, _, hj2⟩
  · rw [if_neg hcond] at hj2
    exact Or.inl (hj2.trans es)

/-- After `Update` every slot holds the step of its old row or, if it was inactive, the
step of a newly computed particle. -/
theorem Update_cases (R : RandomSource) (T : Trig) (s : HPParticleComponent)
    (tr : TransformComponent) (dt : ℚ) (g : Nat) (h : StoreShape s)
    {s1 : HPParticleComponent} {g1 : Nat} {e : Int}
    (hres : Update R T s tr dt g = some (s1, g1, e)) :
    StoreShape s1 ∧ capacity s1 = capacity s ∧
      ∀ j, j < capacity s → ∃ q, slot s j = some q ∧
        (slot s1 j = some (stepSlot s.gravity dt q) ∨
          (q.lifetimeCurrent < 0 ∧ ∃ g2, slot s1 j
            = some (stepSlot s.gravity dt (newParticle R T (afterTimer s tr dt) g2)))) := by
  obtain ⟨s2, hres2, hshape2, hs2, hslots⟩ := Update_spec R T s tr dt g h
  rw [hres] at hres2
  cases hres2
  refine ⟨hshape2, (show capacity s2 = capacity (afterTimer s tr dt) from
    capacity_of_settings hs2), ?_⟩
  intro j hj
  obtain ⟨q, hq, hq2⟩ := hslots j hj
  refine ⟨q, hq, ?_⟩
  by_cases hcond : Inactive s j ∧ Nat.count (Inactive s) j < emitCount s (spawnRequest s dt)
  · rw [if_pos hcond] at hq2
    exact Or.inr ⟨(inactive_iff_of_slot hq).1 hcond.1, _, hq2⟩
  · rw [if_neg hcond] at hq2
    exact Or.inl hq2

/-- After `Initialize` the store has the allocated shape and every slot is inactive
or holds a newly computed particle. -/
theorem Initialize_cases (R : RandomSource) (T : Trig) (s0 : HPParticleComponent) (g0 : Nat)
    {s : HPParticleComponent} {g : Nat} (hres : Initialize R T s0 g0 = some (s, g)) :
    StoreShape s ∧ ∀ j, j < capacity s → ∃ q, slot s j = some q ∧
      (q.lifetimeCurrent < 0 ∨ ∃ sI g2, q = newParticle R T sI g2) := by
  have h0 : 0 ≤ s0.maxParticles := by
    by_contra hneg
    unfold Initialize at hres
    rw [if_pos (not_le.1 hneg)] at hres
    cases hres
  obtain ⟨sI, s1, g1, e, hinit, hemit, hshapeI, -, -, -, hinact⟩ := Initialize_spec R T s0 g0 h0
  rw [hres] at hinit
  cases hinit
  obtain ⟨hshape, hs, hslots⟩ := EmitParticles_cases R T sI _ g0 hshapeI hemit
  refine ⟨hshape, ?_⟩
  intro j hj
  rw [capacity_of_settings hs] at hj
  obtain ⟨q, hq, hcase⟩ := hslots j hj
  rcases hcase with h1 | ⟨-, g2, h2⟩
  · exact ⟨q, h1, Or.inl ((inactive_iff_of_slot hq).1 (hinact j hj))⟩
  · exact ⟨_, h2, Or.inr ⟨sI, g2, rfl⟩⟩

theorem reachable_shape (R : RandomSource) (T : Trig) (P : ℚ → Prop)
    {s : HPParticleComponent} {g : Nat} (h : Reachable R T P s g) : StoreShape s := by
  induction h with
  | init s0 g0 s g hres => exact (Initialize_cases R T s0 g0 hres).1
  | tick s g tr dt s1 g1 e _ _ hres ih => exact (Update_cases R T s tr dt g ih hres).1

/-! ## Lifetime bounds -/

theorem stepSlot_lifetime_le (gravity : Vec3) {dt : ℚ} (hdt : 0 ≤ dt) {q : ParticleSlot}
    (h : 0 ≤ q.lifetimeCurrent → q.lifetimeCurrent ≤ q.lifetimeMax) :
    0 ≤ (stepSlot gravity dt q).lifetimeCurrent →
      (stepSlot gravity dt q).lifetimeCurrent ≤ (stepSlot gravity dt q).lifetimeMax := by
  unfold stepSlot
  by_cases hc : q.lifetimeCurrent < 0
  · rw [if_pos hc]
    exact h
  · rw [if_neg hc]
    by_cases hx : q.lifetimeCurrent - dt ≤ 0
    · rw [if_pos hx]
      intro h0
      norm_num at h0
    · rw [if_neg hx]
      intro _
      have := h (not_lt.1 hc)
      show q.lifetimeCurrent - dt ≤ q.lifetimeMax
      linarith

theorem initStore_reachable (P : ℚ → Prop) : Reachable lowRandom circleTrig P initStore 0 :=
  Reachable.init blankStore 0 initStore 0 rfl

/-! ## Free slots after initialisation -/

theorem count_eq_of_forall (p : Nat → Prop) [DecidablePred p] (n : Nat)
    (h : ∀ j, j < n → p j) : Nat.count p n = n := by
  induction n with
  | zero => simp
  | succ n ih =>
    rw [Nat.count_succ, ih (fun j hj => h j (by omega)), if_pos (h n (by omega))]

theorem EmitParticles_inactive_count (R : RandomSource) (T : Trig) (s : HPParticleComponent)
    (count : Int) (g : Nat) (h : StoreShape s) {s1 : HPParticleComponent} {g1 : Nat} {e : Int}
    (hres : EmitParticles R T s count g = some (s1, g1, e)) :
    ((inactiveSlots s).length : Int) - emitCount s count ≤ (inactiveSlots s1).length := by
  obtain ⟨s2, hres2, hl2, hs2, -, hslots⟩ := EmitParticles_slots R T s count g h
  rw [hres] at hres2
  cases hres2
  rw [inactiveSlots_length, inactiveSlots_length, capacity_of_settings hs2]
  have hcount := count_rank_ge (Inactive s) (emitCount s count) (capacity s)
  have hmono := count_le_count_of_lt
    (fun j => Inactive s j ∧ emitCount s count ≤ Nat.count (Inactive s) j)
    (Inactive s1) (capacity s) (by
      intro j hj hin
      have hj2 := hslots j hj
      rw [if_neg (fun hh => by omega)] at hj2
      exact (inactive_congr ((storeShape_iff s).1 h).2 hj hj2).2 hin.1)
  omega

/-- One tick under the free-slot condition, with what the next ticks need. -/
theorem tick_free (R : RandomSource) (T : Trig) (tr : TransformComponent) (dt : ℚ)
    (hdt : 0 ≤ dt) (n : Nat) (s : HPParticleComponent) (g : Nat) (h : StoreShape s)
    (hr : 0 < s.spawnRate) (ha : 0 ≤ s.timeSinceLastSpawn)
    (hfree : FreeSlotEachTick R T tr dt (n + 1) s g) :
    ∃ s1 g1, Update R T s tr dt g
        = some (s1, g1, ⌊(s.timeSinceLastSpawn + dt) * s.spawnRate⌋) ∧
      StoreShape s1 ∧ s1.spawnRate = s.spawnRate ∧
      s1.timeSinceLastSpawn = s.timeSinceLastSpawn + dt
        - ⌊(s.timeSinceLastSpawn + dt) * s.spawnRate⌋ * (1 / s.spawnRate) ∧
      FreeSlotEachTick R T tr dt n s1 g1 := by
  have ht : 0 ≤ s.timeSinceLastSpawn + dt := add_nonneg ha hdt
  have hreq := spawnRequest_eq_floor hr ht
  have hreq0 : 0 ≤ spawnRequest s dt := by
    rw [hreq, Int.floor_nonneg]
    exact mul_nonneg ht hr.le
  obtain ⟨s1, hres, hshape1, hr1, -, ht1, -⟩ := Update_free R T s tr dt g h hfree.1 hreq0
  have hf := hfree.2 _ _ _ hres
  rw [hreq] at hres ht1 hf
  exact ⟨s1, _, hres, hshape1, hr1, ht1, hf⟩

theorem tickStore_eq :
    Update lowRandom circleTrig initStore originTransform (1 / 5) 0
      = some (tickStore, 10, 1) := by
  have hq : truncToInt (1 : ℚ) = 1 := by rw [truncToInt_of_nonneg (by norm_num)]; norm_num
  simp [Update, spawnPhase, simulate, updateLoop, updateParticle, EmitParticles, emitLoop,
    emitParticle, newParticle, UpdateGPUBuffers, glBufferSubData, initStore, blankStore,
    sampleStore, tickStore, originTransform, lowRandom, circleTrig, fadeAlpha, hq, Vec4.ofVec3,
    Vec4.xyz, Vec3.add, Vec3.scale, drawsPerParticle]
  norm_num

theorem tickStore_reachable (P : ℚ → Prop) (h : P (1 / 5)) :
    Reachable lowRandom circleTrig P tickStore 10 :=
  Reachable.tick initStore 0 originTransform (1 / 5) tickStore 10 1 (initStore_reachable P) h
    tickStore_eq

/-! ## The alpha policy -/

theorem fadeAlpha_eq_min (x : ℚ) :
    fadeAlpha x = min 1 (min ((1 - x) * 10) (x / (3 / 10))) := by
  unfold fadeAlpha
  have hdiv : x / (3 / 10) = x * (10 / 3) := by
    rw [div_div_eq_mul_div, mul_div_assoc]
  rw [hdiv]
  by_cases h1 : x > 9 / 10
  · rw [if_pos h1, min_eq_right, min_eq_left] <;> [linarith; skip]
    rw [min_eq_left] <;> linarith
  · rw [if_neg h1]
    by_cases h2 : x < 3 / 10
    · rw [if_pos h2, min_eq_right, min_eq_right] <;> [linarith; skip]
      rw [min_eq_right] <;> linarith
    · rw [if_neg h2, min_eq_left]
      have h3 : ¬ x > 9 / 10 := h1
      apply le_min <;> linarith

theorem fadeAlpha_mem {x : ℚ} (h0 : 0 ≤ x) (h1 : x ≤ 1) :
    0 ≤ fadeAlpha x ∧ fadeAlpha x ≤ 1 := by
  rw [fadeAlpha_eq_min]
  have hdiv : x / (3 / 10) = x * (10 / 3) := by
    rw [div_div_eq_mul_div, mul_div_assoc]
  rw [hdiv]
  refine ⟨le_min (by norm_num) (le_min (by linarith) (by linarith)), min_le_left _ _⟩

theorem fadeAlpha_lipschitz (x y : ℚ) : |fadeAlpha x - fadeAlpha y| ≤ 10 * |x - y| := by
  rw [fadeAlpha_eq_min, fadeAlpha_eq_min]
  have hdiv : ∀ z : ℚ, z / (3 / 10) = z * (10 / 3) := by
    intro z
    rw [div_div_eq_mul_div, mul_div_assoc]
  rw [hdiv, hdiv]
  have hxy : 0 ≤ |x - y| := abs_nonneg _
  have ha : |(1 - x) * 10 - (1 - y) * 10| ≤ 10 * |x - y| := by
    have : (1 - x) * 10 - (1 - y) * 10 = -(10 * (x - y)) := by ring
    rw [this, abs_neg, abs_mul]
    norm_num
  have hb : |x * (10 / 3) - y * (10 / 3)| ≤ 10 * |x - y| := by
    have : x * (10 / 3) - y * (10 / 3) = (10 / 3) * (x - y) := by ring
    rw [this, abs_mul]
    have : |(10 / 3 : ℚ)| = 10 / 3 := abs_of_pos (by norm_num)
    rw [this]
    linarith
  have h2 := abs_min_sub_min_le_max ((1 - x) * 10) (x * (10 / 3)) ((1 - y) * 10) (y * (10 / 3))
  have h1 := abs_min_sub_min_le_max 1 (min ((1 - x) * 10) (x * (10 / 3))) 1
    (min ((1 - y) * 10) (y * (10 / 3)))
  have h3 : |(1 : ℚ) - 1| = 0 := by norm_num
  rw [h3] at h1
  have h4 := max_le ha hb
  have h5 : max 0 |min ((1 - x) * 10) (x * (10 / 3)) - min ((1 - y) * 10) (y * (10 / 3))|
      ≤ 10 * |x - y| := max_le (by linarith) (le_trans h2 h4)
  exact le_trans h1 h5

theorem fadeAlpha_continuous : Continuous fadeAlpha := by
  have h : fadeAlpha = fun x : ℚ => min 1 (min ((1 - x) * 10) (x / (3 / 10))) :=
    funext fadeAlpha_eq_min
  rw [h]
  fun_prop

/-! ## Buffer upload -/

theorem length_glBufferSubData {α : Type} (buffer data : List α) :
    (glBufferSubData buffer data).length = buffer.length := by
  unfold glBufferSubData
  by_cases h : data.length ≤ buffer.length
  · rw [if_pos h, List.length_append, List.length_drop]
    omega
  · rw [if_neg h]

theorem glBufferSubData_idem {α : Type} (buffer data : List α) :
    glBufferSubData (glBufferSubData buffer data) data = glBufferSubData buffer data := by
  have hlen := length_glBufferSubData buffer data
  by_cases h : data.length ≤ buffer.length
  · have e : glBufferSubData buffer data = data ++ buffer.drop data.length := by
      unfold glBufferSubData
      rw [if_pos h]
    have e2 : glBufferSubData (data ++ buffer.drop data.length) data
        = data ++ (data ++ buffer.drop data.length).drop data.length := by
      unfold glBufferSubData
      rw [if_pos (by rw [List.length_append]; omega)]
    rw [e, e2, List.drop_left]
  · have e : glBufferSubData buffer data = buffer := by
      unfold glBufferSubData
      rw [if_neg h]
    rw [e, e]

theorem glBufferSubData_of_length_eq {α : Type} (buffer data : List α)
    (h : buffer.length = data.length) : glBufferSubData buffer data = data := by
  unfold glBufferSubData
  rw [if_pos (by omega), List.drop_of_length_le (by omega), List.append_nil]

/-! ## New particles -/

/-- The slots re-initialised by `EmitParticles`, listed by their position `j` in the
ascending list of the slots inactive on entry. -/
theorem EmitParticles_new (R : RandomSource) (T : Trig) (s : HPParticleComponent)
    (count : Int) (g : Nat) (h : StoreShape s) :
    ∃ s1, EmitParticles R T s count g
        = some (s1, g + 10 * emitCount s count, (emitCount s count : Int)) ∧
      ∀ j i, j < emitCount s count → (inactiveSlots s)[j]? = some i →
        slot s1 i = some (newParticle R T s (g + 10 * j)) := by
  obtain ⟨s1, hres, -, -, -, hslots⟩ := EmitParticles_slots R T s count g h
  refine ⟨s1, hres, ?_⟩
  intro j i hj hji
  obtain ⟨h1, h2, h3⟩ := (inactiveSlots_getElem? s j i).1 hji
  rw [hslots i h1, if_pos ⟨h2, by omega⟩, h3]

theorem clamp_mem (x : ℚ) : 0 ≤ max 0 (min 1 x) ∧ max 0 (min 1 x) ≤ 1 :=
  ⟨le_max_left _ _, max_le (by norm_num) (min_le_left _ _)⟩

theorem clamp_of_mem {x : ℚ} (h0 : 0 ≤ x) (h1 : x ≤ 1) : max 0 (min 1 x) = x := by
  rw [min_eq_right h1, max_eq_right h0]

theorem circleTrig_identity (a : ℚ) : circleTrig.cos a ^ 2 + circleTrig.sin a ^ 2 = 1 := by
  have h : (1 + a * a) ≠ 0 := by
    have := mul_self_nonneg a
    intro h0
    linarith
  show ((1 - a * a) / (1 + a * a)) ^ 2 + (2 * a / (1 + a * a)) ^ 2 = 1
  field_simp
  ring

/-! ## Initialisation in detail, buffers on reachable states -/

theorem Initialize_detail (R : RandomSource) (T : Trig) (s : HPParticleComponent) (g : Nat)
    (h0 : 0 ≤ s.maxParticles) :
    ∃ l1 s1 g1 e, Initialize R T s g = some (s1, g1) ∧
      EmitParticles R T (allocated s l1) (Int.tdiv s.maxParticles 10) g = some (s1, g1, e) ∧
      StoreShape (allocated s l1) ∧ (∀ j, j < capacity s → Inactive (allocated s l1) j) := by
  obtain ⟨l1, hd, hlen, hneg⟩ := Initialize_arrays s
  have hshape : StoreShape (allocated s l1) := by
    refine (storeShape_iff (allocated s l1)).2 ⟨h0, ?_, ?_, ?_, ?_⟩
    · exact length_resize _ _ _
    · exact length_resize _ _ _
    · exact length_resize _ _ _
    · exact hlen
  obtain ⟨s1, hres0, -⟩ :=
    EmitParticles_slots R T (allocated s l1) (Int.tdiv s.maxParticles 10) g hshape
  obtain ⟨g1, e, hres⟩ : ∃ g1 e, EmitParticles R T (allocated s l1)
      (Int.tdiv s.maxParticles 10) g = some (s1, g1, e) := ⟨_, _, hres0⟩
  refine ⟨l1, s1, g1, e, ?_, hres, hshape, ?_⟩
  · unfold Initialize
    rw [if_neg (not_lt.2 h0)]
    simp only [hd]
    have hres2 : EmitParticles R T (allocated s l1)
        (Int.tdiv (allocated s l1).maxParticles 10) g = some (s1, g1, e) := hres
    simp only [allocated] at hres2
    simp only [hres2]
  · intro j hj
    have : (allocated s l1).lifetimes[j * 2]? = some (-1) := hneg j hj
    simp [Inactive, this]

theorem Initialize_nonneg (R : RandomSource) (T : Trig) (s0 : HPParticleComponent) (g0 : Nat)
    {s : HPParticleComponent} {g : Nat} (hres : Initialize R T s0 g0 = some (s, g)) :
    0 ≤ s0.maxParticles := by
  by_contra hneg
  unfold Initialize at hres
  rw [if_pos (not_le.1 hneg)] at hres
  cases hres

theorem buffers_of_settings {s s1 : HPParticleComponent} (h : settings s1 = settings s) :
    s1.positionBuffer = s.positionBuffer ∧ s1.velocityBuffer = s.velocityBuffer ∧
      s1.colorBuffer = s.colorBuffer ∧ s1.lifetimeBuffer = s.lifetimeBuffer := by
  refine ⟨?_, ?_, ?_, ?_⟩
  · show (settings s1).positionBuffer = (settings s).positionBuffer
    rw [h]
  · show (settings s1).velocityBuffer = (settings s).velocityBuffer
    rw [h]
  · show (settings s1).colorBuffer = (settings s).colorBuffer
    rw [h]
  · show (settings s1).lifetimeBuffer = (settings s).lifetimeBuffer
    rw [h]

theorem lengths_of_shape {s : HPParticleComponent} (h : StoreShape s) :
    s.positions.length = capacity s ∧ s.velocities.length = capacity s ∧
      s.colors.length = capacity s ∧ s.lifetimes.length = capacity s * 2 :=
  ((storeShape_iff s).1 h).2

/-- One tick on a store of the allocated shape whose buffer objects have the sizes of
the arrays: the three uploaded buffers end equal to their arrays, the velocity buffer
is the one the tick started with. -/
theorem Update_buffers (R : RandomSource) (T : Trig) (s : HPParticleComponent)
    (tr : TransformComponent) (dt : ℚ) (g : Nat) (h : StoreShape s) :
    ∃ s1 g1 e, Update R T s tr dt g = some (s1, g1, e) ∧ StoreShape s1 ∧
      capacity s1 = capacity s ∧ s1.velocityBuffer = s.velocityBuffer ∧
      (BuffersAllocated s → BuffersAllocated s1 ∧ s1.positionBuffer = s1.positions ∧
        s1.colorBuffer = s1.colors ∧ s1.lifetimeBuffer = s1.lifetimes) := by
  obtain ⟨s2, hres, hshape2, hs2, -⟩ := Update_spec R T s tr dt g h
  have hcap : capacity s2 = capacity s :=
    (show capacity s2 = capacity (afterTimer s tr dt) from capacity_of_settings hs2)
  obtain ⟨b1, b2, b3, b4⟩ := buffers_of_settings (s := afterTimer s tr dt) hs2
  refine ⟨UpdateGPUBuffers s2, _, _, hres, hshape2, hcap, b2, ?_⟩
  rintro ⟨a1, a2, a3, a4⟩
  obtain ⟨l1, l2, l3, l4⟩ := lengths_of_shape h
  obtain ⟨m1, m2, m3, m4⟩ := lengths_of_shape hshape2
  have e1 : s2.positionBuffer.length = s2.positions.length := by
    rw [b1]
    show s.positionBuffer.length = _
    omega
  have e3 : s2.colorBuffer.length = s2.colors.length := by
    rw [b3]
    show s.colorBuffer.length = _
    omega
  have e4 : s2.lifetimeBuffer.length = s2.lifetimes.length := by
    rw [b4]
    show s.lifetimeBuffer.length = _
    omega
  have p1 : (UpdateGPUBuffers s2).positionBuffer = s2.positions :=
    glBufferSubData_of_length_eq _ _ e1
  have p3 : (UpdateGPUBuffers s2).colorBuffer = s2.colors :=
    glBufferSubData_of_length_eq _ _ e3
  have p4 : (UpdateGPUBuffers s2).lifetimeBuffer = s2.lifetimes :=
    glBufferSubData_of_length_eq _ _ e4
  refine ⟨⟨?_, ?_, ?_, ?_⟩, p1, p3, p4⟩
  · rw [p1]; rfl
  · show s2.velocityBuffer.length = s2.velocities.length
    rw [b2]
    show s.velocityBuffer.length = _
    omega
  · rw [p3]; rfl
  · rw [p4]; rfl

theorem reachable_buffers (R : RandomSource) (T : Trig) (P : ℚ → Prop)
    {s : HPParticleComponent} {g : Nat} (h : Reachable R T P s g) : BuffersAllocated s := by
  induction h with
  | init s0 g0 s g hres =>
    obtain ⟨l1, s1, g1, e, hinit, hemit, hshapeI, -⟩ :=
      Initialize_detail R T s0 g0 (Initialize_nonneg R T s0 g0 hres)
    rw [hres] at hinit
    cases hinit
    obtain ⟨hshape, hs, -⟩ := EmitParticles_cases R T _ _ g0 hshapeI hemit
    obtain ⟨b1, b2, b3, b4⟩ := buffers_of_settings hs
    obtain ⟨l1', l2', l3', l4'⟩ := lengths_of_shape hshapeI
    obtain ⟨m1, m2, m3, m4⟩ := lengths_of_shape hshape
    have hcap := capacity_of_settings hs
    refine ⟨?_, ?_, ?_, ?_⟩
    · rw [b1, m1, hcap]; exact l1'
    · rw [b2, m2, hcap]; exact l2'
    · rw [b3, m3, hcap]; exact l3'
    · rw [b4, m4, hcap]; exact l4'
  | tick s g tr dt s1 g1 e hprev _ hres ih =>
    obtain ⟨s1', g1', e', hres', -, -, -, hb⟩ :=
      Update_buffers R T s tr dt g (reachable_shape R T P hprev)
    rw [hres] at hres'
    cases hres'
    exact (hb ih).1

theorem reachable_of_reachableFrom (R : RandomSource) (T : Trig) (P : ℚ → Prop)
    (I : HPParticleComponent → Prop) {s : HPParticleComponent} {g : Nat}
    (h : ReachableFrom R T P I s g) : Reachable R T P s g := by
  induction h with
  | init s0 g0 s g _ hres => exact Reachable.init s0 g0 s g hres
  | tick s g tr dt s1 g1 e _ hP hres ih => exact Reachable.tick s g tr dt s1 g1 e ih hP hres

/-! ## Alpha on reachable states -/

theorem stepSlot_alpha_mem (gravity : Vec3) {dt : ℚ} (hdt : 0 ≤ dt) {q : ParticleSlot}
    (hb : 0 ≤ q.lifetimeCurrent → q.lifetimeCurrent ≤ q.lifetimeMax)
    (ha : 0 ≤ q.color.w ∧ q.color.w ≤ 1) :
    0 ≤ (stepSlot gravity dt q).color.w ∧ (stepSlot gravity dt q).color.w ≤ 1 := by
  unfold stepSlot
  by_cases hc : q.lifetimeCurrent < 0
  · rw [if_pos hc]
    exact ha
  · rw [if_neg hc]
    by_cases hx : q.lifetimeCurrent - dt ≤ 0
    · rw [if_pos hx]
      exact ha
    · rw [if_neg hx]
      have h1 := hb (not_lt.1 hc)
      have h2 : 0 < q.lifetimeCurrent - dt := not_le.1 hx
      have hmx : 0 < q.lifetimeMax := by linarith
      show 0 ≤ fadeAlpha ((q.lifetimeCurrent - dt) / q.lifetimeMax)
        ∧ fadeAlpha ((q.lifetimeCurrent - dt) / q.lifetimeMax) ≤ 1
      exact fadeAlpha_mem (div_nonneg h2.le hmx.le) ((div_le_one hmx).2 (by linarith))

theorem resize_nil_getElem? {α : Type} (n : Nat) (v c : α) (j : Nat)
    (h : (resize ([] : List α) n v)[j]? = some c) : c = v := by
  unfold resize at h
  simp only [List.take_nil, List.nil_append, List.length_nil, Nat.sub_zero,
    List.getElem?_replicate] at h
  split at h
  · cases h
    rfl
  · cases h

theorem blankStore_fresh : Fresh blankStore := ⟨rfl, rfl, rfl, rfl⟩

theorem tickStore_reachableFrom (P : ℚ → Prop) (h : P (1 / 5)) :
    ReachableFrom lowRandom circleTrig P Fresh tickStore 10 :=
  ReachableFrom.tick initStore 0 originTransform (1 / 5) tickStore 10 1
    (ReachableFrom.init blankStore 0 initStore 0 blankStore_fresh rfl) h tickStore_eq

/-! ## The initial population of a fresh component -/

theorem deactivateAll_odd : ∀ (remaining k : Nat) (l l2 : List ℚ) (m : Nat),
    deactivateAll remaining k l = some l2 → m % 2 = 1 → l2[m]? = l[m]? := by
  intro remaining
  induction remaining with
  | zero =>
    intro k l l2 m h _
    simp only [deactivateAll] at h
    cases h
    rfl
  | succ r ih =>
    intro k l l2 m h hm
    rw [deactivateAll] at h
    by_cases hb : k * 2 < l.length
    · rw [if_pos hb] at h
      rw [ih (k + 1) _ l2 m h hm, List.getElem?_set_ne (by omega)]
    · rw [if_neg hb] at h
      cases h

theorem resize_nil {α : Type} (n : Nat) (v : α) : resize ([] : List α) n v = List.replicate n v := by
  unfold resize
  simp

theorem initialCount_eq (s : HPParticleComponent) (h0 : 0 ≤ s.maxParticles)
    (l1 : List ℚ) (hall : ∀ j, j < capacity s → Inactive (allocated s l1) j) :
    emitCount (allocated s l1) (Int.tdiv s.maxParticles 10) = initialCount s := by
  have hlen : (inactiveSlots (allocated s l1)).length = capacity s := by
    rw [inactiveSlots_length]
    exact count_eq_of_forall _ _ hall
  have htdiv : Int.tdiv s.maxParticles 10 = s.maxParticles / 10 :=
    Int.tdiv_eq_ediv h0 (by decide)
  unfold emitCount initialCount
  rw [hlen, htdiv]
  show (min (max (s.maxParticles / 10) 0) (min s.maxParticles (capacity s : Int))).toNat = _
  unfold capacity
  omega

theorem Initialize_eq (R : RandomSource) (T : Trig) (s : HPParticleComponent) (g : Nat)
    (h0 : 0 ≤ s.maxParticles) {l1 : List ℚ}
    (hd : deactivateAll s.maxParticles.toNat 0
      (resize s.lifetimes (s.maxParticles.toNat * 2) 0) = some l1)
    {s1 : HPParticleComponent} {g1 : Nat} {e : Int}
    (hemit : EmitParticles R T (allocated s l1) (Int.tdiv s.maxParticles 10) g
      = some (s1, g1, e)) :
    Initialize R T s g = some (s1, g1) := by
  unfold Initialize
  rw [if_neg (not_lt.2 h0)]
  simp only [hd]
  have hres2 : EmitParticles R T (allocated s l1)
      (Int.tdiv (allocated s l1).maxParticles 10) g = some (s1, g1, e) := hemit
  simp only [allocated] at hres2
  simp only [hres2]

/-- The store `Initialize` makes of a fresh component, slot by slot: the first
`maxParticles / 10` slots hold new particles, the others are untouched. -/
theorem Initialize_fresh_slots (R : RandomSource) (T : Trig) (s0 : HPParticleComponent)
    (g0 : Nat) (hfresh : Fresh s0) (h0 : 0 ≤ s0.maxParticles) :
    ∃ s, Initialize R T s0 g0 = some (s, g0 + 10 * initialCount s0) ∧ StoreShape s ∧
      capacity s = capacity s0 ∧
      ∀ i, i < capacity s0 → slot s i =
        if i < initialCount s0 then some (newParticle R T s0 (g0 + 10 * i))
        else some untouchedSlot := by
  obtain ⟨l1, hd, hlen, hneg⟩ := Initialize_arrays s0
  have hshapeI : StoreShape (allocated s0 l1) := by
    refine (storeShape_iff (allocated s0 l1)).2 ⟨h0, ?_, ?_, ?_, ?_⟩
    · exact length_resize _ _ _
    · exact length_resize _ _ _
    · exact length_resize _ _ _
    · exact hlen
  have hinact : ∀ j, j < capacity s0 → Inactive (allocated s0 l1) j := by
    intro j hj
    have : (allocated s0 l1).lifetimes[j * 2]? = some (-1) := hneg j hj
    simp [Inactive, this]
  obtain ⟨s1, hres, hl1, hs1, -, hslots⟩ :=
    EmitParticles_slots R T (allocated s0 l1) (Int.tdiv s0.maxParticles 10) g0 hshapeI
  rw [initialCount_eq s0 h0 l1 hinact] at hres hslots
  refine ⟨s1, Initialize_eq R T s0 g0 h0 hd hres, storeShape_of_lengths hshapeI hl1 hs1,
    (show capacity s1 = capacity (allocated s0 l1) from capacity_of_settings hs1), ?_⟩
  intro i hi
  have hi2 : i < s0.maxParticles.toNat := hi
  have hcount : Nat.count (Inactive (allocated s0 l1)) i = i :=
    count_eq_of_forall _ _ (fun j hj => hinact j (by omega))
  have hI := hslots i hi
  rw [hcount] at hI
  by_cases hik : i < initialCount s0
  · rw [if_pos ⟨hinact i hi, hik⟩] at hI
    rw [if_pos hik, hI]
    rfl
  · rw [if_neg (fun hh => hik hh.2)] at hI
    rw [if_neg hik, hI, slot_eq_some_iff]
    have hodd : l1[i * 2 + 1]? = some 0 := by
      rw [deactivateAll_odd _ _ _ _ (i * 2 + 1) hd (by omega), hfresh.2.2.2, resize_nil,
        List.getElem?_replicate, if_pos (by unfold capacity at hi; omega)]
    refine ⟨?_, ?_, ?_, hneg i hi, hodd⟩
    · show (resize s0.positions s0.maxParticles.toNat (Vec4.splat 0))[i]? = _
      rw [hfresh.1, resize_nil, List.getElem?_replicate, if_pos hi2]
      rfl
    · show (resize s0.velocities s0.maxParticles.toNat (Vec4.splat 0))[i]? = _
      rw [hfresh.2.1, resize_nil, List.getElem?_replicate, if_pos hi2]
      rfl
    · show (resize s0.colors s0.maxParticles.toNat (Vec4.splat 1))[i]? = _
      rw [hfresh.2.2.1, resize_nil, List.getElem?_replicate, if_pos hi2]
      rfl

/-! ## Damping -/

theorem dampingEffect_mul (u k : ℚ) : DampingEffect u (u * (1 - k)) k := by
  constructor
  · intro h0 h1
    have hf : 0 < 1 - k := by linarith
    refine ⟨?_, ?_⟩
    · rw [sign_mul, sign_pos hf, mul_one]
    · rw [abs_mul, abs_of_pos hf]
      have := abs_nonneg u
      nlinarith
  · intro h1 _
    have hf : 1 - k < 0 := by linarith
    rw [sign_mul, sign_neg hf, mul_neg, mul_one]

/-! ## The statistic `activeParticles` -/

theorem active_iff_of_slot {s : HPParticleComponent} {j : Nat} {q : ParticleSlot}
    (h : slot s j = some q) : Active s j ↔ 0 ≤ q.lifetimeCurrent := by
  rw [slot_eq_some_iff] at h
  simp [Active, h.2.2.2.1]

theorem stepSlot_active_iff (gravity : Vec3) (dt : ℚ) (q : ParticleSlot) :
    0 ≤ (stepSlot gravity dt q).lifetimeCurrent ↔
      (0 ≤ q.lifetimeCurrent ∧ 0 < q.lifetimeCurrent - dt) := by
  unfold stepSlot
  by_cases hc : q.lifetimeCurrent < 0
  · rw [if_pos hc]
    constructor
    · intro h0
      exact absurd h0 (not_le.2 hc)
    · intro hh
      exact absurd hh.1 (not_le.2 hc)
  · rw [if_neg hc]
    by_cases hx : q.lifetimeCurrent - dt ≤ 0
    · rw [if_pos hx]
      constructor
      · intro h0
        norm_num at h0
      · intro hh
        exact absurd hh.2 (not_lt.2 hx)
    · rw [if_neg hx]
      constructor
      · intro _
        exact ⟨not_lt.1 hc, not_le.1 hx⟩
      · intro hh
        exact le_of_lt hh.2

theorem updateParticle_active (dt : ℚ) {s : HPParticleComponent} {i : Nat} {q : ParticleSlot}
    (hq : slot s i = some q) {s1 : HPParticleComponent}
    (hres : updateParticle dt s i = some s1) :
    s1.activeParticles = s.activeParticles
      + (if 0 ≤ q.lifetimeCurrent ∧ 0 < q.lifetimeCurrent - dt then 1 else 0) := by
  rw [slot_eq_some_iff] at hq
  obtain ⟨e1, e2, e3, e4, e5⟩ := hq
  unfold updateParticle at hres
  simp only [e4, e5] at hres
  by_cases hc : q.lifetimeCurrent < 0
  · rw [if_pos hc] at hres
    cases hres
    rw [if_neg (fun hh => absurd hh.1 (not_le.2 hc))]
    simp
  · rw [if_neg hc] at hres
    by_cases hx : q.lifetimeCurrent - dt ≤ 0
    · simp only [hx, if_true] at hres
      cases hres
      rw [if_neg (fun hh => absurd hh.2 (not_lt.2 hx))]
      simp
    · simp only [hx, if_false, e1, e2, e3] at hres
      cases hres
      rw [if_pos ⟨not_lt.1 hc, not_le.1 hx⟩]

theorem updateLoop_active (dt : ℚ) (n : Nat) :
    ∀ (remaining i : Nat) (s s1 : HPParticleComponent), i + remaining = n → HasLengths s n →
      updateLoop dt remaining i s = some s1 →
      s1.activeParticles = s.activeParticles
        + ((Nat.count (Active s1) n : Int) - (Nat.count (Active s1) i : Int)) := by
  intro remaining
  induction remaining with
  | zero =>
    intro i s s1 hn _ hres
    have hin : i = n := by omega
    subst hin
    simp only [updateLoop] at hres
    cases hres
    omega
  | succ r ih =>
    intro i s s1 hn hl hres
    have hi : i < n := by omega
    obtain ⟨q, es⟩ : ∃ q, slot s i = some q := by
      obtain ⟨p, v, c, cur, mx, -, -, -, -, -, es⟩ := slot_isSome hl hi
      exact ⟨_, es⟩
    obtain ⟨s2, he, hl2, hs2, hslot2, -⟩ := updateParticle_spec dt hl hi es
    rw [updateLoop] at hres
    simp only [he] at hres
    have hact := updateParticle_active dt es he
    have hrec := ih (i + 1) s2 s1 (by omega) hl2 hres
    obtain ⟨s3, hres3, -, -, hslots3⟩ := updateLoop_spec dt n s2 r (i + 1) s2 (by omega) hl2 rfl
    rw [hres] at hres3
    cases hres3
    have hfinal := hslots3 i _ hslot2
    rw [if_neg (by omega)] at hfinal
    have hiff : Active s1 i ↔ (0 ≤ q.lifetimeCurrent ∧ 0 < q.lifetimeCurrent - dt) :=
      (active_iff_of_slot hfinal).trans (stepSlot_active_iff _ _ _)
    have hsucc := Nat.count_succ (Active s1) i
    by_cases hsurv : 0 ≤ q.lifetimeCurrent ∧ 0 < q.lifetimeCurrent - dt
    · rw [if_pos hsurv] at hact
      rw [if_pos (hiff.2 hsurv)] at hsucc
      rw [hrec, hact, hsucc]
      push_cast
      ring
    · rw [if_neg hsurv] at hact
      rw [if_neg (fun hh => hsurv (hiff.1 hh))] at hsucc
      rw [hrec, hact, hsucc]
      push_cast
      ring

theorem activeSlotCount_eq {s : HPParticleComponent} (h : StoreShape s) :
    activeSlotCount s = Nat.count (Active s) (capacity s) := by
  have hl := (lengths_of_shape h).2.2.2
  have e : s.lifetimes.length / 2 = capacity s := by omega
  unfold activeSlotCount
  rw [e]
  exact filter_range_length (Active s) (capacity s)

/-- After the simulation loop the statistic is the number of active slots. -/
theorem simulate_active (s : HPParticleComponent) (dt : ℚ) (h : StoreShape s)
    {s1 : HPParticleComponent} (hres : simulate s dt = some s1) :
    s1.activeParticles = (Nat.count (Active s1) (capacity s) : Int) := by
  have hl := lengths_of_shape h
  have := updateLoop_active dt (capacity s) (capacity s) 0 { s with activeParticles := 0 } s1
    (by omega) hl hres
  rw [this, Nat.count_zero]
  show (0 : Int) + _ = _
  push_cast
  ring

/-- One tick, with the store between the spawn phase and the simulation loop. -/
theorem Update_phases (R : RandomSource) (T : Trig) (s : HPParticleComponent)
    (tr : TransformComponent) (dt : ℚ) (g : Nat) (h : StoreShape s) :
    ∃ s1 s2 g1 req e, spawnPhase R T s tr dt g = some (s1, g1, req, e) ∧ StoreShape s1 ∧
      capacity s1 = capacity s ∧ simulate s1 dt = some s2 ∧ StoreShape s2 ∧
      capacity s2 = capacity s ∧
      Update R T s tr dt g = some (UpdateGPUBuffers s2, g1, e) := by
  obtain ⟨s1, hres1, hl1, hs1, -, -⟩ := spawnPhase_spec R T s tr dt g h
  have hshape1 : StoreShape s1 := storeShape_of_lengths (s := afterTimer s tr dt) h hl1 hs1
  have hcap1 : capacity s1 = capacity s :=
    (show capacity s1 = capacity (afterTimer s tr dt) from capacity_of_settings hs1)
  obtain ⟨s2, hres2, hshape2, hs2, -⟩ := simulate_slots s1 dt hshape1
  refine ⟨s1, s2, _, _, _, hres1, hshape1, hcap1, hres2, hshape2,
    (capacity_of_settings hs2).trans hcap1, ?_⟩
  unfold Update
  simp only [hres1, hres2]

theorem initStore_shape : StoreShape initStore :=
  reachable_shape lowRandom circleTrig (fun _ => True) (initStore_reachable _)

/-! ## The inactive sentinel -/

theorem stepSlot_sentinel (gravity : Vec3) (dt : ℚ) {q : ParticleSlot}
    (h : q.lifetimeCurrent < 0 → q.lifetimeCurrent = -1) :
    (stepSlot gravity dt q).lifetimeCurrent < 0 → (stepSlot gravity dt q).lifetimeCurrent = -1 := by
  unfold stepSlot
  by_cases hc : q.lifetimeCurrent < 0
  · rw [if_pos hc]
    exact h
  · rw [if_neg hc]
    by_cases hx : q.lifetimeCurrent - dt ≤ 0
    · rw [if_pos hx]
      intro _
      rfl
    · rw [if_neg hx]
      intro hneg
      have h1 : q.lifetimeCurrent - dt < 0 := hneg
      exact absurd (le_of_lt h1) hx

/-- After `Initialize`, whatever the component held before, every slot has
`lifetimeCurrent = -1` or holds a newly computed particle. -/
theorem Initialize_sentinel (R : RandomSource) (T : Trig) (s0 : HPParticleComponent) (g0 : Nat)
    {s : HPParticleComponent} {g : Nat} (hres : Initialize R T s0 g0 = some (s, g)) :
    StoreShape s ∧ s.initialLifespanMin = s0.initialLifespanMin ∧
      s.initialLifespanMax = s0.initialLifespanMax ∧
      ∀ j, j < capacity s → ∃ q, slot s j = some q ∧
        (q.lifetimeCurrent = -1 ∨ ∃ g2, q = newParticle R T s0 g2) := by
  have h0 := Initialize_nonneg R T s0 g0 hres
  obtain ⟨l1, hd, hlen, hneg⟩ := Initialize_arrays s0
  have hshapeI : StoreShape (allocated s0 l1) := by
    refine (storeShape_iff (allocated s0 l1)).2 ⟨h0, ?_, ?_, ?_, ?_⟩
    · exact length_resize _ _ _
    · exact length_resize _ _ _
    · exact length_resize _ _ _
    · exact hlen
  obtain ⟨s1, hres1, hl1, hs1, -, hslots⟩ :=
    EmitParticles_slots R T (allocated s0 l1) (Int.tdiv s0.maxParticles 10) g0 hshapeI
  have hinit := Initialize_eq R T s0 g0 h0 hd hres1
  rw [hres] at hinit
  cases hinit
  have hcap : capacity s = capacity (allocated s0 l1) := capacity_of_settings hs1
  refine ⟨storeShape_of_lengths hshapeI hl1 hs1, ?_, ?_, ?_⟩
  · show (settings s).initialLifespanMin = (settings (allocated s0 l1)).initialLifespanMin
    rw [hs1]
  · show (settings s).initialLifespanMax = (settings (allocated s0 l1)).initialLifespanMax
    rw [hs1]
  · intro j hj
    rw [hcap] at hj
    have hj2 := hslots j hj
    split at hj2
    · exact ⟨_, hj2, Or.inr ⟨_, rfl⟩⟩
    · obtain ⟨p, v, c, cur, mx, -, -, -, e4, -, es⟩ := slot_isSome (lengths_of_shape hshapeI) hj
      have hm : (allocated s0 l1).lifetimes[j * 2]? = some (-1) := hneg j hj
      rw [hm] at e4
      cases e4
      exact ⟨_, hj2.trans es, Or.inl rfl⟩

theorem Update_lifespan (R : RandomSource) (T : Trig) (s : HPParticleComponent)
    (tr : TransformComponent) (dt : ℚ) (g : Nat) (h : StoreShape s)
    {s1 : HPParticleComponent} {g1 : Nat} {e : Int}
    (hres : Update R T s tr dt g = some (s1, g1, e)) :
    s1.initialLifespanMin = s.initialLifespanMin ∧
      s1.initialLifespanMax = s.initialLifespanMax := by
  obtain ⟨s2, hres2, -, hs2, -⟩ := Update_spec R T s tr dt g h
  rw [hres] at hres2
  cases hres2
  constructor
  · show (settings s2).initialLifespanMin = (settings (afterTimer s tr dt)).initialLifespanMin
    rw [hs2]
  · show (settings s2).initialLifespanMax = (settings (afterTimer s tr dt)).initialLifespanMax
    rw [hs2]

/-! ## A particle is stepped in the tick that emits it -/

theorem stepSlot_after (gravity : Vec3) {dt : ℚ} (hdt : 0 < dt) {q : ParticleSlot}
    (hb : 0 ≤ q.lifetimeCurrent → q.lifetimeCurrent ≤ q.lifetimeMax) :
    0 ≤ (stepSlot gravity dt q).lifetimeCurrent →
      0 < (stepSlot gravity dt q).lifetimeCurrent ∧
      (stepSlot gravity dt q).lifetimeCurrent ≤ (stepSlot gravity dt q).lifetimeMax - dt ∧
      (stepSlot gravity dt q).lifetimeCurrent ≠ (stepSlot gravity dt q).lifetimeMax := by
  unfold stepSlot
  by_cases hc : q.lifetimeCurrent < 0
  · rw [if_pos hc]
    intro h0
    exact absurd h0 (not_le.2 hc)
  · rw [if_neg hc]
    by_cases hx : q.lifetimeCurrent - dt ≤ 0
    · rw [if_pos hx]
      intro h0
      norm_num at h0
    · rw [if_neg hx]
      intro _
      have h1 := hb (not_lt.1 hc)
      have h2 : 0 < q.lifetimeCurrent - dt := not_le.1 hx
      refine ⟨h2, ?_, ?_⟩
      · show q.lifetimeCurrent - dt ≤ q.lifetimeMax - dt
        linarith
      · show q.lifetimeCurrent - dt ≠ q.lifetimeMax
        intro heq
        linarith

theorem stepSlot_expired (gravity : Vec3) {dt : ℚ} {q : ParticleSlot}
    (h0 : 0 ≤ q.lifetimeCurrent) (h1 : q.lifetimeCurrent ≤ dt) :
    (stepSlot gravity dt q).lifetimeCurrent = -1 := by
  unfold stepSlot
  rw [if_neg (not_lt.2 h0), if_pos (by linarith)]

/-! ## The spawn timer in binary32 -/

theorem roundHalfEven_eq {q : ℚ} {m : Int} (h1 : (m : ℚ) - 1 / 2 < q) (h2 : q < m + 1 / 2) :
    roundHalfEven q = m := by
  unfold roundHalfEven
  have hf1 := Int.floor_le q
  have hf2 := Int.lt_floor_add_one q
  have hcases : ⌊q⌋ = m ∨ ⌊q⌋ = m - 1 := by
    have a : m - 1 ≤ ⌊q⌋ := by
      rw [Int.le_floor]; push_cast; linarith
    have b : ⌊q⌋ < m + 1 := by
      rw [Int.floor_lt]; push_cast; linarith
    omega
  rcases hcases with e | e
  · rw [e] at hf1 hf2 ⊢
    rw [if_pos (by linarith)]
  · rw [e] at hf1 hf2 ⊢
    push_cast at hf1 hf2 ⊢
    rw [if_neg (by linarith), if_pos (by linarith)]
    ring

theorem ulpExponent_eq {q : ℚ} {k : Int} (h1 : (2 : ℚ) ^ k ≤ |q|) (h2 : |q| < 2 ^ (k + 1))
    (hk : -126 ≤ k) : ulpExponent q = k - 23 := by
  unfold ulpExponent
  have a : k ≤ Int.log 2 |q| := by
    rw [← Int.zpow_le_iff_le_log (by norm_num) (lt_of_lt_of_le (by positivity) h1)]
    exact_mod_cast h1
  have b : Int.log 2 |q| < k + 1 := by
    rw [← Int.lt_zpow_iff_log_lt (by norm_num) (lt_of_lt_of_le (by positivity) h1)]
    exact_mod_cast h2
  omega

/-- The binary32 value of `q`, given its binade `2^k <= |q| < 2^(k+1)` and the integer
`m` within half a unit of `q / 2^(k-23)`. -/
theorem fl32_eq {q y : ℚ} (k m : Int) (h1 : (2 : ℚ) ^ k ≤ |q|) (h2 : |q| < 2 ^ (k + 1))
    (hk : -126 ≤ k) (h3 : (m : ℚ) - 1 / 2 < q / 2 ^ (k - 23))
    (h4 : q / 2 ^ (k - 23) < m + 1 / 2) (hy : (m : ℚ) * 2 ^ (k - 23) = y) : fl32 q = y := by
  unfold fl32
  rw [ulpExponent_eq h1 h2 hk, roundHalfEven_eq h3 h4, hy]

theorem roundHalfEven_tie {q : ℚ} {m : Int} (h : q = m + 1 / 2) (he : m % 2 = 0) :
    roundHalfEven q = m := by
  unfold roundHalfEven
  have hf : ⌊q⌋ = m := by
    rw [Int.floor_eq_iff, h]
    constructor <;> linarith
  rw [hf, h, if_neg (by norm_num), if_neg (by norm_num), if_pos he]

/-- The binary32 value of `q` at a tie: `q / 2^(k-23)` lies half way between the even
integer `m` and `m + 1`. -/
theorem fl32_tie {q y : ℚ} (k m : Int) (h1 : (2 : ℚ) ^ k ≤ |q|) (h2 : |q| < 2 ^ (k + 1))
    (hk : -126 ≤ k) (h3 : q / 2 ^ (k - 23) = m + 1 / 2) (he : m % 2 = 0)
    (hy : (m : ℚ) * 2 ^ (k - 23) = y) : fl32 q = y := by
  unfold fl32
  rw [ulpExponent_eq h1 h2 hk, roundHalfEven_tie h3 he, hy]

theorem fl32_one : fl32 1 = 1 :=
  fl32_eq 0 8388608 (by norm_num) (by norm_num) (by norm_num) (by norm_num) (by norm_num)
    (by norm_num)

theorem fl32_third : fl32 (1 / 3) = 11184811 / 33554432 :=
  fl32_eq (-2) 11184811 (by norm_num [abs_of_pos]) (by norm_num [abs_of_pos]) (by norm_num)
    (by norm_num) (by norm_num) (by norm_num)

theorem spawnTimer32_idle {rate t dt a iv : ℚ} (ha : fl32 (t + dt) = a)
    (hiv : fl32 (1 / rate) = iv) (hlt : a < iv) : spawnTimer32 rate t dt = (a, 0) := by
  unfold spawnTimer32
  simp only [ha, hiv]
  rw [if_neg (not_le.2 hlt)]

theorem spawnTimer32_emit {rate t dt a iv qd nf pr t2 : ℚ} {n : Int} (ha : fl32 (t + dt) = a)
    (hiv : fl32 (1 / rate) = iv) (hge : iv ≤ a) (hq : fl32 (a / iv) = qd)
    (hn : truncToInt qd = n) (hc : fl32 (n : ℚ) = nf) (hp : fl32 (nf * iv) = pr)
    (ht : fl32 (a - pr) = t2) : spawnTimer32 rate t dt = (t2, n) := by
  unfold spawnTimer32
  simp only [ha, hiv]
  rw [if_pos hge]
  simp only [hq, hn, hc, hp, ht]

/-- The spawn phase with the `float` timer on a store of the allocated shape. -/
theorem spawnPhase32_spec (R : RandomSource) (T : Trig) (s : HPParticleComponent)
    (tr : TransformComponent) (dt : ℚ) (g : Nat) (h : StoreShape s) :
    ∃ s1, spawnPhase32 R T s tr dt g
        = some (s1, g + 10 * emitCount s (spawnRequest32 s dt), spawnRequest32 s dt,
            (emitCount s (spawnRequest32 s dt) : Int)) ∧
      HasLengths s1 (capacity s) ∧ settings s1 = settings (afterTimer32 s tr dt) ∧
      ∀ j, j < capacity s → slot s1 j =
        if Inactive s j ∧ Nat.count (Inactive s) j < emitCount s (spawnRequest32 s dt)
        then some (newParticle R T (afterTimer32 s tr dt) (g + 10 * Nat.count (Inactive s) j))
        else slot s j := by
  by_cases hb : fl32 (s.timeSinceLastSpawn + dt) ≥ fl32 (1 / s.spawnRate)
  · have hshape : StoreShape (afterTimer32 s tr dt) := h
    obtain ⟨s1, hres, hl1, hs1, -, hslots⟩ :=
      EmitParticles_slots R T (afterTimer32 s tr dt) (spawnRequest32 s dt) g hshape
    refine ⟨s1, ?_, hl1, hs1, hslots⟩
    have hreq : spawnRequest32 s dt = truncToInt (fl32 (fl32 (s.timeSinceLastSpawn + dt)
        / fl32 (1 / s.spawnRate))) := by
      unfold spawnRequest32 spawnTimer32
      simp only [hb, if_true]
    have hA : afterTimer32 s tr dt = { s with
        emitterPosition := tr.position
        timeSinceLastSpawn := fl32 (fl32 (s.timeSinceLastSpawn + dt)
          - fl32 (fl32 (truncToInt (fl32 (fl32 (s.timeSinceLastSpawn + dt)
              / fl32 (1 / s.spawnRate))) : ℚ) * fl32 (1 / s.spawnRate))) } := by
      unfold afterTimer32 spawnTimer32
      simp only [hb, if_true]
    have hE := hres
    rw [hA, hreq] at hE
    have hE2 : EmitParticles R T
        { s with
          emitterPosition := tr.position
          timeSinceLastSpawn := fl32 (fl32 (s.timeSinceLastSpawn + dt)
            - fl32 (fl32 (truncToInt (fl32 (fl32 (s.timeSinceLastSpawn + dt)
                / fl32 (1 / s.spawnRate))) : ℚ) * fl32 (1 / s.spawnRate))) }
        (truncToInt (fl32 (fl32 (s.timeSinceLastSpawn + dt) / fl32 (1 / s.spawnRate)))) g
        = some (s1, g + 10 * emitCount s (truncToInt (fl32 (fl32 (s.timeSinceLastSpawn + dt)
              / fl32 (1 / s.spawnRate)))),
            (emitCount s (truncToInt (fl32 (fl32 (s.timeSinceLastSpawn + dt)
              / fl32 (1 / s.spawnRate)))) : Int)) := hE
    rw [hreq]
    unfold spawnPhase32
    simp only [hb, if_true, hE2]
  · have hreq : spawnRequest32 s dt = 0 := by
      unfold spawnRequest32 spawnTimer32
      simp only [hb, if_false]
    have hA : afterTimer32 s tr dt = { s with
        emitterPosition := tr.position
        timeSinceLastSpawn := fl32 (s.timeSinceLastSpawn + dt) } := by
      unfold afterTimer32 spawnTimer32
      simp only [hb, if_false]
    rw [hreq, emitCount_zero, hA]
    refine ⟨{ s with emitterPosition := tr.position,
                     timeSinceLastSpawn := fl32 (s.timeSinceLastSpawn + dt) }, ?_,
      ((storeShape_iff s).1 h).2, rfl, ?_⟩
    · unfold spawnPhase32
      simp only [hb, if_false]
      rfl
    · intro j _
      rw [if_neg (by omega)]
      rfl

/-- One tick with the `float` timer when the store has a free slot for every requested
particle: all of them are emitted, the timer is the one `spawnTimer32` computes, and the
number of inactive slots drops by at most the number emitted. -/
theorem Update32_free (R : RandomSource) (T : Trig) (s : HPParticleComponent)
    (tr : TransformComponent) (dt : ℚ) (g : Nat) (h : StoreShape s)
    (hfree : spawnRequest32 s dt ≤ (inactiveSlots s).length) (hreq : 0 ≤ spawnRequest32 s dt) :
    ∃ s1, Update32 R T s tr dt g
        = some (s1, g + 10 * (spawnRequest32 s dt).toNat, spawnRequest32 s dt) ∧
      StoreShape s1 ∧ s1.spawnRate = s.spawnRate ∧
      s1.timeSinceLastSpawn = (spawnTimer32 s.spawnRate s.timeSinceLastSpawn dt).1 ∧
      ((inactiveSlots s).length : Int) - spawnRequest32 s dt ≤ (inactiveSlots s1).length := by
  obtain ⟨s1, hres1, hl1, hs1, hslots1⟩ := spawnPhase32_spec R T s tr dt g h
  have hshape1 : StoreShape s1 := storeShape_of_lengths (s := afterTimer32 s tr dt) h hl1 hs1
  obtain ⟨s2, hres2, hshape2, hs2, hslots2⟩ := simulate_slots s1 dt hshape1
  obtain ⟨h0, hl⟩ := (storeShape_iff s).1 h
  have hlen := inactiveSlots_length_le s
  have hcap : (capacity s : Int) = s.maxParticles := by unfold capacity; omega
  have hk : emitCount s (spawnRequest32 s dt) = (spawnRequest32 s dt).toNat := by
    unfold emitCount
    omega
  have hkI : ((emitCount s (spawnRequest32 s dt) : Nat) : Int) = spawnRequest32 s dt := by
    rw [hk]
    omega
  have hs2' : settings s2 = settings (afterTimer32 s tr dt) := hs2.trans hs1
  have hm : s2.maxParticles = s.maxParticles := by
    show (settings s2).maxParticles = (settings (afterTimer32 s tr dt)).maxParticles
    rw [hs2']
  have hc2 : capacity (UpdateGPUBuffers s2) = capacity s := by
    show s2.maxParticles.toNat = s.maxParticles.toNat
    rw [hm]
  refine ⟨UpdateGPUBuffers s2, ?_, hshape2, ?_, ?_, ?_⟩
  · unfold Update32
    simp only [hres1, hres2]
    rw [hkI, hk]
  · show (settings s2).spawnRate = (settings (afterTimer32 s tr dt)).spawnRate
    rw [hs2']
  · show (settings s2).timeSinceLastSpawn = (settings (afterTimer32 s tr dt)).timeSinceLastSpawn
    rw [hs2']
  · rw [inactiveSlots_length, inactiveSlots_length, hc2]
    have hcount := count_rank_ge (Inactive s) (spawnRequest32 s dt).toNat (capacity s)
    have hmono := count_le_count_of_lt
      (fun j => Inactive s j ∧ (spawnRequest32 s dt).toNat ≤ Nat.count (Inactive s) j)
      (Inactive (UpdateGPUBuffers s2)) (capacity s) (by
        intro j hj hin
        obtain ⟨p, v, c, cur, mx, -, -, -, -, -, es⟩ := slot_isSome hl hj
        have h1 := hslots1 j hj
        rw [hk, if_neg (fun hh => by omega)] at h1
        have hq2 := hslots2 j _ (h1.trans es)
        have hneg := (inactive_iff_of_slot es).1 hin.1
        rw [stepSlot_of_inactive _ _ hneg] at hq2
        exact (inactive_iff_of_slot (s := UpdateGPUBuffers s2) hq2).2 hneg)
    omega

/-- One tick with the `float` timer, from the value of `spawnTimer32`, with what the
next ticks need. -/
theorem tick32 (R : RandomSource) (T : Trig) (tr : TransformComponent) (dt : ℚ) (n : Nat)
    (s : HPParticleComponent) (g : Nat) (h : StoreShape s) {rate t t2 : ℚ} {k : Int}
    (hrate : s.spawnRate = rate) (ht : s.timeSinceLastSpawn = t)
    (hstep : spawnTimer32 rate t dt = (t2, k)) (hk0 : 0 ≤ k)
    (hfree : k ≤ (inactiveSlots s).length) :
    ∃ s1 g1, Update32 R T s tr dt g = some (s1, g1, k) ∧ StoreShape s1 ∧
      s1.spawnRate = rate ∧ s1.timeSinceLastSpawn = t2 ∧
      ((inactiveSlots s).length : Int) - k ≤ (inactiveSlots s1).length ∧
      (FreeSlotEachTick32 R T tr dt n s1 g1 → FreeSlotEachTick32 R T tr dt (n + 1) s g) := by
  have hstep2 : spawnTimer32 s.spawnRate s.timeSinceLastSpawn dt = (t2, k) := by
    rw [hrate, ht]
    exact hstep
  have hreq : spawnRequest32 s dt = k := by
    unfold spawnRequest32
    rw [hstep2]
  obtain ⟨s1, hres, hshape1, hr1, ht1, hcount⟩ :=
    Update32_free R T s tr dt g h (by rw [hreq]; exact hfree) (by rw [hreq]; exact hk0)
  rw [hreq] at hres hcount
  rw [hstep2] at ht1
  refine ⟨s1, _, hres, hshape1, hr1.trans hrate, ht1, hcount, ?_⟩
  intro hnext
  refine ⟨by rw [hreq]; exact hfree, ?_⟩
  intro s1' g1' e hup
  rw [hres] at hup
  cases hup
  exact hnext

theorem paceTimer_one : spawnTimer32 3 (0) tenth32 = (13421773 / 134217728, 0) := by
  have ha : fl32 (0 + tenth32) = 13421773 / 134217728 :=
    fl32_eq (-4) 13421773 (by norm_num [tenth32, abs_of_pos]) (by norm_num [tenth32, abs_of_pos])
      (by norm_num) (by norm_num [tenth32]) (by norm_num [tenth32]) (by norm_num)
  exact spawnTimer32_idle ha fl32_third (by norm_num)

theorem paceTimer_two : spawnTimer32 3 (13421773 / 134217728) tenth32 = (13421773 / 67108864, 0) := by
  have ha : fl32 (13421773 / 134217728 + tenth32) = 13421773 / 67108864 :=
    fl32_eq (-3) 13421773 (by norm_num [tenth32, abs_of_pos]) (by norm_num [tenth32, abs_of_pos])
      (by norm_num) (by norm_num [tenth32]) (by norm_num [tenth32]) (by norm_num)
  exact spawnTimer32_idle ha fl32_third (by norm_num)

theorem paceTimer_three : spawnTimer32 3 (13421773 / 67108864) tenth32 = (5033165 / 16777216, 0) := by
  have ha : fl32 (13421773 / 67108864 + tenth32) = 5033165 / 16777216 :=
    fl32_eq (-2) 10066330 (by norm_num [tenth32, abs_of_pos]) (by norm_num [tenth32, abs_of_pos])
      (by norm_num) (by norm_num [tenth32]) (by norm_num [tenth32]) (by norm_num)
  exact spawnTimer32_idle ha fl32_third (by norm_num)

theorem paceTimer_four : spawnTimer32 3 (5033165 / 16777216) tenth32 = (1118481 / 16777216, 1) := by
  have ha : fl32 (5033165 / 16777216 + tenth32) = 13421773 / 33554432 :=
    fl32_eq (-2) 13421773 (by norm_num [tenth32, abs_of_pos]) (by norm_num [tenth32, abs_of_pos])
      (by norm_num) (by norm_num [tenth32]) (by norm_num [tenth32]) (by norm_num)
  have hq : fl32 (13421773 / 33554432 / (11184811 / 33554432)) = 10066329 / 8388608 :=
    fl32_eq 0 10066329 (by norm_num [tenth32, abs_of_pos]) (by norm_num [tenth32, abs_of_pos])
      (by norm_num) (by norm_num [tenth32]) (by norm_num [tenth32]) (by norm_num)
  have hn : truncToInt (10066329 / 8388608) = 1 := by
    rw [truncToInt_of_nonneg (by norm_num), Int.floor_eq_iff]
    norm_num
  have hc : fl32 ((1 : Int) : ℚ) = 1 := by
    rw [Int.cast_one]
    exact fl32_one
  have hp : fl32 (1 * (11184811 / 33554432)) = 11184811 / 33554432 :=
    fl32_eq (-2) 11184811 (by norm_num [tenth32, abs_of_pos]) (by norm_num [tenth32, abs_of_pos])
      (by norm_num) (by norm_num [tenth32]) (by norm_num [tenth32]) (by norm_num)
  have ht : fl32 (13421773 / 33554432 - 11184811 / 33554432) = 1118481 / 16777216 :=
    fl32_eq (-4) 8947848 (by norm_num [tenth32, abs_of_pos]) (by norm_num [tenth32, abs_of_pos])
      (by norm_num) (by norm_num [tenth32]) (by norm_num [tenth32]) (by norm_num)
  exact spawnTimer32_emit ha fl32_third (by norm_num) hq hn hc hp ht

theorem paceTimer_five : spawnTimer32 3 (1118481 / 16777216) tenth32 = (5592405 / 33554432, 0) := by
  have ha : fl32 (1118481 / 16777216 + tenth32) = 5592405 / 33554432 :=
    fl32_tie (-3) 11184810 (by norm_num [tenth32, abs_of_pos]) (by norm_num [tenth32, abs_of_pos])
      (by norm_num) (by norm_num [tenth32]) (by decide) (by norm_num)
  exact spawnTimer32_idle ha fl32_third (by norm_num)

theorem paceTimer_six : spawnTimer32 3 (5592405 / 33554432) tenth32 = (1118481 / 4194304, 0) := by
  have ha : fl32 (5592405 / 33554432 + tenth32) = 1118481 / 4194304 :=
    fl32_eq (-2) 8947848 (by norm_num [tenth32, abs_of_pos]) (by norm_num [tenth32, abs_of_pos])
      (by norm_num) (by norm_num [tenth32]) (by norm_num [tenth32]) (by norm_num)
  exact spawnTimer32_idle ha fl32_third (by norm_num)

theorem paceTimer_seven : spawnTimer32 3 (1118481 / 4194304) tenth32 = (69905 / 2097152, 1) := by
  have ha : fl32 (1118481 / 4194304 + tenth32) = 12303291 / 33554432 :=
    fl32_eq (-2) 12303291 (by norm_num [tenth32, abs_of_pos]) (by norm_num [tenth32, abs_of_pos])
      (by norm_num) (by norm_num [tenth32]) (by norm_num [tenth32]) (by norm_num)
  have hq : fl32 (12303291 / 33554432 / (11184811 / 33554432)) = 2306867 / 2097152 :=
    fl32_eq 0 9227468 (by norm_num [tenth32, abs_of_pos]) (by norm_num [tenth32, abs_of_pos])
      (by norm_num) (by norm_num [tenth32]) (by norm_num [tenth32]) (by norm_num)
  have hn : truncToInt (2306867 / 2097152) = 1 := by
    rw [truncToInt_of_nonneg (by norm_num), Int.floor_eq_iff]
    norm_num
  have hc : fl32 ((1 : Int) : ℚ) = 1 := by
    rw [Int.cast_one]
    exact fl32_one
  have hp : fl32 (1 * (11184811 / 33554432)) = 11184811 / 33554432 :=
    fl32_eq (-2) 11184811 (by norm_num [tenth32, abs_of_pos]) (by norm_num [tenth32, abs_of_pos])
      (by norm_num) (by norm_num [tenth32]) (by norm_num [tenth32]) (by norm_num)
  have ht : fl32 (12303291 / 33554432 - 11184811 / 33554432) = 69905 / 2097152 :=
    fl32_eq (-5) 8947840 (by norm_num [tenth32, abs_of_pos]) (by norm_num [tenth32, abs_of_pos])
      (by norm_num) (by norm_num [tenth32]) (by norm_num [tenth32]) (by norm_num)
  exact spawnTimer32_emit ha fl32_third (by norm_num) hq hn hc hp ht

theorem paceTimer_eight : spawnTimer32 3 (69905 / 2097152) tenth32 = (4473923 / 33554432, 0) := by
  have ha : fl32 (69905 / 2097152 + tenth32) = 4473923 / 33554432 :=
    fl32_tie (-3) 8947846 (by norm_num [tenth32, abs_of_pos]) (by norm_num [tenth32, abs_of_pos])
      (by norm_num) (by norm_num [tenth32]) (by decide) (by norm_num)
  exact spawnTimer32_idle ha fl32_third (by norm_num)

theorem paceTimer_nine : spawnTimer32 3 (4473923 / 33554432) tenth32 = (3914683 / 16777216, 0) := by
  have ha : fl32 (4473923 / 33554432 + tenth32) = 3914683 / 16777216 :=
    fl32_tie (-3) 15658732 (by norm_num [tenth32, abs_of_pos]) (by norm_num [tenth32, abs_of_pos])
      (by norm_num) (by norm_num [tenth32]) (by decide) (by norm_num)
  exact spawnTimer32_idle ha fl32_third (by norm_num)

theorem paceTimer_ten : spawnTimer32 3 (3914683 / 16777216) tenth32 = (11184809 / 33554432, 0) := by
  have ha : fl32 (3914683 / 16777216 + tenth32) = 11184809 / 33554432 :=
    fl32_eq (-2) 11184809 (by norm_num [tenth32, abs_of_pos]) (by norm_num [tenth32, abs_of_pos])
      (by norm_num) (by norm_num [tenth32]) (by norm_num [tenth32]) (by norm_num)
  exact spawnTimer32_idle ha fl32_third (by norm_num)

theorem paceStore_shape : StoreShape paceStore := by
  unfold StoreShape
  decide

theorem paceStore_inactive_length : (inactiveSlots paceStore).length = 4 := by
  decide

/-! ## The claims -/

/-- C1: on a store of the allocated shape, for every requested count and every
random source, `EmitParticles` succeeds and re-initialises exactly the
`k = min(max(count, 0), maxParticles, number of inactive slots)` lowest-index slots
that were inactive on entry: the `j`-th inactive slot (ascending, `j < k`) receives the
particle computed from the `j`-th batch of ten draws, every other slot keeps its row
in all four arrays, and the local `emitted` ends at `k`. -/
theorem EmitParticles_reinitialises_lowest_inactive (R : RandomSource) (T : Trig)
    (s : HPParticleComponent) (count : Int) (g : Nat) (h : StoreShape s) :
    ∃ s1, EmitParticles R T s count g
        = some (s1, g + drawsPerParticle * emitCount s count, (emitCount s count : Int)) ∧
      StoreShape s1 ∧ settings s1 = settings s ∧
      ((inactiveSlots s).take (emitCount s count)).length = emitCount s count ∧
      (∀ j i, j < emitCount s count → (inactiveSlots s)[j]? = some i →
        slot s1 i = some (newParticle R T s (g + drawsPerParticle * j))) ∧
      (∀ i, i < capacity s → i ∉ (inactiveSlots s).take (emitCount s count) →
        slot s1 i = slot s i) := by
  obtain ⟨s1, hres, hl1, hs1, -, hslots⟩ := EmitParticles_slots R T s count g h
  refine ⟨s1, hres, storeShape_of_lengths h hl1 hs1, hs1, ?_, ?_, ?_⟩
  · rw [List.length_take]
    exact min_eq_left (emitCount_le_length s count)
  · intro j i hj hji
    obtain ⟨h1, h2, h3⟩ := (inactiveSlots_getElem? s j i).1 hji
    rw [hslots i h1, if_pos ⟨h2, by omega⟩, h3]
    rfl
  · intro i hi hni
    rw [hslots i hi, if_neg]
    intro hh
    exact hni ((mem_take_inactiveSlots s _ i).2 ⟨hi, hh.1, hh.2⟩)

theorem sampleStore_shape : StoreShape sampleStore := by
  unfold StoreShape sampleStore
  decide

/-- Instance of C1 on the three-slot sample store with a request of five particles. -/
theorem EmitParticles_reinitialises_lowest_inactive_witness :
    StoreShape sampleStore ∧
    ∃ s1, EmitParticles lowRandom circleTrig sampleStore 5 0
        = some (s1, 0 + drawsPerParticle * emitCount sampleStore 5,
            (emitCount sampleStore 5 : Int)) ∧
      StoreShape s1 ∧ settings s1 = settings sampleStore ∧
      ((inactiveSlots sampleStore).take (emitCount sampleStore 5)).length
        = emitCount sampleStore 5 ∧
      (∀ j i, j < emitCount sampleStore 5 → (inactiveSlots sampleStore)[j]? = some i →
        slot s1 i = some (newParticle lowRandom circleTrig sampleStore
          (0 + drawsPerParticle * j))) ∧
      (∀ i, i < capacity sampleStore →
        i ∉ (inactiveSlots sampleStore).take (emitCount sampleStore 5) →
        slot s1 i = slot sampleStore i) :=
  ⟨sampleStore_shape,
    EmitParticles_reinitialises_lowest_inactive lowRandom circleTrig sampleStore 5 0
      sampleStore_shape⟩

theorem emitLoop_saturated (R : RandomSource) (T : Trig) (count : Int) (s : HPParticleComponent)
    (g : Nat) : ∀ (remaining i : Nat) (emitted : Int),
      (∀ m, i ≤ m → m < i + remaining → ∃ c, s.lifetimes[m * 2]? = some c ∧ 0 ≤ c) →
      emitLoop R T count remaining i emitted s g = some (s, g, emitted) := by
  intro remaining
  induction remaining with
  | zero => intro i emitted _; rfl
  | succ r ih =>
    intro i emitted h
    obtain ⟨c, hc, hc0⟩ := h i le_rfl (by omega)
    rw [emitLoop]
    by_cases he : emitted < count
    · rw [if_pos he]
      simp only [hc]
      rw [if_neg (not_lt.2 hc0)]
      exact ih (i + 1) emitted (fun m hm hmn => h m (by omega) (by omega))
    · rw [if_neg he]

/-- C2: capacity exhaustion is not an error.  On a store whose slots are all active,
`EmitParticles` returns normally for every count, the local `emitted` ends at 0, no
random draw is consumed and the component, hence every element of `positions`,
`velocities`, `colors` and `lifetimes`, is returned unchanged. -/
theorem EmitParticles_saturated (R : RandomSource) (T : Trig) (s : HPParticleComponent)
    (count : Int) (g : Nat) (h : AllActive s) :
    EmitParticles R T s count g = some (s, g, 0) := by
  unfold EmitParticles
  exact emitLoop_saturated R T _ s g _ 0 0 (fun m _ hm => h m (by simpa [capacity] using hm))

theorem fullStore_allActive : AllActive fullStore := by
  intro i hi
  have hcap : capacity fullStore = 3 := by decide
  rw [hcap] at hi
  interval_cases i <;> simp [fullStore, sampleStore]

/-- Instance of C2: a request of seven particles on the saturated sample store. -/
theorem EmitParticles_saturated_witness :
    AllActive fullStore ∧
    EmitParticles lowRandom circleTrig fullStore 7 0 = some (fullStore, 0, 0) :=
  ⟨fullStore_allActive, EmitParticles_saturated lowRandom circleTrig fullStore 7 0
    fullStore_allActive⟩

theorem sampleStore_slot_one :
    slot sampleStore 1 = some ⟨⟨1, 2, 3, 1⟩, ⟨1, 0, -1, 1 / 20⟩, ⟨1, 1 / 2, 1, 0⟩, 2, 4⟩ := by
  simp [slot, sampleStore]

/-- C8: expiry.  For every active slot with `lifetimeCurrent - dt <= 0` the simulation
loop of `Update` returns a store in which that slot has `lifetimeCurrent = -1` and
its position, size, velocity, damping, colour, alpha and `lifetimeMax` are the ones it
had before the loop. -/
theorem simulate_expiry (s : HPParticleComponent) (dt : ℚ) (i : Nat) (q : ParticleSlot)
    (h : StoreShape s) (hq : slot s i = some q) (hactive : 0 ≤ q.lifetimeCurrent)
    (hexpired : q.lifetimeCurrent - dt ≤ 0) :
    ∃ s1, simulate s dt = some s1 ∧
      slot s1 i = some ⟨q.position, q.velocity, q.color, -1, q.lifetimeMax⟩ := by
  obtain ⟨s1, hres, -, -, hslots⟩ := simulate_slots s dt h
  refine ⟨s1, hres, ?_⟩
  rw [hslots i q hq]
  unfold stepSlot
  rw [if_neg (not_lt.2 hactive), if_pos hexpired]

/-- Instance of C8: slot 1 of the sample store (lifetime 2 of 4) expires with `dt = 2`. -/
theorem simulate_expiry_witness :
    ∃ s1, simulate sampleStore 2 = some s1 ∧
      slot s1 1 = some ⟨⟨1, 2, 3, 1⟩, ⟨1, 0, -1, 1 / 20⟩, ⟨1, 1 / 2, 1, 0⟩, -1, 4⟩ :=
  simulate_expiry sampleStore 2 1 _ sampleStore_shape sampleStore_slot_one
    (by norm_num) (by norm_num)

/-- C9: physics integration order.  For every active slot that survives the tick
(`lifetimeCurrent - dt > 0`) the simulation loop yields
`velocity' = (velocity + gravity * dt) * (1 - damping * dt)` and
`position' = position + velocity' * dt`, the position being advanced with the updated
velocity, while size and damping (the `w` components) are unchanged. -/
theorem simulate_physics (s : HPParticleComponent) (dt : ℚ) (i : Nat) (q : ParticleSlot)
    (h : StoreShape s) (hq : slot s i = some q) (hactive : 0 ≤ q.lifetimeCurrent)
    (hsurvives : 0 < q.lifetimeCurrent - dt) :
    ∃ s1 q1, simulate s dt = some s1 ∧ slot s1 i = some q1 ∧
      q1.velocity.x = (q.velocity.x + s.gravity.x * dt) * (1 - q.velocity.w * dt) ∧
      q1.velocity.y = (q.velocity.y + s.gravity.y * dt) * (1 - q.velocity.w * dt) ∧
      q1.velocity.z = (q.velocity.z + s.gravity.z * dt) * (1 - q.velocity.w * dt) ∧
      q1.velocity.w = q.velocity.w ∧
      q1.position.x = q.position.x + q1.velocity.x * dt ∧
      q1.position.y = q.position.y + q1.velocity.y * dt ∧
      q1.position.z = q.position.z + q1.velocity.z * dt ∧
      q1.position.w = q.position.w := by
  obtain ⟨s1, hres, -, -, hslots⟩ := simulate_slots s dt h
  refine ⟨s1, _, hres, hslots i q hq, ?_⟩
  unfold stepSlot
  rw [if_neg (not_lt.2 hactive), if_neg (not_le.2 hsurvives)]
  simp [Vec4.ofVec3, Vec4.xyz, Vec3.add, Vec3.scale]

/-- Instance of C9: slot 1 of the sample store survives a tick of `dt = 1`. -/
theorem simulate_physics_witness :
    ∃ s1 q1, simulate sampleStore 1 = some s1 ∧ slot s1 1 = some q1 ∧
      q1.velocity.x = ((1 : ℚ) + sampleStore.gravity.x * 1) * (1 - 1 / 20 * 1) ∧
      q1.velocity.y = ((0 : ℚ) + sampleStore.gravity.y * 1) * (1 - 1 / 20 * 1) ∧
      q1.velocity.z = ((-1 : ℚ) + sampleStore.gravity.z * 1) * (1 - 1 / 20 * 1) ∧
      q1.velocity.w = 1 / 20 ∧
      q1.position.x = 1 + q1.velocity.x * 1 ∧
      q1.position.y = 2 + q1.velocity.y * 1 ∧
      q1.position.z = 3 + q1.velocity.z * 1 ∧
      q1.position.w = 1 :=
  simulate_physics sampleStore 1 1 _ sampleStore_shape sampleStore_slot_one
    (by norm_num) (by norm_num)

/-- C10: alpha policy.  For every surviving active slot, with
`lifeRatio = lifetimeCurrent / lifetimeMax` taken after the decrement, the simulation
loop sets alpha to `(1 - lifeRatio) * 10` if `lifeRatio > 0.9`, to `lifeRatio / 0.3` if
`lifeRatio < 0.3` and to 1 otherwise, and leaves r, g, b unchanged.  With
`lifetimeMax = 10` the policy gives 0.5 at `lifetimeCurrent = 9.5`, 2/3 at 2 and 1 at 5. -/
theorem simulate_alpha (s : HPParticleComponent) (dt : ℚ) (i : Nat) (q : ParticleSlot)
    (h : StoreShape s) (hq : slot s i = some q) (hactive : 0 ≤ q.lifetimeCurrent)
    (hsurvives : 0 < q.lifetimeCurrent - dt) :
    (∃ s1 q1, simulate s dt = some s1 ∧ slot s1 i = some q1 ∧
      q1.color.x = q.color.x ∧ q1.color.y = q.color.y ∧ q1.color.z = q.color.z ∧
      q1.lifetimeCurrent = q.lifetimeCurrent - dt ∧ q1.lifetimeMax = q.lifetimeMax ∧
      q1.color.w =
        if q1.lifetimeCurrent / q1.lifetimeMax > 9 / 10
        then (1 - q1.lifetimeCurrent / q1.lifetimeMax) * 10
        else if q1.lifetimeCurrent / q1.lifetimeMax < 3 / 10
        then q1.lifetimeCurrent / q1.lifetimeMax / (3 / 10)
        else 1) ∧
    fadeAlpha ((19 / 2) / 10) = 1 / 2 ∧ fadeAlpha (2 / 10) = 2 / 3 ∧ fadeAlpha (5 / 10) = 1 := by
  obtain ⟨s1, hres, -, -, hslots⟩ := simulate_slots s dt h
  refine ⟨⟨s1, _, hres, hslots i q hq, ?_⟩, ?_, ?_, ?_⟩
  · unfold stepSlot
    rw [if_neg (not_lt.2 hactive), if_neg (not_le.2 hsurvives)]
    simp [fadeAlpha]
  · unfold fadeAlpha; norm_num
  · unfold fadeAlpha; norm_num
  · unfold fadeAlpha; norm_num

/-- Instance of C10: slot 1 of the sample store after a tick of `dt = 1` has life ratio
1/4 and alpha 5/6. -/
theorem simulate_alpha_witness :
    ∃ s1 q1, simulate sampleStore 1 = some s1 ∧ slot s1 1 = some q1 ∧
      q1.color.x = 1 ∧ q1.color.y = 1 / 2 ∧ q1.color.z = 1 ∧
      q1.lifetimeCurrent = 1 ∧ q1.lifetimeMax = 4 ∧ q1.color.w = 5 / 6 := by
  obtain ⟨s1, q1, h1, h2, h3, h4, h5, h6, h7, h8⟩ :=
    (simulate_alpha sampleStore 1 1 _ sampleStore_shape sampleStore_slot_one
      (by norm_num) (by norm_num)).1
  refine ⟨s1, q1, h1, h2, h3, h4, h5, ?_, h7, ?_⟩
  · rw [h6]; norm_num
  · have e6 : q1.lifetimeCurrent = 1 := by rw [h6]; norm_num
    have e7 : q1.lifetimeMax = 4 := h7
    rw [h8, e6, e7]
    norm_num

/-- C3: lifetime bounds are a reachable-state invariant.  In every state reached by
`Initialize` followed by any number of `Update` ticks with `dt > 0` the store has its
allocated shape and every active slot (`lifetimeCurrent >= 0`) satisfies
`0 <= lifetimeCurrent <= lifetimeMax`.  This holds for every random source and every
lifespan range, so in particular under the conditions of the claim. -/
theorem lifetime_bounds_reachable (R : RandomSource) (T : Trig) (s : HPParticleComponent)
    (g : Nat) (h : Reachable R T (fun dt => 0 < dt) s g) :
    StoreShape s ∧ ∀ i, i < capacity s → ∃ q, slot s i = some q ∧
      (0 ≤ q.lifetimeCurrent → 0 ≤ q.lifetimeCurrent ∧ q.lifetimeCurrent ≤ q.lifetimeMax) := by
  induction h with
  | init s0 g0 s g hres =>
    obtain ⟨hshape, hslots⟩ := Initialize_cases R T s0 g0 hres
    refine ⟨hshape, fun i hi => ?_⟩
    obtain ⟨q, hq, hcase⟩ := hslots i hi
    refine ⟨q, hq, fun h0 => ⟨h0, ?_⟩⟩
    rcases hcase with hneg | ⟨sI, g2, rfl⟩
    · exact absurd h0 (not_le.2 hneg)
    · exact le_refl _
  | tick s g tr dt s1 g1 e _ hdt hres ih =>
    obtain ⟨hshape, hold⟩ := ih
    obtain ⟨hshape1, hcap, hslots⟩ := Update_cases R T s tr dt g hshape hres
    refine ⟨hshape1, fun i hi => ?_⟩
    rw [hcap] at hi
    obtain ⟨q, hq, hcase⟩ := hslots i hi
    obtain ⟨q0, hq0, hb⟩ := hold i hi
    rw [hq] at hq0
    cases hq0
    have hdt0 : (0 : ℚ) ≤ dt := le_of_lt hdt
    rcases hcase with h1 | ⟨-, g2, h2⟩
    · exact ⟨_, h1, fun h0 => ⟨h0, stepSlot_lifetime_le s.gravity hdt0 (fun h => (hb h).2) h0⟩⟩
    · exact ⟨_, h2, fun h0 => ⟨h0, stepSlot_lifetime_le s.gravity hdt0 (fun _ => le_refl _) h0⟩⟩

/-- Instance of C3 on the state reached from the blank two-slot component by
`Initialize` and one tick of `dt = 1/5`, in which slot 0 is active. -/
theorem lifetime_bounds_reachable_witness :
    Reachable lowRandom circleTrig (fun dt => 0 < dt) tickStore 10 ∧
    StoreShape tickStore ∧ ∀ i, i < capacity tickStore → ∃ q, slot tickStore i = some q ∧
      (0 ≤ q.lifetimeCurrent → 0 ≤ q.lifetimeCurrent ∧ q.lifetimeCurrent ≤ q.lifetimeMax) :=
  ⟨tickStore_reachable _ (by norm_num),
    lifetime_bounds_reachable lowRandom circleTrig tickStore 10
      (tickStore_reachable _ (by norm_num))⟩

/-- C4: in every state reached by `Initialize` followed by any sequence of `Update`
ticks, whatever their `deltaTime`, the number of active slots held by the store
(pairs of `lifetimes` with `lifetimeCurrent >= 0`) does not exceed `maxParticles`. -/
theorem active_count_le_maxParticles (R : RandomSource) (T : Trig) (s : HPParticleComponent)
    (g : Nat) (h : Reachable R T (fun _ => True) s g) :
    (activeSlotCount s : Int) ≤ s.maxParticles := by
  obtain ⟨-, -, -, h4⟩ := reachable_shape R T _ h
  have hle : activeSlotCount s ≤ s.lifetimes.length / 2 := by
    unfold activeSlotCount
    exact le_trans (List.length_filter_le _ _) (by rw [List.length_range])
  omega

/-- Instance of C4 on the state reached from the blank two-slot component by
`Initialize` and one tick of `dt = 1/5`. -/
theorem active_count_le_maxParticles_witness :
    Reachable lowRandom circleTrig (fun _ => True) tickStore 10 ∧
    (activeSlotCount tickStore : Int) ≤ tickStore.maxParticles :=
  ⟨tickStore_reachable _ trivial,
    active_count_le_maxParticles lowRandom circleTrig tickStore 10
      (tickStore_reachable _ trivial)⟩

/-- C5: the spawn phase of `Update` carries the fractional remainder forward.  For
`spawnRate > 0`, `dt >= 0` and `timeSinceLastSpawn = a >= 0` it requests
`floor((a + dt) * spawnRate)` particles and leaves
`timeSinceLastSpawn = (a + dt) - toEmit * (1 / spawnRate)`, which lies in
`[0, 1 / spawnRate)`.  The new value is a function of `a`, `dt` and `spawnRate` alone:
it is never reset and does not depend on the slots that were free. -/
theorem spawnPhase_carries_remainder (R : RandomSource) (T : Trig) (s : HPParticleComponent)
    (tr : TransformComponent) (dt : ℚ) (g : Nat) (h : StoreShape s) (hr : 0 < s.spawnRate)
    (hdt : 0 ≤ dt) (ha : 0 ≤ s.timeSinceLastSpawn) :
    ∃ s1 g1 emitted, spawnPhase R T s tr dt g
        = some (s1, g1, ⌊(s.timeSinceLastSpawn + dt) * s.spawnRate⌋, emitted) ∧
      s1.timeSinceLastSpawn = (s.timeSinceLastSpawn + dt)
        - ⌊(s.timeSinceLastSpawn + dt) * s.spawnRate⌋ * (1 / s.spawnRate) ∧
      0 ≤ s1.timeSinceLastSpawn ∧ s1.timeSinceLastSpawn < 1 / s.spawnRate := by
  obtain ⟨s1, hres, -, hs1, -, -⟩ := spawnPhase_spec R T s tr dt g h
  have hreq := spawnRequest_eq_floor hr (add_nonneg ha hdt)
  have ht : s1.timeSinceLastSpawn = (s.timeSinceLastSpawn + dt)
      - ⌊(s.timeSinceLastSpawn + dt) * s.spawnRate⌋ * (1 / s.spawnRate) := by
    rw [← hreq]
    show (settings s1).timeSinceLastSpawn = (settings (afterTimer s tr dt)).timeSinceLastSpawn
    rw [hs1]
  have hb := remainder_bounds (t := s.timeSinceLastSpawn + dt) hr
  rw [hreq] at hres
  exact ⟨s1, _, _, hres, ht, by rw [ht]; exact hb.1, by rw [ht]; exact hb.2⟩

/-- Instance of C5: the sample store (`spawnRate = 5`, timer 0) with `dt = 1/2`. -/
theorem spawnPhase_carries_remainder_witness :
    ∃ s1 g1 emitted, spawnPhase lowRandom circleTrig sampleStore originTransform
        (1 / 2) 0
        = some (s1, g1, ⌊(sampleStore.timeSinceLastSpawn + 1 / 2) * sampleStore.spawnRate⌋,
            emitted) ∧
      s1.timeSinceLastSpawn = (sampleStore.timeSinceLastSpawn + 1 / 2)
        - ⌊(sampleStore.timeSinceLastSpawn + 1 / 2) * sampleStore.spawnRate⌋
          * (1 / sampleStore.spawnRate) ∧
      0 ≤ s1.timeSinceLastSpawn ∧ s1.timeSinceLastSpawn < 1 / sampleStore.spawnRate :=
  spawnPhase_carries_remainder lowRandom circleTrig sampleStore originTransform (1 / 2) 0
    sampleStore_shape
    (by norm_num [sampleStore]) (by norm_num) (by norm_num [sampleStore])

/-- C6, counterexample: with the `float` timer of the program the count leaves
`r * (n * dt)` by more than one particle.  The store `paceStore` has `spawnRate = 3`,
`timeSinceLastSpawn = 0` and four free slots, and `dt` is the `float` `0.1f`.  Each of
ten `Update32` ticks has a free slot for every particle it requests, and the ticks emit
0, 0, 0, 1, 0, 0, 1, 0, 0, 0 particles: two in all, where
`r * (n * dt) = 3.00000004` and `floor(r * (n * dt)) = 3`.  After the ninth tick of
the run the timer is `0.23333329` and the tenth sum is rounded to `0.33333328`, below
the interval `1.0f / 3 = 0.33333334`. -/
theorem frame_rate_binary32_shortfall :
    StoreShape paceStore ∧ paceStore.timeSinceLastSpawn = 0 ∧ 0 < paceStore.spawnRate ∧
    0 < tenth32 ∧
    FreeSlotEachTick32 lowRandom circleTrig originTransform tenth32 10 paceStore 0 ∧
    ∃ s1 g1, runTicks32 lowRandom circleTrig originTransform tenth32 10 paceStore 0
        = some (s1, g1, [0, 0, 0, 1, 0, 0, 1, 0, 0, 0]) ∧
      ¬ |((([0, 0, 0, 1, 0, 0, 1, 0, 0, 0] : List Int).sum : Int) : ℚ)
          - paceStore.spawnRate * ((10 : Nat) * tenth32)| < 1 ∧
      ([0, 0, 0, 1, 0, 0, 1, 0, 0, 0] : List Int).sum
        ≠ ⌊paceStore.spawnRate * ((10 : Nat) * tenth32)⌋ := by
  have hlen0 : (inactiveSlots paceStore).length = 4 := paceStore_inactive_length
  obtain ⟨a1, b1, hu1, hs1, hr1, ht1, hc1, hf1⟩ :=
    tick32 lowRandom circleTrig originTransform tenth32 9 paceStore 0 paceStore_shape
      (show paceStore.spawnRate = 3 from rfl) (show paceStore.timeSinceLastSpawn = 0 from rfl)
      paceTimer_one (by decide) (by omega)
  obtain ⟨a2, b2, hu2, hs2, hr2, ht2, hc2, hf2⟩ :=
    tick32 lowRandom circleTrig originTransform tenth32 8 a1 b1 hs1 hr1 ht1
      paceTimer_two (by decide) (by omega)
  obtain ⟨a3, b3, hu3, hs3, hr3, ht3, hc3, hf3⟩ :=
    tick32 lowRandom circleTrig originTransform tenth32 7 a2 b2 hs2 hr2 ht2
      paceTimer_three (by decide) (by omega)
  obtain ⟨a4, b4, hu4, hs4, hr4, ht4, hc4, hf4⟩ :=
    tick32 lowRandom circleTrig originTransform tenth32 6 a3 b3 hs3 hr3 ht3
      paceTimer_four (by decide) (by omega)
  obtain ⟨a5, b5, hu5, hs5, hr5, ht5, hc5, hf5⟩ :=
    tick32 lowRandom circleTrig originTransform tenth32 5 a4 b4 hs4 hr4 ht4
      paceTimer_five (by decide) (by omega)
  obtain ⟨a6, b6, hu6, hs6, hr6, ht6, hc6, hf6⟩ :=
    tick32 lowRandom circleTrig originTransform tenth32 4 a5 b5 hs5 hr5 ht5
      paceTimer_six (by decide) (by omega)
  obtain ⟨a7, b7, hu7, hs7, hr7, ht7, hc7, hf7⟩ :=
    tick32 lowRandom circleTrig originTransform tenth32 3 a6 b6 hs6 hr6 ht6
      paceTimer_seven (by decide) (by omega)
  obtain ⟨a8, b8, hu8, hs8, hr8, ht8, hc8, hf8⟩ :=
    tick32 lowRandom circleTrig originTransform tenth32 2 a7 b7 hs7 hr7 ht7
      paceTimer_eight (by decide) (by omega)
  obtain ⟨a9, b9, hu9, hs9, hr9, ht9, hc9, hf9⟩ :=
    tick32 lowRandom circleTrig originTransform tenth32 1 a8 b8 hs8 hr8 ht8
      paceTimer_nine (by decide) (by omega)
  obtain ⟨a10, b10, hu10, hs10, hr10, ht10, hc10, hf10⟩ :=
    tick32 lowRandom circleTrig originTransform tenth32 0 a9 b9 hs9 hr9 ht9
      paceTimer_ten (by decide) (by omega)
  refine ⟨paceStore_shape, rfl, by norm_num [paceStore], by norm_num [tenth32],
    hf1 (hf2 (hf3 (hf4 (hf5 (hf6 (hf7 (hf8 (hf9 (hf10 trivial))))))))), a10, b10, ?_, ?_, ?_⟩
  · simp only [runTicks32, hu1, hu2, hu3, hu4, hu5, hu6, hu7, hu8, hu9, hu10]
  · have e : paceStore.spawnRate * (((10 : Nat) : ℚ) * tenth32) = 201326595 / 67108864 := by
      norm_num [paceStore, tenth32]
    rw [e, not_lt, abs_sub_comm]
    refine le_trans ?_ (le_abs_self _)
    norm_num
  · have e : paceStore.spawnRate * (((10 : Nat) : ℚ) * tenth32) = 201326595 / 67108864 := by
      norm_num [paceStore, tenth32]
    have f : ⌊(201326595 / 67108864 : ℚ)⌋ = 3 := by
      rw [Int.floor_eq_iff]
      norm_num
    rw [e, f]
    decide

/-- C6, amended: frame-rate independence in exact arithmetic.  With the `float`
operations of the spawn timer read as exact (`Update`, not `Update32`): starting from
`timeSinceLastSpawn = 0`, for every `spawnRate = r > 0`, every fixed `dt > 0` and every
number of ticks `n`, provided a free slot exists for every requested particle, the `n`
`Update` ticks all return and the numbers of particles they emit add up to
`floor(r * (n * dt))`, which differs from `r * (n * dt)` by less than one. -/
theorem frame_rate_independence (R : RandomSource) (T : Trig) (tr : TransformComponent)
    (s : HPParticleComponent) (g : Nat) (dt : ℚ) (n : Nat) (h : StoreShape s)
    (h0 : s.timeSinceLastSpawn = 0) (hr : 0 < s.spawnRate) (hdt : 0 < dt)
    (hfree : FreeSlotEachTick R T tr dt n s g) :
    ∃ s1 g1 l, runTicks R T tr dt n s g = some (s1, g1, l) ∧ l.length = n ∧
      l.sum = ⌊s.spawnRate * (n * dt)⌋ ∧ |(l.sum : ℚ) - s.spawnRate * (n * dt)| < 1 := by
  obtain ⟨s1, g1, l, hrun, hlen, hsum, -, -, -⟩ :=
    runTicks_free R T tr dt (le_of_lt hdt) n s g h hr (by rw [h0])
      (by rw [h0]; exact one_div_pos.2 hr) hfree
  have hsum2 : l.sum = ⌊s.spawnRate * (n * dt)⌋ := by
    rw [hsum, h0, zero_add, mul_comm]
  refine ⟨s1, g1, l, hrun, hlen, hsum2, ?_⟩
  rw [hsum2, abs_lt]
  have h1 := Int.floor_le (s.spawnRate * (n * dt))
  have h2 := Int.lt_floor_add_one (s.spawnRate * (n * dt))
  constructor <;> linarith

theorem sampleStore_inactive_length : (inactiveSlots sampleStore).length = 2 := by
  decide

/-- Instance of C6: four ticks of `dt = 1/10` on the sample store (`spawnRate = 5`, two
free slots). -/
theorem frame_rate_independence_witness :
    ∃ s1 g1 l, runTicks lowRandom circleTrig originTransform (1 / 10) 4
        sampleStore 0 = some (s1, g1, l) ∧ l.length = 4 ∧
      l.sum = ⌊sampleStore.spawnRate * ((4 : Nat) * (1 / 10))⌋ ∧
      |(l.sum : ℚ) - sampleStore.spawnRate * ((4 : Nat) * (1 / 10))| < 1 :=
  frame_rate_independence lowRandom circleTrig originTransform sampleStore 0 (1 / 10) 4
    sampleStore_shape
    rfl (by norm_num [sampleStore]) (by norm_num)
    (freeSlotEachTick_of_count lowRandom circleTrig _ (1 / 10) (by norm_num) 4 sampleStore 0
      sampleStore_shape (by norm_num [sampleStore]) (by norm_num [sampleStore]) (by
        rw [sampleStore_inactive_length]
        have e : (sampleStore.timeSinceLastSpawn + ((4 : Nat) : ℚ) * (1 / 10))
            * sampleStore.spawnRate = 2 := by
          norm_num [sampleStore]
        rw [e]
        norm_num))

/-- C7: the concrete pacing scenario.  A component with `maxParticles = 10`,
`spawnRate = 5` and `timeSinceLastSpawn = 0` is initialised and then updated by four
consecutive ticks of `dt = 0.1`: for every random source and every transform the spawn
phases emit 0, 1, 0 and 1 particles, two in total, and `timeSinceLastSpawn` ends at
exactly 0. -/
theorem pacing_scenario (R : RandomSource) (T : Trig) (tr : TransformComponent)
    (s0 : HPParticleComponent) (g0 : Nat) (hmax : s0.maxParticles = 10)
    (hrate : s0.spawnRate = 5) (htimer : s0.timeSinceLastSpawn = 0) :
    ∃ s1 g1 s2 g2, Initialize R T s0 g0 = some (s1, g1) ∧
      runTicks R T tr (1 / 10) 4 s1 g1 = some (s2, g2, [0, 1, 0, 1]) ∧
      ([0, 1, 0, 1] : List Int).sum = 2 ∧ s2.timeSinceLastSpawn = 0 := by
  obtain ⟨sI, s1, g1, e, hinit, hemit, hshapeI, hmI, hrI, htI, hinact⟩ :=
    Initialize_spec R T s0 g0 (by rw [hmax]; decide)
  obtain ⟨hshape1, hs1, -⟩ := EmitParticles_cases R T sI _ g0 hshapeI hemit
  have hcount := EmitParticles_inactive_count R T sI _ g0 hshapeI hemit
  have hcapI : capacity sI = 10 := by unfold capacity; rw [hmI, hmax]; rfl
  have hallI : (inactiveSlots sI).length = 10 := by
    rw [inactiveSlots_length, hcapI]
    exact count_eq_of_forall _ _ (fun j hj => hinact j (by rw [hcapI]; exact hj))
  have hk : emitCount sI (Int.tdiv s0.maxParticles 10) ≤ 1 := by
    have h10 : Int.tdiv s0.maxParticles 10 = 1 := by rw [hmax]; rfl
    unfold emitCount
    rw [h10]
    omega
  have hr1 : s1.spawnRate = 5 := by
    rw [← hrate, ← hrI]
    show (settings s1).spawnRate = (settings sI).spawnRate
    rw [hs1]
  have ht1 : s1.timeSinceLastSpawn = 0 := by
    rw [← htimer, ← htI]
    show (settings s1).timeSinceLastSpawn = (settings sI).timeSinceLastSpawn
    rw [hs1]
  have hdt : (0 : ℚ) ≤ 1 / 10 := by norm_num
  have hfree : FreeSlotEachTick R T tr (1 / 10) 4 s1 g1 := by
    apply freeSlotEachTick_of_count R T tr (1 / 10) hdt 4 s1 g1 hshape1
    · rw [hr1]; norm_num
    · rw [ht1]
    · have e2 : (s1.timeSinceLastSpawn + ((4 : Nat) : ℚ) * (1 / 10)) * s1.spawnRate = 2 := by
        rw [ht1, hr1]; norm_num
      rw [e2]
      have : ⌊(2 : ℚ)⌋ = 2 := by norm_num
      omega
  have f1 : ⌊((0 : ℚ) + 1 / 10) * 5⌋ = 0 := by norm_num
  have f2 : ⌊((1 / 10 : ℚ) + 1 / 10) * 5⌋ = 1 := by norm_num
  obtain ⟨a1, b1, hu1, hsh1, hra1, hta1, hfr1⟩ :=
    tick_free R T tr (1 / 10) hdt 3 s1 g1 hshape1 (by rw [hr1]; norm_num) (by rw [ht1]) hfree
  rw [ht1, hr1, f1] at hu1 hta1
  rw [hr1] at hra1
  have hta1' : a1.timeSinceLastSpawn = 1 / 10 := by rw [hta1]; norm_num
  obtain ⟨a2, b2, hu2, hsh2, hra2, hta2, hfr2⟩ :=
    tick_free R T tr (1 / 10) hdt 2 a1 b1 hsh1 (by rw [hra1]; norm_num)
      (by rw [hta1']; norm_num) hfr1
  rw [hta1', hra1, f2] at hu2 hta2
  rw [hra1] at hra2
  have hta2' : a2.timeSinceLastSpawn = 0 := by rw [hta2]; norm_num
  obtain ⟨a3, b3, hu3, hsh3, hra3, hta3, hfr3⟩ :=
    tick_free R T tr (1 / 10) hdt 1 a2 b2 hsh2 (by rw [hra2]; norm_num)
      (by rw [hta2']) hfr2
  rw [hta2', hra2, f1] at hu3 hta3
  rw [hra2] at hra3
  have hta3' : a3.timeSinceLastSpawn = 1 / 10 := by rw [hta3]; norm_num
  obtain ⟨a4, b4, hu4, -, -, hta4, -⟩ :=
    tick_free R T tr (1 / 10) hdt 0 a3 b3 hsh3 (by rw [hra3]; norm_num)
      (by rw [hta3']; norm_num) hfr3
  rw [hta3', hra3, f2] at hu4 hta4
  have hta4' : a4.timeSinceLastSpawn = 0 := by rw [hta4]; norm_num
  refine ⟨s1, g1, a4, b4, hinit, ?_, by decide, hta4'⟩
  simp only [runTicks, hu1, hu2, hu3, hu4]

/-- Instance of C7: the blank component with the capacity set to 10. -/
theorem pacing_scenario_witness :
    ∃ s1 g1 s2 g2, Initialize lowRandom circleTrig { blankStore with maxParticles := 10 } 0
        = some (s1, g1) ∧
      runTicks lowRandom circleTrig originTransform (1 / 10) 4 s1 g1
        = some (s2, g2, [0, 1, 0, 1]) ∧
      ([0, 1, 0, 1] : List Int).sum = 2 ∧ s2.timeSinceLastSpawn = 0 :=
  pacing_scenario lowRandom circleTrig originTransform { blankStore with maxParticles := 10 } 0
    rfl rfl rfl

/-- C12: the alpha policy has no jump at its segment boundaries.  As a function of
the life ratio it is continuous on `[0, 1]` (indeed everywhere, changing by at most ten
times the change of the ratio), the conditions `lifeRatio > 0.9` and `lifeRatio < 0.3`
never hold together, the policy returns 1 at 0.9 and at 0.3, and the two fade formulas
`(1 - lifeRatio) * 10` and `lifeRatio / 0.3` evaluate to 1 there as well. -/
theorem fadeAlpha_no_jump :
    ContinuousOn fadeAlpha (Set.Icc 0 1) ∧
    (∀ x y : ℚ, |fadeAlpha x - fadeAlpha y| ≤ 10 * |x - y|) ∧
    (∀ x : ℚ, ¬ (x > 9 / 10 ∧ x < 3 / 10)) ∧
    fadeAlpha (9 / 10) = 1 ∧ fadeAlpha (3 / 10) = 1 ∧
    ((1 : ℚ) - 9 / 10) * 10 = 1 ∧ (3 / 10 : ℚ) / (3 / 10) = 1 := by
  refine ⟨fadeAlpha_continuous.continuousOn, fadeAlpha_lipschitz, ?_, ?_, ?_, ?_, ?_⟩
  · rintro x ⟨h1, h2⟩
    linarith
  · unfold fadeAlpha; norm_num
  · unfold fadeAlpha; norm_num
  · norm_num
  · norm_num

/-- C16: upload is idempotent.  For every component and every prior content of the
buffer objects, a second `UpdateGPUBuffers` with no step in between returns the same
component as the first, buffers included, and `UpdateGPUBuffers` leaves the four CPU
arrays unchanged. -/
theorem UpdateGPUBuffers_idempotent (s : HPParticleComponent) :
    UpdateGPUBuffers (UpdateGPUBuffers s) = UpdateGPUBuffers s ∧
    (UpdateGPUBuffers s).positions = s.positions ∧
    (UpdateGPUBuffers s).velocities = s.velocities ∧
    (UpdateGPUBuffers s).colors = s.colors ∧
    (UpdateGPUBuffers s).lifetimes = s.lifetimes := by
  refine ⟨?_, rfl, rfl, rfl, rfl⟩
  unfold UpdateGPUBuffers
  simp only [glBufferSubData_idem]

/-- C18: initial state of an emitted particle.  Every slot re-initialised by
`EmitParticles` (the `j`-th inactive slot, `j < k`) has alpha 0, damping 0.05 and
`lifetimeCurrent = lifetimeMax =` the one lifetime drawn for that particle, the tenth
draw of its batch. -/
theorem EmitParticles_initial_state (R : RandomSource) (T : Trig) (s : HPParticleComponent)
    (count : Int) (g : Nat) (h : StoreShape s) :
    ∃ s1 g1 e, EmitParticles R T s count g = some (s1, g1, e) ∧
      ∀ j i, j < emitCount s count → (inactiveSlots s)[j]? = some i →
        ∃ q, slot s1 i = some q ∧ q.color.w = 0 ∧ q.velocity.w = 1 / 20 ∧
          q.lifetimeCurrent
            = R.Range (g + drawsPerParticle * j + 9) s.initialLifespanMin s.initialLifespanMax ∧
          q.lifetimeMax = q.lifetimeCurrent := by
  obtain ⟨s1, hres, hnew⟩ := EmitParticles_new R T s count g h
  refine ⟨s1, _, _, hres, ?_⟩
  intro j i hj hji
  exact ⟨_, hnew j i hj hji, rfl, rfl, rfl, rfl⟩

theorem sampleStore_inactive_zero : (inactiveSlots sampleStore)[0]? = some 0 := by
  decide

theorem sampleStore_emitCount : emitCount sampleStore 5 = 2 := by
  decide

/-- Instance of C18: the first inactive slot of the sample store, slot 0, after a request
of five particles. -/
theorem EmitParticles_initial_state_witness :
    ∃ s1 g1 e, EmitParticles midRandom circleTrig sampleStore 5 0 = some (s1, g1, e) ∧
      ∃ q, slot s1 0 = some q ∧ q.color.w = 0 ∧ q.velocity.w = 1 / 20 ∧
        q.lifetimeCurrent = 9 / 2 ∧ q.lifetimeMax = q.lifetimeCurrent := by
  obtain ⟨s1, g1, e, hres, hnew⟩ :=
    EmitParticles_initial_state midRandom circleTrig sampleStore 5 0 sampleStore_shape
  obtain ⟨q, hq, h1, h2, h3, h4⟩ :=
    hnew 0 0 (by rw [sampleStore_emitCount]; decide) sampleStore_inactive_zero
  refine ⟨s1, g1, e, hres, q, hq, h1, h2, ?_, h4⟩
  rw [h3]
  norm_num [midRandom, sampleStore]

/-- C19: colour clamping.  For every base colour, colour variation and random source,
the r, g, b channels of every slot re-initialised by `EmitParticles` lie in `[0, 1]`,
and a channel equals `baseColor.channel + perturbation` whenever that sum lies in
`[0, 1]`; the perturbations are draws 7, 8 and 9 of the particle's batch. -/
theorem EmitParticles_colour_clamped (R : RandomSource) (T : Trig) (s : HPParticleComponent)
    (count : Int) (g : Nat) (h : StoreShape s) :
    ∃ s1 g1 e, EmitParticles R T s count g = some (s1, g1, e) ∧
      ∀ j i, j < emitCount s count → (inactiveSlots s)[j]? = some i →
        ∃ q, slot s1 i = some q ∧
          (0 ≤ q.color.x ∧ q.color.x ≤ 1) ∧ (0 ≤ q.color.y ∧ q.color.y ≤ 1) ∧
          (0 ≤ q.color.z ∧ q.color.z ≤ 1) ∧
          (∀ sum, sum = s.baseColor.x + R.Range (g + drawsPerParticle * j + 6)
              (-s.colorVariation) s.colorVariation → 0 ≤ sum → sum ≤ 1 → q.color.x = sum) ∧
          (∀ sum, sum = s.baseColor.y + R.Range (g + drawsPerParticle * j + 7)
              (-s.colorVariation) s.colorVariation → 0 ≤ sum → sum ≤ 1 → q.color.y = sum) ∧
          (∀ sum, sum = s.baseColor.z + R.Range (g + drawsPerParticle * j + 8)
              (-s.colorVariation) s.colorVariation → 0 ≤ sum → sum ≤ 1 → q.color.z = sum) := by
  obtain ⟨s1, hres, hnew⟩ := EmitParticles_new R T s count g h
  refine ⟨s1, _, _, hres, ?_⟩
  intro j i hj hji
  refine ⟨_, hnew j i hj hji, clamp_mem _, clamp_mem _, clamp_mem _, ?_, ?_, ?_⟩
  · rintro sum rfl h0 h1
    exact clamp_of_mem h0 h1
  · rintro sum rfl h0 h1
    exact clamp_of_mem h0 h1
  · rintro sum rfl h0 h1
    exact clamp_of_mem h0 h1

/-- Instance of C19: slot 0 of the sample store (base colour (1, 0.7, 1), variation 0.1,
perturbation 0 from the middle of the range). -/
theorem EmitParticles_colour_clamped_witness :
    ∃ s1 g1 e, EmitParticles midRandom circleTrig sampleStore 5 0 = some (s1, g1, e) ∧
      ∃ q, slot s1 0 = some q ∧ q.color.x = 1 ∧ q.color.y = 7 / 10 ∧ q.color.z = 1 := by
  obtain ⟨s1, g1, e, hres, hnew⟩ :=
    EmitParticles_colour_clamped midRandom circleTrig sampleStore 5 0 sampleStore_shape
  obtain ⟨q, hq, -, -, -, hx, hy, hz⟩ :=
    hnew 0 0 (by rw [sampleStore_emitCount]; decide) sampleStore_inactive_zero
  refine ⟨s1, g1, e, hres, q, hq, ?_, ?_, ?_⟩
  · exact hx 1 (by norm_num [midRandom, sampleStore]) (by norm_num) (by norm_num)
  · exact hy (7 / 10) (by norm_num [midRandom, sampleStore]) (by norm_num) (by norm_num)
  · exact hz 1 (by norm_num [midRandom, sampleStore]) (by norm_num) (by norm_num)

/-- C20: the spawn position lies in a flat disk around the emitter.  With `cos` and
`sin` satisfying `cos^2 + sin^2 = 1`, for every drawn angle and every drawn distance `d`
with `0 <= d <= emissionRadius`, the position `EmitParticles` writes into a re-initialised
slot has `y = emitterPosition.y` and a horizontal offset
`(x - emitterPosition.x, z - emitterPosition.z)` of Euclidean length `d`, hence at most
`emissionRadius`. -/
theorem EmitParticles_position_in_disk (R : RandomSource) (T : Trig) (s : HPParticleComponent)
    (count : Int) (g : Nat) (h : StoreShape s) (htrig : ∀ a, T.cos a ^ 2 + T.sin a ^ 2 = 1) :
    ∃ s1 g1 e, EmitParticles R T s count g = some (s1, g1, e) ∧
      ∀ j i, j < emitCount s count → (inactiveSlots s)[j]? = some i →
        ∀ d, d = R.Range (g + drawsPerParticle * j + 1) 0 s.emissionRadius →
          0 ≤ d → d ≤ s.emissionRadius →
          ∃ q, slot s1 i = some q ∧ q.position.y = s.emitterPosition.y ∧
            (q.position.x - s.emitterPosition.x) ^ 2
              + (q.position.z - s.emitterPosition.z) ^ 2 = d ^ 2 ∧
            Real.sqrt (((q.position.x - s.emitterPosition.x : ℚ) : ℝ) ^ 2
              + ((q.position.z - s.emitterPosition.z : ℚ) : ℝ) ^ 2) = (d : ℝ) ∧
            (d : ℝ) ≤ (s.emissionRadius : ℝ) := by
  obtain ⟨s1, hres, hnew⟩ := EmitParticles_new R T s count g h
  refine ⟨s1, _, _, hres, ?_⟩
  intro j i hj hji d hd hd0 hd1
  have hsq : ((newParticle R T s (g + 10 * j)).position.x - s.emitterPosition.x) ^ 2
      + ((newParticle R T s (g + 10 * j)).position.z - s.emitterPosition.z) ^ 2 = d ^ 2 := by
    have ht := htrig (R.Range (g + 10 * j) 0 T.two_pi)
    show (s.emitterPosition.x + T.cos (R.Range (g + 10 * j) 0 T.two_pi)
          * R.Range (g + 10 * j + 1) 0 s.emissionRadius - s.emitterPosition.x) ^ 2
        + (s.emitterPosition.z + T.sin (R.Range (g + 10 * j) 0 T.two_pi)
          * R.Range (g + 10 * j + 1) 0 s.emissionRadius - s.emitterPosition.z) ^ 2 = d ^ 2
    have hd' : R.Range (g + 10 * j + 1) 0 s.emissionRadius = d := hd.symm
    rw [hd']
    have : (s.emitterPosition.x + T.cos (R.Range (g + 10 * j) 0 T.two_pi) * d
          - s.emitterPosition.x) ^ 2
        + (s.emitterPosition.z + T.sin (R.Range (g + 10 * j) 0 T.two_pi) * d
          - s.emitterPosition.z) ^ 2
        = (T.cos (R.Range (g + 10 * j) 0 T.two_pi) ^ 2
          + T.sin (R.Range (g + 10 * j) 0 T.two_pi) ^ 2) * d ^ 2 := by ring
    rw [this, ht, one_mul]
  refine ⟨_, hnew j i hj hji, ?_, hsq, ?_, by exact_mod_cast hd1⟩
  · show s.emitterPosition.y + 0 = s.emitterPosition.y
    rw [add_zero]
  · have hcast : (((newParticle R T s (g + 10 * j)).position.x - s.emitterPosition.x : ℚ) : ℝ) ^ 2
        + (((newParticle R T s (g + 10 * j)).position.z - s.emitterPosition.z : ℚ) : ℝ) ^ 2
        = (d : ℝ) ^ 2 := by
      exact_mod_cast hsq
    rw [hcast]
    exact Real.sqrt_sq (by exact_mod_cast hd0)

/-- Instance of C20: slot 0 of the sample store (emitter at the origin, radius 1/2) with
the distance 1/4 drawn from the middle of the range. -/
theorem EmitParticles_position_in_disk_witness :
    ∃ s1 g1 e, EmitParticles midRandom circleTrig sampleStore 5 0 = some (s1, g1, e) ∧
      ∃ q, slot s1 0 = some q ∧ q.position.y = 0 ∧
        (q.position.x - 0) ^ 2 + (q.position.z - 0) ^ 2 = (1 / 4 : ℚ) ^ 2 := by
  obtain ⟨s1, g1, e, hres, hnew⟩ :=
    EmitParticles_position_in_disk midRandom circleTrig sampleStore 5 0 sampleStore_shape
      circleTrig_identity
  obtain ⟨q, hq, hy, hsq, -, -⟩ :=
    hnew 0 0 (by rw [sampleStore_emitCount]; decide) sampleStore_inactive_zero (1 / 4)
      (by norm_num [midRandom, sampleStore]) (by norm_num) (by norm_num [sampleStore])
  exact ⟨s1, g1, e, hres, q, hq, hy, hsq⟩

theorem expiringStore_shape : StoreShape expiringStore := by
  unfold StoreShape expiringStore sampleStore
  decide

theorem expiringStore_slot_one :
    slot expiringStore 1
      = some ⟨⟨1, 2, 3, 1⟩, ⟨1, 0, -1, 1 / 20⟩, ⟨1, 1 / 2, 1, 0⟩, 1 / 20, 4⟩ := by
  simp [slot, expiringStore, sampleStore]

/-- C13: slot reuse after expiry.  For every active slot `i` with
`lifetimeCurrent <= dt`, the simulation step leaves slot `i` inactive with
`lifetimeCurrent = -1`, and the next `EmitParticles(count)` re-initialises this very
index whenever `count` exceeds the number of inactive slots with index below `i`: slot
`i` is among the slots taken and receives the particle of the batch of draws numbered
by that count. -/
theorem slot_reuse_after_expiry (s : HPParticleComponent) (dt : ℚ) (i : Nat) (q : ParticleSlot)
    (h : StoreShape s) (hq : slot s i = some q) (hactive : 0 ≤ q.lifetimeCurrent)
    (hexpired : q.lifetimeCurrent ≤ dt) :
    ∃ s1, simulate s dt = some s1 ∧
      slot s1 i = some ⟨q.position, q.velocity, q.color, -1, q.lifetimeMax⟩ ∧
      Inactive s1 i ∧
      ∀ (R : RandomSource) (T : Trig) (count : Int) (g : Nat),
        (Nat.count (Inactive s1) i : Int) < count →
        ∃ s2 g2 e, EmitParticles R T s1 count g = some (s2, g2, e) ∧
          i ∈ (inactiveSlots s1).take (emitCount s1 count) ∧
          slot s2 i = some (newParticle R T s1
            (g + drawsPerParticle * Nat.count (Inactive s1) i)) := by
  obtain ⟨s1, hres, hshape1, hs1, hslots⟩ := simulate_slots s dt h
  have hslot1 : slot s1 i = some ⟨q.position, q.velocity, q.color, -1, q.lifetimeMax⟩ := by
    rw [hslots i q hq]
    unfold stepSlot
    rw [if_neg (not_lt.2 hactive), if_pos (by linarith)]
  have hin : Inactive s1 i := (inactive_iff_of_slot hslot1).2 (by norm_num)
  have hi : i < capacity s1 := by
    have hl := ((storeShape_iff s1).1 hshape1).2.1
    have hp := (slot_eq_some_iff.1 hslot1).1
    by_contra hc
    rw [List.getElem?_eq_none (by omega)] at hp
    cases hp
  refine ⟨s1, hres, hslot1, hin, ?_⟩
  intro R T count g hcount
  obtain ⟨s2, hres2, -, -, -, hslots2⟩ := EmitParticles_slots R T s1 count g hshape1
  have hrank : Nat.count (Inactive s1) i < emitCount s1 count := by
    have hs := Nat.count_succ (Inactive s1) i
    rw [if_pos hin] at hs
    have hmono := Nat.count_monotone (Inactive s1) (show i + 1 ≤ capacity s1 by omega)
    have hle : Nat.count (Inactive s1) i ≤ i := Nat.count_le _
    have hlen := inactiveSlots_length s1
    have hcap : (capacity s1 : Int) = s1.maxParticles := by
      have := ((storeShape_iff s1).1 hshape1).1
      unfold capacity
      omega
    unfold emitCount
    omega
  refine ⟨s2, _, _, hres2, (mem_take_inactiveSlots s1 _ i).2 ⟨hi, hin, hrank⟩, ?_⟩
  rw [hslots2 i hi, if_pos ⟨hin, hrank⟩]
  rfl

/-- Instance of C13: slot 1 of the sample store with `lifetimeCurrent = 0.05` and
`dt = 0.1`. -/
theorem slot_reuse_after_expiry_witness :
    ∃ s1, simulate expiringStore (1 / 10) = some s1 ∧
      slot s1 1 = some ⟨⟨1, 2, 3, 1⟩, ⟨1, 0, -1, 1 / 20⟩, ⟨1, 1 / 2, 1, 0⟩, -1, 4⟩ ∧
      Inactive s1 1 ∧
      ∀ (R : RandomSource) (T : Trig) (count : Int) (g : Nat),
        (Nat.count (Inactive s1) 1 : Int) < count →
        ∃ s2 g2 e, EmitParticles R T s1 count g = some (s2, g2, e) ∧
          1 ∈ (inactiveSlots s1).take (emitCount s1 count) ∧
          slot s2 1 = some (newParticle R T s1
            (g + drawsPerParticle * Nat.count (Inactive s1) 1)) :=
  slot_reuse_after_expiry expiringStore (1 / 10) 1 _ expiringStore_shape
    expiringStore_slot_one (by norm_num) (by norm_num)

/-- C11: alpha is always within `[0, 1]`.  In every state reached by `Initialize`,
called on a freshly constructed component (empty arrays), followed by `Update` ticks
with `dt > 0`, every slot below `maxParticles`, active or inactive, has a colour whose
alpha lies in `[0, 1]`.  This holds for every random source and every lifespan range,
so in particular under the conditions of the claim. -/
theorem alpha_in_unit_interval (R : RandomSource) (T : Trig) (s : HPParticleComponent)
    (g : Nat) (h : ReachableFrom R T (fun dt => 0 < dt) Fresh s g) :
    ∀ i, i < capacity s → ∃ q, slot s i = some q ∧ 0 ≤ q.color.w ∧ q.color.w ≤ 1 := by
  have key : StoreShape s ∧ ∀ i, i < capacity s → ∃ q, slot s i = some q ∧
      (0 ≤ q.lifetimeCurrent → q.lifetimeCurrent ≤ q.lifetimeMax) ∧
      (0 ≤ q.color.w ∧ q.color.w ≤ 1) := by
    induction h with
    | init s0 g0 s g hfresh hres =>
      obtain ⟨l1, s1, g1, e, hinit, hemit, hshapeI, hinact⟩ :=
        Initialize_detail R T s0 g0 (Initialize_nonneg R T s0 g0 hres)
      rw [hres] at hinit
      cases hinit
      obtain ⟨hshape, hs, hslots⟩ := EmitParticles_cases R T _ _ g0 hshapeI hemit
      refine ⟨hshape, fun i hi => ?_⟩
      rw [capacity_of_settings hs] at hi
      obtain ⟨q, hq, hcase⟩ := hslots i hi
      rcases hcase with h1 | ⟨-, g2, h2⟩
      · refine ⟨q, h1, fun h0 => ?_, ?_⟩
        · exact absurd h0 (not_le.2 ((inactive_iff_of_slot hq).1 (hinact i hi)))
        · have hc : (allocated s0 l1).colors[i]? = some q.color := (slot_eq_some_iff.1 hq).2.2.1
          have hc2 : (resize ([] : List Vec4) s0.maxParticles.toNat (Vec4.splat 1))[i]?
              = some q.color := by
            rw [← hfresh.2.2.1]
            exact hc
          rw [resize_nil_getElem? _ _ _ _ hc2]
          exact ⟨by norm_num [Vec4.splat], by norm_num [Vec4.splat]⟩
      · exact ⟨_, h2, fun _ => le_refl _, le_refl _, by norm_num [newParticle]⟩
    | tick s g tr dt s1 g1 e _ hdt hres ih =>
      obtain ⟨hshape, hold⟩ := ih
      obtain ⟨hshape1, hcap, hslots⟩ := Update_cases R T s tr dt g hshape hres
      refine ⟨hshape1, fun i hi => ?_⟩
      rw [hcap] at hi
      obtain ⟨q, hq, hcase⟩ := hslots i hi
      obtain ⟨q0, hq0, hb, ha⟩ := hold i hi
      rw [hq] at hq0
      cases hq0
      have hdt0 : (0 : ℚ) ≤ dt := le_of_lt hdt
      rcases hcase with h1 | ⟨-, g2, h2⟩
      · exact ⟨_, h1, stepSlot_lifetime_le s.gravity hdt0 hb,
          stepSlot_alpha_mem s.gravity hdt0 hb ha⟩
      · exact ⟨_, h2, stepSlot_lifetime_le s.gravity hdt0 (fun _ => le_refl _),
          stepSlot_alpha_mem s.gravity hdt0 (fun _ => le_refl _)
            ⟨le_refl _, by norm_num [newParticle]⟩⟩
  intro i hi
  obtain ⟨q, hq, -, ha⟩ := key.2 i hi
  exact ⟨q, hq, ha⟩

/-- Instance of C11 on the state reached from the blank two-slot component by
`Initialize` and one tick of `dt = 1/5`: slot 0 is active with alpha 2/3, slot 1 was never
activated and has alpha 1. -/
theorem alpha_in_unit_interval_witness :
    ReachableFrom lowRandom circleTrig (fun dt => 0 < dt) Fresh tickStore 10 ∧
    ∀ i, i < capacity tickStore →
      ∃ q, slot tickStore i = some q ∧ 0 ≤ q.color.w ∧ q.color.w ≤ 1 :=
  ⟨tickStore_reachableFrom _ (by norm_num),
    alpha_in_unit_interval lowRandom circleTrig tickStore 10
      (tickStore_reachableFrom _ (by norm_num))⟩

/-- C14: buffer upload is a full overwrite.  In every state reached by `Initialize` and
any `Update` ticks, a further `Update` returns, and at its end (after
`UpdateGPUBuffers`) the position+size buffer, the colour+alpha buffer and the lifetime
buffer equal the CPU arrays `positions`, `colors` and `lifetimes`, element for element
over all `maxParticles` slots, inactive ones included. -/
theorem upload_full_overwrite (R : RandomSource) (T : Trig) (s : HPParticleComponent)
    (g : Nat) (tr : TransformComponent) (dt : ℚ) (h : Reachable R T (fun _ => True) s g) :
    ∃ s1 g1 e, Update R T s tr dt g = some (s1, g1, e) ∧
      s1.positionBuffer = s1.positions ∧ s1.colorBuffer = s1.colors ∧
      s1.lifetimeBuffer = s1.lifetimes ∧
      (s1.positions.length : Int) = s1.maxParticles ∧
      (s1.colors.length : Int) = s1.maxParticles ∧
      (s1.lifetimes.length : Int) = 2 * s1.maxParticles := by
  obtain ⟨s1, g1, e, hres, hshape1, -, -, hb⟩ :=
    Update_buffers R T s tr dt g (reachable_shape R T _ h)
  obtain ⟨-, p1, p3, p4⟩ := hb (reachable_buffers R T _ h)
  exact ⟨s1, g1, e, hres, p1, p3, p4, hshape1.1, hshape1.2.2.1, hshape1.2.2.2⟩

/-- Instance of C14: the tick of `dt = 1/5` on the initialised two-slot component. -/
theorem upload_full_overwrite_witness :
    Reachable lowRandom circleTrig (fun _ => True) initStore 0 ∧
    ∃ s1 g1 e, Update lowRandom circleTrig initStore originTransform (1 / 5) 0
        = some (s1, g1, e) ∧
      s1.positionBuffer = s1.positions ∧ s1.colorBuffer = s1.colors ∧
      s1.lifetimeBuffer = s1.lifetimes ∧
      (s1.positions.length : Int) = s1.maxParticles ∧
      (s1.colors.length : Int) = s1.maxParticles ∧
      (s1.lifetimes.length : Int) = 2 * s1.maxParticles :=
  ⟨initStore_reachable _,
    upload_full_overwrite lowRandom circleTrig initStore 0 originTransform (1 / 5)
      (initStore_reachable _)⟩

/-- C15, as stated, fails: after `Initialize` and one `Update` tick of `dt = 1/5` on the
blank two-slot component, GPU buffer 1 still holds the zero vectors written by
`glBufferData` while the CPU `velocities` array holds the velocity of the particle in
slot 0. -/
theorem velocity_buffer_stale :
    Reachable lowRandom circleTrig (fun _ => True) initStore 0 ∧
    Update lowRandom circleTrig initStore originTransform (1 / 5) 0
      = some (tickStore, 10, 1) ∧
    tickStore.velocityBuffer = [⟨0, 0, 0, 0⟩, ⟨0, 0, 0, 0⟩] ∧
    tickStore.velocities = [⟨-99 / 200, 4851 / 50000, -99 / 200, 1 / 20⟩, ⟨0, 0, 0, 0⟩] ∧
    tickStore.velocityBuffer ≠ tickStore.velocities := by
  refine ⟨initStore_reachable _, tickStore_eq, rfl, rfl, ?_⟩
  simp [tickStore, initStore, blankStore, sampleStore]

/-- C15, amended: the velocity+damping buffer is not uploaded with the other three.
`UpdateGPUBuffers` leaves GPU buffer 1 exactly as it was, and so does every `Update` on
a store of the allocated shape: after the tick buffer 1 holds what it held before
it (what `glBufferData` wrote in `Initialize`), whatever the CPU `velocities` array has
become. -/
theorem velocity_buffer_unchanged (R : RandomSource) (T : Trig) (s : HPParticleComponent)
    (tr : TransformComponent) (dt : ℚ) (g : Nat) (h : StoreShape s) :
    (UpdateGPUBuffers s).velocityBuffer = s.velocityBuffer ∧
    ∃ s1 g1 e, Update R T s tr dt g = some (s1, g1, e) ∧
      s1.velocityBuffer = s.velocityBuffer := by
  obtain ⟨s1, g1, e, hres, -, -, hv, -⟩ := Update_buffers R T s tr dt g h
  exact ⟨rfl, s1, g1, e, hres, hv⟩

/-- Instance of the amended C15 on the initialised two-slot component. -/
theorem velocity_buffer_unchanged_witness :
    StoreShape initStore ∧
    (UpdateGPUBuffers initStore).velocityBuffer = initStore.velocityBuffer ∧
    ∃ s1 g1 e, Update lowRandom circleTrig initStore originTransform (1 / 5) 0
        = some (s1, g1, e) ∧
      s1.velocityBuffer = initStore.velocityBuffer :=
  ⟨reachable_shape _ _ _ (initStore_reachable (fun _ => True)),
    velocity_buffer_unchanged lowRandom circleTrig initStore originTransform (1 / 5) 0
      (reachable_shape _ _ _ (initStore_reachable (fun _ => True)))⟩

/-- C17: the store is never resized.  `Initialize` (on a component with
`maxParticles >= 0`) returns a store in which `positions`, `velocities` and `colors` have
length `maxParticles` and `lifetimes` has length `2 * maxParticles`, the pair of slot `i`
sitting at indices `2i` and `2i + 1`; on a store of that shape `EmitParticles` and
`Update` return and, like `UpdateGPUBuffers`, preserve all four lengths and
`maxParticles`. -/
theorem store_never_resized (R : RandomSource) (T : Trig) (s0 : HPParticleComponent) (g0 : Nat)
    (s : HPParticleComponent) (count : Int) (g : Nat) (tr : TransformComponent) (dt : ℚ)
    (h0 : 0 ≤ s0.maxParticles) (h : StoreShape s) :
    (∃ s1 g1, Initialize R T s0 g0 = some (s1, g1) ∧ s1.maxParticles = s0.maxParticles ∧
      (s1.positions.length : Int) = s1.maxParticles ∧
      (s1.velocities.length : Int) = s1.maxParticles ∧
      (s1.colors.length : Int) = s1.maxParticles ∧
      (s1.lifetimes.length : Int) = 2 * s1.maxParticles ∧
      ∀ i, i < capacity s1 → ∃ q, slot s1 i = some q ∧
        s1.lifetimes[2 * i]? = some q.lifetimeCurrent ∧
        s1.lifetimes[2 * i + 1]? = some q.lifetimeMax) ∧
    (∃ s1 g1 e, EmitParticles R T s count g = some (s1, g1, e) ∧ SameLengths s s1 ∧
      s1.maxParticles = s.maxParticles) ∧
    (∃ s1 g1 e, Update R T s tr dt g = some (s1, g1, e) ∧ SameLengths s s1 ∧
      s1.maxParticles = s.maxParticles) ∧
    (SameLengths s (UpdateGPUBuffers s) ∧ (UpdateGPUBuffers s).maxParticles = s.maxParticles) := by
  have hsame : ∀ s1 : HPParticleComponent, StoreShape s1 → capacity s1 = capacity s →
      SameLengths s s1 := by
    intro s1 hshape1 hcap
    obtain ⟨l1, l2, l3, l4⟩ := lengths_of_shape h
    obtain ⟨m1, m2, m3, m4⟩ := lengths_of_shape hshape1
    exact ⟨by omega, by omega, by omega, by omega⟩
  have hmax : ∀ s1 : HPParticleComponent, StoreShape s1 → capacity s1 = capacity s →
      s1.maxParticles = s.maxParticles := by
    intro s1 hshape1 hcap
    have a1 := ((storeShape_iff s).1 h).1
    have a2 := ((storeShape_iff s1).1 hshape1).1
    unfold capacity at hcap
    omega
  refine ⟨?_, ?_, ?_, ⟨rfl, rfl, rfl, rfl⟩, rfl⟩
  · obtain ⟨l1, s1, g1, e, hinit, hemit, hshapeI, -⟩ := Initialize_detail R T s0 g0 h0
    obtain ⟨hshape1, hs1, -⟩ := EmitParticles_cases R T _ _ g0 hshapeI hemit
    have hm : s1.maxParticles = s0.maxParticles := by
      show (settings s1).maxParticles = (settings (allocated s0 l1)).maxParticles
      rw [hs1]
    refine ⟨s1, g1, hinit, hm, hshape1.1, hshape1.2.1, hshape1.2.2.1, hshape1.2.2.2, ?_⟩
    intro i hi
    obtain ⟨p, v, c, cur, mx, -, -, -, e4, e5, es⟩ := slot_isSome (lengths_of_shape hshape1) hi
    refine ⟨_, es, ?_, ?_⟩
    · rw [Nat.mul_comm]; exact e4
    · rw [Nat.mul_comm]; exact e5
  · obtain ⟨s1, hres, hl1, hs1, -, -⟩ := EmitParticles_slots R T s count g h
    have hshape1 := storeShape_of_lengths h hl1 hs1
    exact ⟨s1, _, _, hres, hsame s1 hshape1 (capacity_of_settings hs1),
      hmax s1 hshape1 (capacity_of_settings hs1)⟩
  · obtain ⟨s1, g1, e, hres, hshape1, hcap, -, -⟩ := Update_buffers R T s tr dt g h
    exact ⟨s1, g1, e, hres, hsame s1 hshape1 hcap, hmax s1 hshape1 hcap⟩

/-- Instance of C17: `Initialize` on the blank component, the other functions on the
sample store. -/
theorem store_never_resized_witness :
    (∃ s1 g1, Initialize lowRandom circleTrig blankStore 0 = some (s1, g1) ∧
      s1.maxParticles = blankStore.maxParticles ∧
      (s1.positions.length : Int) = s1.maxParticles ∧
      (s1.velocities.length : Int) = s1.maxParticles ∧
      (s1.colors.length : Int) = s1.maxParticles ∧
      (s1.lifetimes.length : Int) = 2 * s1.maxParticles ∧
      ∀ i, i < capacity s1 → ∃ q, slot s1 i = some q ∧
        s1.lifetimes[2 * i]? = some q.lifetimeCurrent ∧
        s1.lifetimes[2 * i + 1]? = some q.lifetimeMax) ∧
    (∃ s1 g1 e, EmitParticles lowRandom circleTrig sampleStore 5 0 = some (s1, g1, e) ∧
      SameLengths sampleStore s1 ∧ s1.maxParticles = sampleStore.maxParticles) ∧
    (∃ s1 g1 e, Update lowRandom circleTrig sampleStore originTransform (1 / 10) 0
        = some (s1, g1, e) ∧
      SameLengths sampleStore s1 ∧ s1.maxParticles = sampleStore.maxParticles) ∧
    (SameLengths sampleStore (UpdateGPUBuffers sampleStore) ∧
      (UpdateGPUBuffers sampleStore).maxParticles = sampleStore.maxParticles) :=
  store_never_resized lowRandom circleTrig blankStore 0 sampleStore 5 0 originTransform
    (1 / 10) (by decide) sampleStore_shape

theorem freshStore_fresh : Fresh freshStore := ⟨rfl, rfl, rfl, rfl⟩

/-- C21, as stated, fails: `Initialize` turns the blank two-slot component into
`initStore`, whose slot 0 was never activated (`lifetimeCurrent = -1`) and has alpha 1,
the fill value `glm::vec4(1.0f)` of `colors.resize`. -/
theorem inactive_slot_opaque :
    Fresh blankStore ∧
    Initialize lowRandom circleTrig blankStore 0 = some (initStore, 0) ∧
    ∃ q, slot initStore 0 = some q ∧ q.lifetimeCurrent = -1 ∧ q.color.w = 1 ∧ q.color.w ≠ 0 := by
  refine ⟨blankStore_fresh, rfl, untouchedSlot, rfl, rfl, rfl, ?_⟩
  show (1 : ℚ) ≠ 0
  norm_num

/-- C21, amended: immediately after `Initialize` of a fresh component every slot that
was never activated (index at least `maxParticles / 10`) is inactive with
`lifetimeCurrent = -1` and has the colour `(1, 1, 1, 1)`, so its alpha is 1; alpha 0
is what emission writes into the slots it re-initialises. -/
theorem inactive_slots_start_opaque (R : RandomSource) (T : Trig) (s0 : HPParticleComponent)
    (g0 : Nat) (hfresh : Fresh s0) (h0 : 0 ≤ s0.maxParticles) :
    ∃ s g, Initialize R T s0 g0 = some (s, g) ∧
      (∀ i, initialCount s0 ≤ i → i < capacity s → ∃ q, slot s i = some q ∧
        q.lifetimeCurrent = -1 ∧ q.color = ⟨1, 1, 1, 1⟩ ∧ q.color.w = 1) ∧
      (∀ i, i < initialCount s0 → i < capacity s → ∃ q, slot s i = some q ∧
        q.color.w = 0) := by
  obtain ⟨s, hinit, -, hcap, hslots⟩ := Initialize_fresh_slots R T s0 g0 hfresh h0
  refine ⟨s, _, hinit, ?_, ?_⟩
  · intro i hk hi
    rw [hcap] at hi
    refine ⟨untouchedSlot, ?_, rfl, rfl, rfl⟩
    rw [hslots i hi, if_neg (by omega)]
  · intro i hk hi
    rw [hcap] at hi
    refine ⟨newParticle R T s0 (g0 + 10 * i), ?_, rfl⟩
    rw [hslots i hi, if_pos hk]

/-- Instance of the amended C21 on the fresh component of capacity twenty. -/
theorem inactive_slots_start_opaque_witness :
    Fresh freshStore ∧
    ∃ s g, Initialize midRandom circleTrig freshStore 0 = some (s, g) ∧
      (∀ i, initialCount freshStore ≤ i → i < capacity s → ∃ q, slot s i = some q ∧
        q.lifetimeCurrent = -1 ∧ q.color = ⟨1, 1, 1, 1⟩ ∧ q.color.w = 1) ∧
      (∀ i, i < initialCount freshStore → i < capacity s → ∃ q, slot s i = some q ∧
        q.color.w = 0) :=
  ⟨freshStore_fresh,
    inactive_slots_start_opaque midRandom circleTrig freshStore 0 freshStore_fresh (by decide)⟩

/-- C28: initial population.  Starting from empty arrays, `Initialize` returns, having
re-initialised by emission exactly the `floor(maxParticles / 10)` lowest-index slots
(slot `i` from the `i`-th batch of draws) and leaving every other slot inactive with
`lifetimeCurrent = -1` and `lifetimeMax = 0`; for `maxParticles < 10` no particle is
emitted and no draw is consumed. -/
theorem initial_population (R : RandomSource) (T : Trig) (s0 : HPParticleComponent)
    (g0 : Nat) (hfresh : Fresh s0) (h0 : 0 ≤ s0.maxParticles) :
    ∃ s, Initialize R T s0 g0 = some (s, g0 + drawsPerParticle * initialCount s0) ∧
      (initialCount s0 : Int) = s0.maxParticles / 10 ∧
      (∀ i, i < initialCount s0 →
        slot s i = some (newParticle R T s0 (g0 + drawsPerParticle * i))) ∧
      (∀ i, initialCount s0 ≤ i → i < capacity s → ∃ q, slot s i = some q ∧
        q.lifetimeCurrent = -1 ∧ q.lifetimeMax = 0 ∧ Inactive s i) ∧
      (s0.maxParticles < 10 → initialCount s0 = 0 ∧ Initialize R T s0 g0 = some (s, g0)) := by
  obtain ⟨s, hinit, -, hcap, hslots⟩ := Initialize_fresh_slots R T s0 g0 hfresh h0
  have hk : (initialCount s0 : Int) = s0.maxParticles / 10 := by
    unfold initialCount
    omega
  have hkle : initialCount s0 ≤ capacity s0 := by
    unfold initialCount capacity
    omega
  refine ⟨s, hinit, hk, ?_, ?_, ?_⟩
  · intro i hi
    rw [hslots i (by omega), if_pos hi]
    rfl
  · intro i hi hic
    rw [hcap] at hic
    have hs : slot s i = some untouchedSlot := by
      rw [hslots i hic, if_neg (by omega)]
    refine ⟨untouchedSlot, hs, rfl, rfl, (inactive_iff_of_slot hs).2 ?_⟩
    show (-1 : ℚ) < 0
    norm_num
  · intro hlt
    have hz : initialCount s0 = 0 := by
      unfold initialCount
      omega
    refine ⟨hz, ?_⟩
    rw [hinit, hz]
    rfl

/-- Instance of C28 on the fresh component of capacity twenty: slots 0 and 1 are
re-initialised. -/
theorem initial_population_witness :
    Fresh freshStore ∧
    ∃ s, Initialize midRandom circleTrig freshStore 0
        = some (s, 0 + drawsPerParticle * initialCount freshStore) ∧
      (initialCount freshStore : Int) = freshStore.maxParticles / 10 ∧
      (∀ i, i < initialCount freshStore →
        slot s i = some (newParticle midRandom circleTrig freshStore
          (0 + drawsPerParticle * i))) ∧
      (∀ i, initialCount freshStore ≤ i → i < capacity s → ∃ q, slot s i = some q ∧
        q.lifetimeCurrent = -1 ∧ q.lifetimeMax = 0 ∧ Inactive s i) ∧
      (freshStore.maxParticles < 10 →
        initialCount freshStore = 0 ∧
        Initialize midRandom circleTrig freshStore 0 = some (s, 0)) :=
  ⟨freshStore_fresh,
    initial_population midRandom circleTrig freshStore 0 freshStore_fresh (by decide)⟩

theorem sampleStore_slot_zero :
    slot sampleStore 0 = some ⟨⟨0, 0, 0, 0⟩, ⟨0, 0, 0, 0⟩, ⟨1, 1, 1, 1⟩, -1, 0⟩ := by
  simp [slot, sampleStore]

/-- C22: slot indices are stable under emission.  For every store of the allocated
shape and every count, `EmitParticles` returns and every slot that was active on entry
keeps its whole row: position, size, velocity, damping, colour, alpha,
`lifetimeCurrent` and `lifetimeMax` at the same index. -/
theorem EmitParticles_keeps_active (R : RandomSource) (T : Trig) (s : HPParticleComponent)
    (count : Int) (g : Nat) (i : Nat) (q : ParticleSlot) (h : StoreShape s)
    (hq : slot s i = some q) (hactive : 0 ≤ q.lifetimeCurrent) :
    ∃ s1 g1 e, EmitParticles R T s count g = some (s1, g1, e) ∧ slot s1 i = some q := by
  obtain ⟨s1, hres, -, -, -, hslots⟩ := EmitParticles_slots R T s count g h
  have hi : i < capacity s := by
    have hl := (lengths_of_shape h).1
    have hp := (slot_eq_some_iff.1 hq).1
    by_contra hc
    rw [List.getElem?_eq_none (by omega)] at hp
    cases hp
  refine ⟨s1, _, _, hres, ?_⟩
  rw [hslots i hi, if_neg, hq]
  intro hh
  exact absurd ((inactive_iff_of_slot hq).1 hh.1) (not_lt.2 hactive)

/-- Instance of C22: slot 1 of the sample store under a request of five particles. -/
theorem EmitParticles_keeps_active_witness :
    ∃ s1 g1 e, EmitParticles midRandom circleTrig sampleStore 5 0 = some (s1, g1, e) ∧
      slot s1 1 = some ⟨⟨1, 2, 3, 1⟩, ⟨1, 0, -1, 1 / 20⟩, ⟨1, 1 / 2, 1, 0⟩, 2, 4⟩ :=
  EmitParticles_keeps_active midRandom circleTrig sampleStore 5 0 1 _ sampleStore_shape
    sampleStore_slot_one (by norm_num)

/-- C23: the simulation step never activates a slot.  Every slot that is inactive
(`lifetimeCurrent < 0`) when the simulation loop of `Update` starts has the same row in
all four arrays when the loop ends, so it is still inactive. -/
theorem simulate_keeps_inactive (s : HPParticleComponent) (dt : ℚ) (i : Nat) (q : ParticleSlot)
    (h : StoreShape s) (hq : slot s i = some q) (hinactive : q.lifetimeCurrent < 0) :
    ∃ s1, simulate s dt = some s1 ∧ slot s1 i = some q ∧ Inactive s1 i := by
  obtain ⟨s1, hres, -, -, hslots⟩ := simulate_slots s dt h
  have hs : slot s1 i = some q := by
    rw [hslots i q hq, stepSlot_of_inactive _ _ hinactive]
  exact ⟨s1, hres, hs, (inactive_iff_of_slot hs).2 hinactive⟩

/-- Instance of C23: slot 0 of the sample store under a tick of `dt = 1`. -/
theorem simulate_keeps_inactive_witness :
    ∃ s1, simulate sampleStore 1 = some s1 ∧
      slot s1 0 = some ⟨⟨0, 0, 0, 0⟩, ⟨0, 0, 0, 0⟩, ⟨1, 1, 1, 1⟩, -1, 0⟩ ∧ Inactive s1 0 :=
  simulate_keeps_inactive sampleStore 1 0 _ sampleStore_shape sampleStore_slot_zero
    (by norm_num)

/-- C24: monotonic lifetime decay.  For every `dt > 0` and every slot that is active
before the simulation step, if the slot is still active after the step then its
`lifetimeCurrent` is the old one minus `dt`, strictly smaller, and its `lifetimeMax` is
unchanged. -/
theorem lifetime_decay (s : HPParticleComponent) (dt : ℚ) (i : Nat) (q : ParticleSlot)
    (h : StoreShape s) (hq : slot s i = some q) (hdt : 0 < dt)
    (hactive : 0 ≤ q.lifetimeCurrent) :
    ∃ s1 q1, simulate s dt = some s1 ∧ slot s1 i = some q1 ∧
      (0 ≤ q1.lifetimeCurrent → q1.lifetimeCurrent = q.lifetimeCurrent - dt ∧
        q1.lifetimeCurrent < q.lifetimeCurrent ∧ q1.lifetimeMax = q.lifetimeMax) := by
  obtain ⟨s1, hres, -, -, hslots⟩ := simulate_slots s dt h
  refine ⟨s1, _, hres, hslots i q hq, ?_⟩
  unfold stepSlot
  rw [if_neg (not_lt.2 hactive)]
  by_cases hx : q.lifetimeCurrent - dt ≤ 0
  · rw [if_pos hx]
    intro h0
    norm_num at h0
  · rw [if_neg hx]
    intro _
    exact ⟨rfl, by show q.lifetimeCurrent - dt < q.lifetimeCurrent; linarith, rfl⟩

/-- Instance of C24: slot 1 of the sample store (lifetime 2 of 4) under `dt = 1`. -/
theorem lifetime_decay_witness :
    ∃ s1 q1, simulate sampleStore 1 = some s1 ∧ slot s1 1 = some q1 ∧
      (0 ≤ q1.lifetimeCurrent → q1.lifetimeCurrent = 2 - 1 ∧
        q1.lifetimeCurrent < 2 ∧ q1.lifetimeMax = 4) :=
  lifetime_decay sampleStore 1 1 _ sampleStore_shape sampleStore_slot_one (by norm_num)
    (by norm_num)

/-- C25: damping sign flip.  For a surviving slot the step computes
`velocity' = (velocity + gravity * dt) * (1 - damping * dt)` whatever the value of
`damping * dt` (there is no validation).  Per component: if `0 <= damping * dt < 1` the
new component has the sign of `velocity + gravity * dt` and a magnitude no larger; if
`damping * dt > 1` a non-zero component gets the opposite sign. -/
theorem damping_sign (s : HPParticleComponent) (dt : ℚ) (i : Nat) (q : ParticleSlot)
    (h : StoreShape s) (hq : slot s i = some q) (hactive : 0 ≤ q.lifetimeCurrent)
    (hsurvives : 0 < q.lifetimeCurrent - dt) :
    ∃ s1 q1, simulate s dt = some s1 ∧ slot s1 i = some q1 ∧
      q1.velocity.x = (q.velocity.x + s.gravity.x * dt) * (1 - q.velocity.w * dt) ∧
      q1.velocity.y = (q.velocity.y + s.gravity.y * dt) * (1 - q.velocity.w * dt) ∧
      q1.velocity.z = (q.velocity.z + s.gravity.z * dt) * (1 - q.velocity.w * dt) ∧
      DampingEffect (q.velocity.x + s.gravity.x * dt) q1.velocity.x (q.velocity.w * dt) ∧
      DampingEffect (q.velocity.y + s.gravity.y * dt) q1.velocity.y (q.velocity.w * dt) ∧
      DampingEffect (q.velocity.z + s.gravity.z * dt) q1.velocity.z (q.velocity.w * dt) := by
  obtain ⟨s1, hres, -, -, hslots⟩ := simulate_slots s dt h
  refine ⟨s1, _, hres, hslots i q hq, ?_⟩
  unfold stepSlot
  rw [if_neg (not_lt.2 hactive), if_neg (not_le.2 hsurvives)]
  exact ⟨rfl, rfl, rfl, dampingEffect_mul _ _, dampingEffect_mul _ _, dampingEffect_mul _ _⟩

/-- Instance of C25: slot 1 of the sample store (damping 1/20) under `dt = 1`. -/
theorem damping_sign_witness :
    ∃ s1 q1, simulate sampleStore 1 = some s1 ∧ slot s1 1 = some q1 ∧
      q1.velocity.x = ((1 : ℚ) + sampleStore.gravity.x * 1) * (1 - 1 / 20 * 1) ∧
      q1.velocity.y = ((0 : ℚ) + sampleStore.gravity.y * 1) * (1 - 1 / 20 * 1) ∧
      q1.velocity.z = ((-1 : ℚ) + sampleStore.gravity.z * 1) * (1 - 1 / 20 * 1) ∧
      DampingEffect ((1 : ℚ) + sampleStore.gravity.x * 1) q1.velocity.x (1 / 20 * 1) ∧
      DampingEffect ((0 : ℚ) + sampleStore.gravity.y * 1) q1.velocity.y (1 / 20 * 1) ∧
      DampingEffect ((-1 : ℚ) + sampleStore.gravity.z * 1) q1.velocity.z (1 / 20 * 1) :=
  damping_sign sampleStore 1 1 _ sampleStore_shape sampleStore_slot_one (by norm_num)
    (by norm_num)

/-- C26: the `activeParticles` statistic is exact.  On a store of the allocated shape
`Update` returns, and in the resulting component `activeParticles` equals the number of
slots with `lifetimeCurrent >= 0` of the resulting store: particles emitted in this
tick that survived their first step are counted, slots that expired in it are not. -/
theorem activeParticles_exact (R : RandomSource) (T : Trig) (s : HPParticleComponent)
    (tr : TransformComponent) (dt : ℚ) (g : Nat) (h : StoreShape s) :
    ∃ s1 g1 e, Update R T s tr dt g = some (s1, g1, e) ∧
      s1.activeParticles = (activeSlotCount s1 : Int) := by
  obtain ⟨s1, s2, g1, req, e, -, hshape1, hcap1, hsim, hshape2, hcap2, hup⟩ :=
    Update_phases R T s tr dt g h
  refine ⟨UpdateGPUBuffers s2, g1, e, hup, ?_⟩
  show s2.activeParticles = (activeSlotCount s2 : Int)
  rw [simulate_active s1 dt hshape1 hsim, activeSlotCount_eq hshape2, hcap1, hcap2]

/-- Instance of C26: the tick of `dt = 1/5` on the initialised two-slot component, which
emits one particle that survives. -/
theorem activeParticles_exact_witness :
    StoreShape initStore ∧
    ∃ s1 g1 e, Update lowRandom circleTrig initStore originTransform (1 / 5) 0
        = some (s1, g1, e) ∧
      s1.activeParticles = (activeSlotCount s1 : Int) :=
  ⟨initStore_shape,
    activeParticles_exact lowRandom circleTrig initStore originTransform (1 / 5) 0
      initStore_shape⟩

/-- C30: index safety.  Whenever `positions`, `velocities` and `colors` have length
`maxParticles` and `lifetimes` has length `2 * maxParticles`, the indices `i`, `2i` and
`2i + 1` of every slot `i < maxParticles` are in bounds, and `EmitParticles`, the
simulation loop and `Update` never take the out-of-range branch of the embedding: they
return a result for every count, transform, `deltaTime` and random source. -/
theorem index_safety (R : RandomSource) (T : Trig) (s : HPParticleComponent) (count : Int)
    (tr : TransformComponent) (dt : ℚ) (g : Nat) (h : StoreShape s) :
    (∀ i : Nat, (i : Int) < s.maxParticles →
      i < s.positions.length ∧ i < s.velocities.length ∧ i < s.colors.length ∧
      2 * i < s.lifetimes.length ∧ 2 * i + 1 < s.lifetimes.length) ∧
    (∃ r, EmitParticles R T s count g = some r) ∧
    (∃ r, simulate s dt = some r) ∧
    (∃ r, Update R T s tr dt g = some r) ∧
    EmitParticles R T s count g ≠ none ∧ Update R T s tr dt g ≠ none := by
  obtain ⟨s1, hres1, -⟩ := EmitParticles_slots R T s count g h
  obtain ⟨s2, hres2, -⟩ := simulate_slots s dt h
  obtain ⟨s3, hres3, -⟩ := Update_spec R T s tr dt g h
  refine ⟨?_, ⟨_, hres1⟩, ⟨_, hres2⟩, ⟨_, hres3⟩, ?_, ?_⟩
  · intro i hi
    obtain ⟨h1, h2, h3, h4⟩ := h
    refine ⟨?_, ?_, ?_, ?_, ?_⟩ <;> omega
  · rw [hres1]
    exact Option.some_ne_none _
  · rw [hres3]
    exact Option.some_ne_none _

/-- Instance of C30 on the sample store. -/
theorem index_safety_witness :
    (∀ i : Nat, (i : Int) < sampleStore.maxParticles →
      i < sampleStore.positions.length ∧ i < sampleStore.velocities.length ∧
      i < sampleStore.colors.length ∧
      2 * i < sampleStore.lifetimes.length ∧ 2 * i + 1 < sampleStore.lifetimes.length) ∧
    (∃ r, EmitParticles midRandom circleTrig sampleStore 5 0 = some r) ∧
    (∃ r, simulate sampleStore (1 / 10) = some r) ∧
    (∃ r, Update midRandom circleTrig sampleStore originTransform (1 / 10) 0 = some r) ∧
    EmitParticles midRandom circleTrig sampleStore 5 0 ≠ none ∧
    Update midRandom circleTrig sampleStore originTransform (1 / 10) 0 ≠ none :=
  index_safety midRandom circleTrig sampleStore 5 originTransform (1 / 10) 0 sampleStore_shape

/-- Without the allocated shape the out-of-range branch is taken: on the blank
component (empty arrays, `maxParticles = 2`) `EmitParticles` reads `lifetimes[0]`. -/
theorem EmitParticles_unallocated :
    EmitParticles lowRandom circleTrig blankStore 1 0 = none := rfl

/-- C27: canonical sentinel invariant.  In every state reached by `Initialize` followed
by `Update` ticks (of any `deltaTime`), provided every lifetime drawn from the
configured range `[initialLifespanMin, initialLifespanMax]` is `>= 0`, each inactive
slot has `lifetimeCurrent` exactly -1. -/
theorem sentinel_invariant (R : RandomSource) (T : Trig) (lo hi : ℚ) (s : HPParticleComponent)
    (g : Nat) (hdraw : ∀ n, 0 ≤ R.Range n lo hi)
    (h : ReachableFrom R T (fun _ => True)
      (fun s0 => s0.initialLifespanMin = lo ∧ s0.initialLifespanMax = hi) s g) :
    ∀ i, i < capacity s → ∃ q, slot s i = some q ∧
      (q.lifetimeCurrent < 0 → q.lifetimeCurrent = -1) := by
  have hnew : ∀ (sc : HPParticleComponent) (g2 : Nat), sc.initialLifespanMin = lo →
      sc.initialLifespanMax = hi →
      ((newParticle R T sc g2).lifetimeCurrent < 0 →
        (newParticle R T sc g2).lifetimeCurrent = -1) := by
    intro sc g2 h1 h2 hneg
    have h3 : R.Range (g2 + 9) sc.initialLifespanMin sc.initialLifespanMax < 0 := hneg
    rw [h1, h2] at h3
    exact absurd (hdraw (g2 + 9)) (not_le.2 h3)
  have key : StoreShape s ∧ s.initialLifespanMin = lo ∧ s.initialLifespanMax = hi ∧
      ∀ i, i < capacity s → ∃ q, slot s i = some q ∧
        (q.lifetimeCurrent < 0 → q.lifetimeCurrent = -1) := by
    induction h with
    | init s0 g0 s g hI hres =>
      obtain ⟨hshape, e1, e2, hslots⟩ := Initialize_sentinel R T s0 g0 hres
      refine ⟨hshape, e1.trans hI.1, e2.trans hI.2, fun i hi => ?_⟩
      obtain ⟨q, hq, hcase⟩ := hslots i hi
      refine ⟨q, hq, ?_⟩
      rcases hcase with h1 | ⟨g2, rfl⟩
      · intro _
        exact h1
      · exact hnew s0 g2 hI.1 hI.2
    | tick s g tr dt s1 g1 e _ _ hres ih =>
      obtain ⟨hshape, e1, e2, hold⟩ := ih
      obtain ⟨hshape1, hcap, hslots⟩ := Update_cases R T s tr dt g hshape hres
      obtain ⟨f1, f2⟩ := Update_lifespan R T s tr dt g hshape hres
      refine ⟨hshape1, f1.trans e1, f2.trans e2, fun i hi => ?_⟩
      rw [hcap] at hi
      obtain ⟨q, hq, hcase⟩ := hslots i hi
      obtain ⟨q0, hq0, hb⟩ := hold i hi
      rw [hq] at hq0
      cases hq0
      rcases hcase with h1 | ⟨-, g2, h2⟩
      · exact ⟨_, h1, stepSlot_sentinel s.gravity dt hb⟩
      · exact ⟨_, h2, stepSlot_sentinel s.gravity dt (hnew (afterTimer s tr dt) g2 e1 e2)⟩
  exact key.2.2.2

/-- Instance of C27: the state reached from the blank two-slot component (lifespan range
`[3, 6]`) by `Initialize` and one tick, with the source that draws the lower end. -/
theorem sentinel_invariant_witness :
    (∀ n, 0 ≤ lowRandom.Range n 3 6) ∧
    ReachableFrom lowRandom circleTrig (fun _ => True)
      (fun s0 => s0.initialLifespanMin = 3 ∧ s0.initialLifespanMax = 6) tickStore 10 ∧
    ∀ i, i < capacity tickStore → ∃ q, slot tickStore i = some q ∧
      (q.lifetimeCurrent < 0 → q.lifetimeCurrent = -1) :=
  have hdraw : ∀ n, 0 ≤ lowRandom.Range n 3 6 := fun _ => by
    show (0 : ℚ) ≤ 3
    norm_num
  have hreach : ReachableFrom lowRandom circleTrig (fun _ => True)
      (fun s0 => s0.initialLifespanMin = 3 ∧ s0.initialLifespanMax = 6) tickStore 10 :=
    ReachableFrom.tick initStore 0 originTransform (1 / 5) tickStore 10 1
      (ReachableFrom.init blankStore 0 initStore 0 ⟨rfl, rfl⟩ rfl) trivial tickStore_eq
  ⟨hdraw, hreach, sentinel_invariant lowRandom circleTrig 3 6 tickStore 10 hdraw hreach⟩

/-- C29: a particle is stepped in the tick that emits it.  After every `Update` with
`dt > 0` on a store whose active slots satisfy `lifetimeCurrent <= lifetimeMax`, every
active slot satisfies `0 < lifetimeCurrent <= lifetimeMax - dt`, so none is seen with
`lifetimeCurrent = lifetimeMax`; and a particle emitted by this tick whose drawn lifetime
lies in `[0, dt]` is deactivated by the same tick, its slot ending at
`lifetimeCurrent = -1`. -/
theorem stepped_when_emitted (R : RandomSource) (T : Trig) (s : HPParticleComponent)
    (tr : TransformComponent) (dt : ℚ) (g : Nat) (h : StoreShape s) (hdt : 0 < dt)
    (hentry : ∀ i q, slot s i = some q → 0 ≤ q.lifetimeCurrent →
      q.lifetimeCurrent ≤ q.lifetimeMax) :
    ∃ s1 g1 e, Update R T s tr dt g = some (s1, g1, e) ∧
      (∀ i, i < capacity s1 → ∃ q1, slot s1 i = some q1 ∧
        (0 ≤ q1.lifetimeCurrent → 0 < q1.lifetimeCurrent ∧
          q1.lifetimeCurrent ≤ q1.lifetimeMax - dt ∧ q1.lifetimeCurrent ≠ q1.lifetimeMax)) ∧
      (∀ j i, j < emitCount s (spawnRequest s dt) → (inactiveSlots s)[j]? = some i →
        0 ≤ R.Range (g + drawsPerParticle * j + 9) s.initialLifespanMin s.initialLifespanMax →
        R.Range (g + drawsPerParticle * j + 9) s.initialLifespanMin s.initialLifespanMax ≤ dt →
        ∃ q1, slot s1 i = some q1 ∧ q1.lifetimeCurrent = -1) := by
  obtain ⟨s2, hres, hshape2, hs2, hslots⟩ := Update_spec R T s tr dt g h
  have hcap : capacity s2 = capacity s :=
    (show capacity s2 = capacity (afterTimer s tr dt) from capacity_of_settings hs2)
  refine ⟨UpdateGPUBuffers s2, _, _, hres, ?_, ?_⟩
  · intro i hi
    have hi2 : i < capacity s := by
      rw [← hcap]
      exact hi
    obtain ⟨q, hq, hq2⟩ := hslots i hi2
    refine ⟨_, hq2, ?_⟩
    split
    · exact stepSlot_after s.gravity hdt (fun _ => le_refl _)
    · exact stepSlot_after s.gravity hdt (hentry i q hq)
  · intro j i hj hji hl0 hl1
    obtain ⟨h1, h2, h3⟩ := (inactiveSlots_getElem? s j i).1 hji
    obtain ⟨q, hq, hq2⟩ := hslots i h1
    rw [if_pos ⟨h2, by omega⟩, h3] at hq2
    exact ⟨_, hq2, stepSlot_expired s.gravity hl0 hl1⟩

theorem sampleStore_entry : ∀ i q, slot sampleStore i = some q → 0 ≤ q.lifetimeCurrent →
    q.lifetimeCurrent ≤ q.lifetimeMax := by
  intro i q hq h0
  have hi : i < 3 := by
    have hp := (slot_eq_some_iff.1 hq).1
    by_contra hc
    rw [List.getElem?_eq_none (by simp [sampleStore]; omega)] at hp
    cases hp
  interval_cases i
  · rw [sampleStore_slot_zero] at hq
    cases hq
    norm_num at h0
  · rw [sampleStore_slot_one] at hq
    cases hq
    norm_num
  · have h2 : slot sampleStore 2
        = some ⟨⟨0, 0, 0, 0⟩, ⟨0, 0, 0, 0⟩, ⟨1, 1, 1, 1⟩, -1, 0⟩ := by
      simp [slot, sampleStore]
    rw [h2] at hq
    cases hq
    norm_num at h0

/-- Instance of C29: a tick of `dt = 1/2` on the sample store. -/
theorem stepped_when_emitted_witness :
    ∃ s1 g1 e, Update lowRandom circleTrig sampleStore originTransform (1 / 2) 0
        = some (s1, g1, e) ∧
      ∀ i, i < capacity s1 → ∃ q1, slot s1 i = some q1 ∧
        (0 ≤ q1.lifetimeCurrent → 0 < q1.lifetimeCurrent ∧
          q1.lifetimeCurrent ≤ q1.lifetimeMax - 1 / 2 ∧
          q1.lifetimeCurrent ≠ q1.lifetimeMax) := by
  obtain ⟨s1, g1, e, hres, hall, -⟩ :=
    stepped_when_emitted lowRandom circleTrig sampleStore originTransform (1 / 2) 0
      sampleStore_shape (by norm_num) sampleStore_entry
  exact ⟨s1, g1, e, hres, hall⟩

end HighPerformanceParticleSystem
